import Mathlib

/-!
# Particle pool and frame pass of `project.cpp`

A shallow embedding of the particle pool (`FirstUnusedParticle`,
`RespawnParticle`, the update and draw loops) and of the loop over the
rigid bodies inside `main`. The definitions come first, the results after.

Conventions of the embedding:

* `float` / `btScalar` values are exact rationals (`ℚ`); rounding is not
  modelled, so the results below are about the arithmetic the code spells
  out, not about IEEE rounding.
* C `int` values are `Int`; none of the loops below can overflow because
  every counter is bounded by the loop bound it is compared with.
* `particles[i]` on a `std::vector` has no defined result when `i` is out of
  range; such a read makes the embedded function return `none`.
-/

namespace Project

/-! ## The particle pool -/

/-- A `glm::vec3`. -/
structure Vec3 where
  x : ℚ
  y : ℚ
  z : ℚ
  deriving DecidableEq

/-- A `glm::vec4`; `a` is the fourth component (alpha). -/
structure Vec4 where
  r : ℚ
  g : ℚ
  b : ℚ
  a : ℚ
  deriving DecidableEq

/-- The product `vec3 * float`: componentwise scaling. -/
def Vec3.scale (v : Vec3) (k : ℚ) : Vec3 := ⟨v.x * k, v.y * k, v.z * k⟩

/-- The difference `vec3 - vec3`, componentwise. -/
def Vec3.sub (v w : Vec3) : Vec3 := ⟨v.x - w.x, v.y - w.y, v.z - w.z⟩

/-- The record `struct Particle`. -/
structure Particle where
  Position : Vec3
  Speed : Vec3
  Color : Vec4
  Life : ℚ
  deriving DecidableEq

/-- The constructor `Particle()`: every field zero. -/
def Particle.new : Particle := ⟨⟨0, 0, 0⟩, ⟨0, 0, 0⟩, ⟨0, 0, 0, 0⟩, 0⟩

/-- The three globals the pool lives in: `particles`, `particleNum`,
`lastUsedParticle`. -/
structure Pool where
  particles : List Particle
  particleNum : Int
  lastUsedParticle : Int
  deriving DecidableEq

/-- The read `particles[i]` for an `int` index: `none` when `i` is outside the vector. -/
def readParticle (ps : List Particle) (i : Int) : Option Particle :=
  if 0 ≤ i then ps[i.toNat]? else none

/-- One `for (int i = ...; i < bound; ++i) if (particles[i].Life <= 0.0f) return i;`
loop of `FirstUnusedParticle`, with `n` iterations left and counter `i`.
`some (some i)`: the loop returned `i`; `some none`: the loop ran to its bound;
`none`: the loop read outside the vector. -/
def scanDead (ps : List Particle) : Nat → Int → Option (Option Int)
  | 0, _ => some none
  | n + 1, i =>
    match readParticle ps i with
    | none => none
    | some p => if p.Life ≤ 0 then some (some i) else scanDead ps n (i + 1)

/-- The function `int FirstUnusedParticle()`: the returned index together with the pool
after the call (only `lastUsedParticle` changes). The first loop runs `i`
from `lastUsedParticle` up to `particleNum`, the second from `0` up to
`lastUsedParticle`. -/
def FirstUnusedParticle (s : Pool) : Option (Int × Pool) :=
  match scanDead s.particles (s.particleNum - s.lastUsedParticle).toNat s.lastUsedParticle with
  | none => none
  | some (some i) => some (i, { s with lastUsedParticle := i })
  | some none =>
    match scanDead s.particles (s.lastUsedParticle - 0).toNat 0 with
    | none => none
    | some (some i) => some (i, { s with lastUsedParticle := i })
    | some none => some (0, { s with lastUsedParticle := 0 })

/-- The global `ball_size`. -/
def ball_size : Vec3 := ⟨16 / 100, 16 / 100, 16 / 100⟩

/-- The local `pin_size` of `main`. -/
def pin_size : Vec3 := ⟨12 / 100, 38 / 100, 12 / 100⟩

/-- The part of a `btTransform` the code reads: its origin. -/
structure btTransform where
  origin : Vec3
  deriving DecidableEq

/-- The value `rColor = 0.5f + ((rand() % 100) / 100.0f)` for the value `rnd`
returned by `rand()`; `%` on C `int` truncates towards zero. -/
def rColor (rnd : Int) : ℚ := 1 / 2 + ((Int.tmod rnd 100 : Int) : ℚ) / 100

/-- The function `void RespawnParticle(Particle&, btRigidBody&, btTransform, glm::vec3)`:
`rnd` is the value `rand()` returns, `velocity` is `body.getLinearVelocity()`. -/
def RespawnParticle (rnd : Int) (particle : Particle) (velocity : Vec3)
    (transform : btTransform) (obj_size : Vec3) : Particle :=
  let pos : Vec3 := ⟨transform.origin.x, transform.origin.y, transform.origin.z⟩
  let speed : Vec3 := ⟨velocity.x, velocity.y, velocity.z⟩
  let rc := rColor rnd
  { particle with
    Position := pos
    Color := if obj_size = ball_size then ⟨0, rc, 0, 1⟩ else ⟨rc, rc, rc, 1⟩
    Life := 1
    Speed := speed.scale (1 / 10) }

/-- A spawn as the frame loop performs it:
`unusedParticle = FirstUnusedParticle(); RespawnParticle(particles[unusedParticle], ...)`.
`none` when the returned slot is outside the vector. -/
def spawn (rnd : Int) (velocity : Vec3) (transform : btTransform) (obj_size : Vec3)
    (s : Pool) : Option (Int × Pool) :=
  match FirstUnusedParticle s with
  | none => none
  | some (i, s1) =>
    match readParticle s1.particles i with
    | none => none
    | some p =>
      some (i, { s1 with
        particles := s1.particles.set i.toNat (RespawnParticle rnd p velocity transform obj_size) })

/-- The body of the update loop for one particle `p`:
`p.Life -= deltaTime; if (p.Life > 0.0f) { p.Position -= p.Speed * deltaTime; p.Color.a -= deltaTime * 2.5f; }`. -/
def tickParticle (deltaTime : ℚ) (p : Particle) : Particle :=
  let p1 : Particle := { p with Life := p.Life - deltaTime }
  if p1.Life > 0 then
    { p1 with
      Position := p1.Position.sub (p1.Speed.scale deltaTime)
      Color := { p1.Color with a := p1.Color.a - deltaTime * (5 / 2) } }
  else p1

/-- The update loop `for (int i = 0; i < particles.size(); ++i)`: every
particle of the vector is updated in place. -/
def tick (deltaTime : ℚ) (ps : List Particle) : List Particle :=
  ps.map (tickParticle deltaTime)

/-- The draw test of the draw loop: `if (particle.Life > 0.0f)`. -/
def isDrawn (p : Particle) : Bool := decide (p.Life > 0)

/-- The particles the draw loop draws, in order. -/
def drawnParticles (ps : List Particle) : List Particle := ps.filter isDrawn

/-- The test `particles[i].Life <= 0.0f` as a predicate on an index; an index
outside the vector is not a dead slot. -/
def isDead (ps : List Particle) (i : Int) : Bool :=
  match readParticle ps i with
  | some p => decide (p.Life ≤ 0)
  | none => false

/-- The search order the two loops of `FirstUnusedParticle` describe:
`last, last+1, ..., particleNum-1` followed by `0, 1, ..., last-1`. -/
def cyclicOrder (last particleNum : Int) : List Int :=
  (List.range' last.toNat (particleNum - last).toNat).map Nat.cast
    ++ (List.range' 0 last.toNat).map Nat.cast

/-- The slot `FirstUnusedParticle` settles on: the first dead index of the
search order, `0` when the search finds none. -/
def searchResult (s : Pool) : Int :=
  ((cyclicOrder s.lastUsedParticle s.particleNum).find? (isDead s.particles)).getD 0

/-- Example particles: one with half a second left, one freshly constructed. -/
def liveParticle : Particle := ⟨⟨0, 0, 0⟩, ⟨0, 0, 0⟩, ⟨0, 0, 0, 1⟩, 1 / 2⟩

/-! ## The loop over the rigid bodies

The collision-object array of the dynamics world is a list of bodies. The
explicit destructor call `body->~btRigidBody()` ends the lifetime of the body
object and does nothing to the array, which only the world's own add and remove
calls change, nor does it release the object, which the world still owns. A
later call of a member function on that object has no defined result in C++;
the loop has no test for it, so the first such use is recorded in `fault` and the
pass goes on with what the entry holds. A read outside a vector leaves nothing
to go on with: it is recorded in `fault` and the pass does nothing more. -/

/-- Modelled from the spec: the shape kinds of `Physics::createRigidBody`, the
enumeration `BOX`, `SPHERE` of `utils/physics.h`, which is not among the sources
(spec: shape kinds Box for planes and pins, Sphere for balls). -/
inductive Shape where
  | BOX
  | SPHERE
  deriving DecidableEq

/-- What the loop reads of a `btRigidBody`: the world transform of its motion
state, its linear velocity, and whether its destructor has run; and what the
body was created with, the shape kind and the size given to `createRigidBody`. -/
structure RigidBody where
  transform : btTransform
  linearVelocity : Vec3
  destroyed : Bool
  shape : Shape
  size : Vec3
  deriving DecidableEq

/-- The two models an object is drawn with. -/
inductive ObjectKind where
  | pin
  | ball
  deriving DecidableEq

/-- The observable actions of the loop over the bodies, indexed by the position
`i` of the body in the collision-object array. -/
inductive Event where
  | readTransform (i : Int)
  | spawnParticle (i : Int) (slot : Int)
  | tickParticles
  | drawParticle (p : Particle)
  | drawObject (i : Int) (kind : ObjectKind) (size : Vec3)
  | destroyBody (i : Int)
  deriving DecidableEq

/-- Reads the embedding records where C++ gives no defined result. -/
inductive Fault where
  | outOfRange
  | useAfterDestroy (i : Int)
  deriving DecidableEq

/-- The state the loop over the bodies works on: the collision-object array, the
particle pool, the number of `rand()` calls made so far, the actions performed
so far and the fault, if any. -/
structure Scene where
  bodies : List RigidBody
  pool : Pool
  randCalls : Nat
  trace : List Event
  fault : Option Fault
  deriving DecidableEq

/-- The local `int planeNum = 3;`. -/
def planeNum : Int := 3

/-- The local `GLint num_rows = 4;`. -/
def num_rows : Int := 4

/-- The local `GLint total_pins = num_rows * (num_rows + 1) / 2;`. -/
def total_pins : Int := num_rows * (num_rows + 1) / 2

/-- The test `i <= planeNum * (total_pins + (planeNum - 1*planeNum)) + planeNum - 1`
that selects the pin model and size; otherwise the ball's. -/
def objectKind (i : Int) : ObjectKind :=
  if i ≤ planeNum * (total_pins + (planeNum - 1 * planeNum)) + planeNum - 1 then ObjectKind.pin
  else ObjectKind.ball

/-- The `obj_size` that goes with the selected model. -/
def objectSize (k : ObjectKind) : Vec3 :=
  match k with
  | ObjectKind.pin => pin_size
  | ObjectKind.ball => ball_size

/-- The read `getCollisionObjectArray()[i]`: `none` when `i` is outside the array. -/
def readBody (bodies : List RigidBody) (i : Int) : Option RigidBody :=
  if 0 ≤ i then bodies[i.toNat]? else none

/-- One iteration of `for (int i = 0; i < nr_new_particles; ++i)`:
`FirstUnusedParticle()` then `RespawnParticle(particles[unusedParticle], *body, transform, obj_size)`
for body `i`; `rand k` is the value the `k`-th call of `rand()` returns. -/
def spawnStep (rand : Nat → Int) (i : Int) (body : RigidBody) (obj_size : Vec3)
    (sc : Scene) : Scene :=
  if sc.fault = some Fault.outOfRange then sc
  else
    match spawn (rand sc.randCalls) body.linearVelocity body.transform obj_size sc.pool with
    | none => { sc with fault := some Fault.outOfRange }
    | some (slot, pool) =>
      { sc with
        pool := pool
        randCalls := sc.randCalls + 1
        trace := sc.trace ++ [Event.spawnParticle i slot] }

/-- The update loop and the draw loop over the whole pool, as run inside the
branch of a body that is not culled. -/
def tickAndDraw (deltaTime : ℚ) (sc : Scene) : Scene :=
  if sc.fault = some Fault.outOfRange then sc
  else
    { sc with
      pool := { sc.pool with particles := tick deltaTime sc.pool.particles }
      trace := sc.trace ++ [Event.tickParticles]
        ++ (drawnParticles (tick deltaTime sc.pool.particles)).map Event.drawParticle }

/-- The call `objectModel->Draw()` for body `i`. -/
def drawObject (i : Int) (sc : Scene) : Scene :=
  if sc.fault = some Fault.outOfRange then sc
  else
    { sc with trace := sc.trace ++ [Event.drawObject i (objectKind i) (objectSize (objectKind i))] }

/-- The member calls of a visit on the body at index `i`, as far as `fault` goes:
when the destructor of the body has run and nothing is recorded yet, the use is
recorded. -/
def useBody (i : Int) (body : RigidBody) (sc : Scene) : Scene :=
  if body.destroyed = true ∧ sc.fault = none then
    { sc with fault := some (Fault.useAfterDestroy i) }
  else sc

/-- The body of `for (i = planeNum; i < num_cobjs; i++)` for index `i`: select
the model, read the body's world transform, and either spawn two particles,
update and draw the pool and draw the object (`y >= -7.0f`), or call the body's
destructor. The source does the same on an entry whose destructor has run
already; `useBody` records that use. -/
def visitBody (rand : Nat → Int) (deltaTime : ℚ) (i : Int) (sc : Scene) : Scene :=
  if sc.fault = some Fault.outOfRange then sc
  else
    match readBody sc.bodies i with
    | none => { sc with fault := some Fault.outOfRange }
    | some body =>
      let sc1 : Scene :=
        { useBody i body sc with trace := sc.trace ++ [Event.readTransform i] }
      if body.transform.origin.y ≥ -7 then
        let obj_size := objectSize (objectKind i)
        drawObject i (tickAndDraw deltaTime
          (spawnStep rand i body obj_size (spawnStep rand i body obj_size sc1)))
      else
        { sc1 with
          bodies := sc1.bodies.set i.toNat { body with destroyed := true }
          trace := sc1.trace ++ [Event.destroyBody i] }

/-- The loop `for (i = planeNum; i < num_cobjs; i++)` with `n` iterations left
and counter `i`. -/
def bodyLoop (rand : Nat → Int) (deltaTime : ℚ) : Nat → Int → Scene → Scene
  | 0, _, sc => sc
  | n + 1, i, sc => bodyLoop rand deltaTime n (i + 1) (visitBody rand deltaTime i sc)

/-- The pass over the bodies in one frame: `num_cobjs` is read once, before the
loop, and the counter starts at `planeNum`. -/
def framePass (rand : Nat → Int) (deltaTime : ℚ) (sc : Scene) : Scene :=
  let num_cobjs : Int := sc.bodies.length
  bodyLoop rand deltaTime (num_cobjs - planeNum).toNat planeNum sc

/-- The bounds the pool is created with and keeps: at least one particle,
`0 ≤ particleNum ≤ size` and `0 ≤ lastUsedParticle ≤ size`. -/
def PoolOK (s : Pool) : Prop :=
  1 ≤ s.particles.length ∧ 0 ≤ s.particleNum ∧ s.particleNum ≤ s.particles.length ∧
    0 ≤ s.lastUsedParticle ∧ s.lastUsedParticle ≤ s.particles.length

instance (s : Pool) : Decidable (PoolOK s) := by
  unfold PoolOK
  infer_instance

/-- The position in the collision-object array an action is about, if any. -/
def Event.bodyIndex : Event → Option Int
  | Event.readTransform i => some i
  | Event.spawnParticle i _ => some i
  | Event.tickParticles => none
  | Event.drawParticle _ => none
  | Event.drawObject i _ _ => some i
  | Event.destroyBody i => some i

/-- A body at rest at height `y`, not destroyed, created as a box of the size of
a pin. -/
def restingBody (y : ℚ) : RigidBody := ⟨⟨⟨0, y, 0⟩⟩, ⟨0, 0, 0⟩, false, Shape.BOX, pin_size⟩

/-- A `rand()` that always returns 0. -/
def zeroRand : Nat → Int := fun _ => 0

/-- Three planes and one body that has fallen to `y = -7.1`. -/
def fallenScene : Scene :=
  ⟨[restingBody (-1), restingBody (-1), restingBody (-1), restingBody (-71 / 10)],
    ⟨[Particle.new, Particle.new, Particle.new], 3, 0⟩, 0, [], none⟩

/-- Three bodies below the threshold in the plane positions, then one body at
`y = 0`. -/
def sunkenPlanesScene : Scene :=
  ⟨[restingBody (-8), restingBody (-8), restingBody (-8), restingBody 0],
    ⟨[Particle.new, Particle.new, Particle.new], 3, 0⟩, 0, [], none⟩

/-- The cull test of the loop, `transform.getOrigin().getY() >= -7.0f`, on a
body. -/
def aboveThreshold (b : RigidBody) : Bool := decide (b.transform.origin.y ≥ -7)

/-- The number of bodies among the `n` entries from position `k` on that pass
the cull test. -/
def keptSlice (bodies : List RigidBody) (k n : Nat) : Nat :=
  ((bodies.drop k).take n).countP aboveThreshold

/-- The number of dynamic bodies (positions `planeNum` and up) that pass the cull
test. -/
def keptCount (bodies : List RigidBody) : Nat :=
  keptSlice bodies planeNum.toNat (bodies.length - planeNum.toNat)

/-- Whether an action is a spawn. -/
def Event.isSpawn : Event → Bool
  | Event.spawnParticle _ _ => true
  | _ => false

/-- Whether an action is a spawn for the body at position `i`. -/
def Event.isSpawnFor (i : Int) : Event → Bool
  | Event.spawnParticle j _ => decide (j = i)
  | _ => false

/-- Whether an action is a run of the update loop over the pool. -/
def Event.isTick : Event → Bool
  | Event.tickParticles => true
  | _ => false

/-- Three planes, then bodies at `y = 0`, `y = -7.1` and `y = 2`. -/
def mixedScene : Scene :=
  ⟨[restingBody (-1), restingBody (-1), restingBody (-1), restingBody 0,
      restingBody (-71 / 10), restingBody 2],
    ⟨[Particle.new, Particle.new, Particle.new], 3, 0⟩, 0, [], none⟩

/-- Three planes, then a body at `y = -7.1` whose destructor has run in an earlier
pass, a body at `y = 0` and a body at `y = 2`: the array as it is after a cull. -/
def culledScene : Scene :=
  ⟨[restingBody (-1), restingBody (-1), restingBody (-1),
      { restingBody (-71 / 10) with destroyed := true }, restingBody 0, restingBody 2],
    ⟨[Particle.new, Particle.new, Particle.new], 3, 0⟩, 0, [], none⟩

/-- The local `GLfloat maxSecPerFrame = 1.0f / 60.0f;`. -/
def maxSecPerFrame : ℚ := 1 / 60

/-- The two arguments of the call
`stepSimulation((deltaTime < maxSecPerFrame ? deltaTime : maxSecPerFrame), 10)`:
the timestep and the number of sub-steps. -/
def stepSimulationArgs (deltaTime : ℚ) : ℚ × Int :=
  (if deltaTime < maxSecPerFrame then deltaTime else maxSecPerFrame, 10)

/-! ## The keyboard callback and the shot

The matrices and vectors of GLM are records of rationals. Two library functions
are arguments of the embedding: `glm_inverse` stands for `glm::inverse` on 4×4
matrices (`Mat4.inverse` below is the cofactor formula) and `glm_sqrt` for the
square root inside `glm::normalize`, whose result is not rational in general
(`sqrtExact` below is exact on squares).

The sums and products of the shot are those of the rationals, so the impulse
defined here is the value of the expression the callback spells out, without
the rounding of `float`. The program's impulse is close to it where
`projection * view` is well conditioned, as it is for a camera inside the
scene, and is not where the matrix is close to singular in `float`, as for a
camera about as far away as the far plane; there the definition says nothing
about the digits the program computes. -/

/-- A `glm::vec4` used as a homogeneous coordinate. -/
structure HVec where
  x : ℚ
  y : ℚ
  z : ℚ
  w : ℚ
  deriving DecidableEq

/-- A `glm::mat4`, written by rows: `mIJ` is the entry of row `I` and column `J`
of the matrix as a linear map. -/
structure Mat4 where
  m00 : ℚ
  m01 : ℚ
  m02 : ℚ
  m03 : ℚ
  m10 : ℚ
  m11 : ℚ
  m12 : ℚ
  m13 : ℚ
  m20 : ℚ
  m21 : ℚ
  m22 : ℚ
  m23 : ℚ
  m30 : ℚ
  m31 : ℚ
  m32 : ℚ
  m33 : ℚ
  deriving DecidableEq

/-- The product `mat4 * vec4`. -/
def Mat4.mulVec (m : Mat4) (v : HVec) : HVec :=
  ⟨m.m00 * v.x + m.m01 * v.y + m.m02 * v.z + m.m03 * v.w,
   m.m10 * v.x + m.m11 * v.y + m.m12 * v.z + m.m13 * v.w,
   m.m20 * v.x + m.m21 * v.y + m.m22 * v.z + m.m23 * v.w,
   m.m30 * v.x + m.m31 * v.y + m.m32 * v.z + m.m33 * v.w⟩

/-- The product `mat4 * mat4`. -/
def Mat4.mul (a b : Mat4) : Mat4 :=
  ⟨a.m00 * b.m00 + a.m01 * b.m10 + a.m02 * b.m20 + a.m03 * b.m30,
   a.m00 * b.m01 + a.m01 * b.m11 + a.m02 * b.m21 + a.m03 * b.m31,
   a.m00 * b.m02 + a.m01 * b.m12 + a.m02 * b.m22 + a.m03 * b.m32,
   a.m00 * b.m03 + a.m01 * b.m13 + a.m02 * b.m23 + a.m03 * b.m33,
   a.m10 * b.m00 + a.m11 * b.m10 + a.m12 * b.m20 + a.m13 * b.m30,
   a.m10 * b.m01 + a.m11 * b.m11 + a.m12 * b.m21 + a.m13 * b.m31,
   a.m10 * b.m02 + a.m11 * b.m12 + a.m12 * b.m22 + a.m13 * b.m32,
   a.m10 * b.m03 + a.m11 * b.m13 + a.m12 * b.m23 + a.m13 * b.m33,
   a.m20 * b.m00 + a.m21 * b.m10 + a.m22 * b.m20 + a.m23 * b.m30,
   a.m20 * b.m01 + a.m21 * b.m11 + a.m22 * b.m21 + a.m23 * b.m31,
   a.m20 * b.m02 + a.m21 * b.m12 + a.m22 * b.m22 + a.m23 * b.m32,
   a.m20 * b.m03 + a.m21 * b.m13 + a.m22 * b.m23 + a.m23 * b.m33,
   a.m30 * b.m00 + a.m31 * b.m10 + a.m32 * b.m20 + a.m33 * b.m30,
   a.m30 * b.m01 + a.m31 * b.m11 + a.m32 * b.m21 + a.m33 * b.m31,
   a.m30 * b.m02 + a.m31 * b.m12 + a.m32 * b.m22 + a.m33 * b.m32,
   a.m30 * b.m03 + a.m31 * b.m13 + a.m32 * b.m23 + a.m33 * b.m33⟩

/-- The identity matrix `glm::mat4(1.0f)`. -/
def Mat4.one : Mat4 := ⟨1, 0, 0, 0, 0, 1, 0, 0, 0, 0, 1, 0, 0, 0, 0, 1⟩

/-- The matrix `u` is the inverse of `m`. -/
def Mat4.IsInverseOf (u m : Mat4) : Prop := u.mul m = Mat4.one ∧ m.mul u = Mat4.one

instance (u m : Mat4) : Decidable (Mat4.IsInverseOf u m) := by
  unfold Mat4.IsInverseOf
  infer_instance

/-- The constant `screenWidth = 1200`. -/
def screenWidth : ℚ := 1200

/-- The constant `screenHeight = 900`. -/
def screenHeight : ℚ := 900

/-- The local `GLfloat shootInitialSpeed = 40.0f;`. -/
def shootInitialSpeed : ℚ := 40

/-- The cursor in normalised device coordinates, as the callback builds it:
`shoot.x = (cursorX/screenWidth) * 2.0f - 1.0f`,
`shoot.y = -(cursorY/screenHeight) * 2.0f + 1.0f`, `shoot.z = 1.0f`, `shoot.w = 1.0f`. -/
def cursorNDC (cursorX cursorY : ℚ) : HVec :=
  ⟨(cursorX / screenWidth) * 2 - 1, -(cursorY / screenHeight) * 2 + 1, 1, 1⟩

/-- The dot product of a `vec4` with itself. -/
def HVec.dot (v : HVec) : ℚ := v.x * v.x + v.y * v.y + v.z * v.z + v.w * v.w

/-- The product `vec4 * float`. -/
def HVec.scale (v : HVec) (k : ℚ) : HVec := ⟨v.x * k, v.y * k, v.z * k, v.w * k⟩

/-- The function `glm::normalize` on a `vec4`: the vector times the inverse square
root of its dot product with itself. -/
def normalize (glm_sqrt : ℚ → ℚ) (v : HVec) : HVec := v.scale (1 / glm_sqrt v.dot)

/-- The vector `shoot` after
`shoot = glm::normalize(unproject * shoot) * shootInitialSpeed`
with `unproject = glm::inverse(projection * view)`. -/
def shootVector (glm_inverse : Mat4 → Mat4) (glm_sqrt : ℚ → ℚ) (projection view : Mat4)
    (cursorX cursorY : ℚ) : HVec :=
  let unproject := glm_inverse (projection.mul view)
  (normalize glm_sqrt (unproject.mulVec (cursorNDC cursorX cursorY))).scale shootInitialSpeed

/-- The impulse `btVector3(shoot.x, shoot.y, shoot.z)` applied to the new ball, as
the exact value of the expression: the `float` rounding of the product, of the
inverse and of the normalisation is left out. -/
def shootImpulse (glm_inverse : Mat4 → Mat4) (glm_sqrt : ℚ → ℚ) (projection view : Mat4)
    (cursorX cursorY : ℚ) : Vec3 :=
  let shoot := shootVector glm_inverse glm_sqrt projection view cursorX cursorY
  ⟨shoot.x, shoot.y, shoot.z⟩

/-- The GLFW key code `GLFW_KEY_ESCAPE`. -/
def GLFW_KEY_ESCAPE : Int := 256

/-- The GLFW key code `GLFW_KEY_L`. -/
def GLFW_KEY_L : Int := 76

/-- The GLFW key code `GLFW_KEY_P`. -/
def GLFW_KEY_P : Int := 80

/-- The GLFW key code `GLFW_KEY_1`, the character `'1'`. -/
def GLFW_KEY_1 : Int := 49

/-- The GLFW key code `GLFW_KEY_9`, the character `'9'`. -/
def GLFW_KEY_9 : Int := 57

/-- The GLFW key code `GLFW_KEY_SPACE`. -/
def GLFW_KEY_SPACE : Int := 32

/-- The GLFW action `GLFW_PRESS`. -/
def GLFW_PRESS : Int := 1

/-- The GLFW action `GLFW_RELEASE`. -/
def GLFW_RELEASE : Int := 0

/-- The globals the keyboard callback reads and writes, with the collision-object
array of the dynamics world; `fault` records a write outside `keys[1024]`. -/
structure Globals where
  windowShouldClose : Bool
  wireframe : Bool
  spinning : Bool
  current_subroutine : Nat
  shaders : List String
  keys : List Bool
  cameraPosition : Vec3
  view : Mat4
  projection : Mat4
  cursorX : ℚ
  cursorY : ℚ
  bodies : List RigidBody
  fault : Option Fault
  deriving DecidableEq

/-- Modelled from the spec: `Physics::createRigidBody` of `utils/physics.h`, which
is not among the sources (spec: `create(shapeKind, position, size, rotation,
mass, friction, restitution)`, and the order of the registry is insertion
order). It creates a body of kind `type` and size `size` at `position`, at rest,
and adds it at the end of the collision-object array. The rotation, mass,
friction and restitution of the call are left out: nothing in the embedding
reads them. -/
def createRigidBody (type : Shape) (position size : Vec3) (bodies : List RigidBody) :
    List RigidBody :=
  bodies ++ [⟨⟨position⟩, ⟨0, 0, 0⟩, false, type, size⟩]

/-- The call `ball->applyCentralImpulse(impulse)` on the body created last, of
mass `mass`: Bullet adds `impulse / mass` to its linear velocity. -/
def applyCentralImpulseToLast (mass : ℚ) (impulse : Vec3) (bodies : List RigidBody) :
    List RigidBody :=
  match bodies.getLast? with
  | none => bodies
  | some b =>
    bodies.dropLast ++
      [{ b with linearVelocity :=
          ⟨b.linearVelocity.x + impulse.x * (1 / mass),
           b.linearVelocity.y + impulse.y * (1 / mass),
           b.linearVelocity.z + impulse.z * (1 / mass)⟩ }]

/-- The value `new_subroutine = (key-'0'-1)` stored in a `GLuint`. -/
def newSubroutine (key : Int) : Nat := ((key - 48 - 1) % 4294967296).toNat

/-- The digit branch of `key_callback`:
`if((key >= GLFW_KEY_1 && key <= GLFW_KEY_9) && action == GLFW_PRESS)`, then
`if (new_subroutine<shaders.size()) current_subroutine = new_subroutine;`. -/
def selectSubroutine (key action : Int) (g : Globals) : Globals :=
  if (key ≥ GLFW_KEY_1 ∧ key ≤ GLFW_KEY_9) ∧ action = GLFW_PRESS then
    if newSubroutine key < g.shaders.length then
      { g with current_subroutine := newSubroutine key }
    else g
  else g

/-- The space branch of `key_callback`: a ball is created by
`createRigidBody(SPHERE, glm::vec3(camera.Position.x, -0.6f, camera.Position.z), ball_size, ...)`
with mass `2.85f` and receives the impulse. -/
def shootBall (glm_inverse : Mat4 → Mat4) (glm_sqrt : ℚ → ℚ) (key action : Int)
    (g : Globals) : Globals :=
  if key = GLFW_KEY_SPACE ∧ action = GLFW_PRESS then
    let created := createRigidBody Shape.SPHERE
      ⟨g.cameraPosition.x, -(3 / 5), g.cameraPosition.z⟩ ball_size g.bodies
    let impulse := shootImpulse glm_inverse glm_sqrt g.projection g.view g.cursorX g.cursorY
    { g with bodies := applyCentralImpulseToLast (285 / 100) impulse created }
  else g

/-- The last statement of `key_callback`:
`if(action == GLFW_PRESS) keys[key] = true; else if(action == GLFW_RELEASE) keys[key] = false;`
on `bool keys[1024]`. -/
def recordKey (key action : Int) (g : Globals) : Globals :=
  if action = GLFW_PRESS then
    if 0 ≤ key ∧ key < g.keys.length then { g with keys := g.keys.set key.toNat true }
    else { g with fault := some Fault.outOfRange }
  else if action = GLFW_RELEASE then
    if 0 ≤ key ∧ key < g.keys.length then { g with keys := g.keys.set key.toNat false }
    else { g with fault := some Fault.outOfRange }
  else g

/-- The first three branches of `key_callback`: escape asks the window to close,
`L` toggles `wireframe`, `P` toggles `spinning`. -/
def toggleFlags (key action : Int) (g : Globals) : Globals :=
  let g1 : Globals :=
    if key = GLFW_KEY_ESCAPE ∧ action = GLFW_PRESS then { g with windowShouldClose := true }
    else g
  let g2 : Globals :=
    if key = GLFW_KEY_L ∧ action = GLFW_PRESS then { g1 with wireframe := !g1.wireframe }
    else g1
  if key = GLFW_KEY_P ∧ action = GLFW_PRESS then { g2 with spinning := !g2.spinning }
  else g2

/-- The function `key_callback(window, key, scancode, action, mode)`: the flag
branches, the digit branch, the space branch and the update of the key table, in
the order of the source. -/
def key_callback (glm_inverse : Mat4 → Mat4) (glm_sqrt : ℚ → ℚ) (key action : Int)
    (g : Globals) : Globals :=
  recordKey key action (shootBall glm_inverse glm_sqrt key action
    (selectSubroutine key action (toggleFlags key action g)))

/-- Globals with three registered subroutines, the first one selected, an empty
key table of 1024 entries, identity matrices and no body. -/
def sampleGlobals : Globals :=
  { windowShouldClose := false
    wireframe := false
    spinning := true
    current_subroutine := 0
    shaders := ["Lambert", "BlinnPhong", "GGX"]
    keys := List.replicate 1024 false
    cameraPosition := ⟨5, 1, 12⟩
    view := Mat4.one
    projection := Mat4.one
    cursorX := 600
    cursorY := 450
    bodies := []
    fault := none }

/-! ## Scene setup: planes and pins -/

/-- The local `plane_pos = glm::vec3(0.0f, -1.0f, 4.0f)`. -/
def plane_pos : Vec3 := ⟨0, -1, 4⟩

/-- The position
`glm::vec3((h * 5.0f + ((-0.75f + 0.25f * i) + 0.5f * j)), 0.0f, (i * 0.5 - 3.0f))`
of the pin of lane `h`, row `i`, column `j`. -/
def pin_pos (h i j : Nat) : Vec3 :=
  ⟨(h : ℚ) * 5 + ((-(3 / 4) + 1 / 4 * (i : ℚ)) + 1 / 2 * (j : ℚ)), 0, (i : ℚ) * (1 / 2) - 3⟩

/-- The positions created by `for(j = 0; j < (num_rows - i); j++)` for lane `h`
and row `i`. -/
def rowPins (h i : Nat) : List Vec3 :=
  (List.range (num_rows.toNat - i)).map (pin_pos h i)

/-- The positions created by `for(i = 0; i < num_rows; i++)` for lane `h`, in
creation order. -/
def lanePins (h : Nat) : List Vec3 :=
  ((List.range num_rows.toNat).map (rowPins h)).flatten

/-- The positions of all pins, in the creation order of `for (int h = 0; h < 3; h++)`. -/
def pinPositions : List Vec3 :=
  ((List.range 3).map lanePins).flatten

/-- The local `plane_size = glm::vec3(2.0f, 0.1f, 11.0f)`. -/
def plane_size : Vec3 := ⟨2, 1 / 10, 11⟩

/-- The collision-object array after scene setup: the three planes, created by
`createRigidBody(BOX, plane_pos + ..., plane_size, ...)`, then one body per pin
position, created by `createRigidBody(BOX, pin_pos, pin_size, ...)`, in that
order. -/
def setupBodies : List RigidBody :=
  pinPositions.foldl (fun bodies p => createRigidBody Shape.BOX p pin_size bodies)
    (createRigidBody Shape.BOX ⟨plane_pos.x + 10, plane_pos.y, plane_pos.z⟩ plane_size
      (createRigidBody Shape.BOX ⟨plane_pos.x + 5, plane_pos.y, plane_pos.z⟩ plane_size
        (createRigidBody Shape.BOX plane_pos plane_size [])))

/-- What a body was created with: the shape kind and the size of its call of
`createRigidBody`. -/
def RigidBody.creation (b : RigidBody) : Shape × Vec3 := (b.shape, b.size)

/-- The body was created as a plane: by a call `createRigidBody(BOX, ..., plane_size, ...)`. -/
def RigidBody.createdAsPlane (b : RigidBody) : Prop := b.creation = (Shape.BOX, plane_size)

/-- The body was created as a pin: by a call `createRigidBody(BOX, ..., pin_size, ...)`. -/
def RigidBody.createdAsPin (b : RigidBody) : Prop := b.creation = (Shape.BOX, pin_size)

/-- The body was created by a shot: by the call
`createRigidBody(SPHERE, ..., ball_size, ...)` of `key_callback`. -/
def RigidBody.createdAsBall (b : RigidBody) : Prop := b.creation = (Shape.SPHERE, ball_size)

instance (b : RigidBody) : Decidable b.createdAsPlane := by
  unfold RigidBody.createdAsPlane
  infer_instance

instance (b : RigidBody) : Decidable b.createdAsPin := by
  unfold RigidBody.createdAsPin
  infer_instance

instance (b : RigidBody) : Decidable b.createdAsBall := by
  unfold RigidBody.createdAsBall
  infer_instance

/-- The actions a visit of the body at position `i` can record. -/
def VisitEvent (i : Int) (e : Event) : Prop :=
  e = Event.readTransform i ∨ (∃ slot, e = Event.spawnParticle i slot) ∨
  e = Event.tickParticles ∨ (∃ p, e = Event.drawParticle p) ∨
  e = Event.drawObject i (objectKind i) (objectSize (objectKind i)) ∨
  e = Event.destroyBody i

/-! ## One iteration of the frame loop

The iteration is described by the actions it performs, in order. What GLFW, the
physics engine and the overlay do to the state comes in as the input of the
iteration. -/

/-- The actions of one iteration of `while (!glfwWindowShouldClose(window))`;
`body e` is an action `e` of the loop over the rigid bodies. -/
inductive FrameEvent where
  | pollEvents
  | cameraMovement
  | setCursorPos (x : Int) (y : Int)
  | stepSimulation (timeStep : ℚ) (subSteps : Int)
  | drawPlane (i : Int)
  | body (e : Event)
  | drawInstanced (amount : Int)
  | overlay
  | swapBuffers
  deriving DecidableEq

/-- The state of the frame loop: the scene, the local `gameStarted`, the local
`amount` and the actions performed so far. -/
structure FrameState where
  scene : Scene
  gameStarted : Bool
  amount : Int
  log : List FrameEvent
  deriving DecidableEq

/-- What the environment contributes to one iteration: the frame time, what the
callbacks run by the two calls of `glfwPollEvents` do to the collision-object
array (a shot adds a ball), what `stepSimulation` does to it, the number of
meshes of the instanced model, and the values the two sliders of the overlay
write to `amount` and `particleNum`. -/
structure FrameInput where
  deltaTime : ℚ
  polledFirst : List RigidBody → List RigidBody
  stepped : List RigidBody → List RigidBody
  instanceMeshes : Nat
  sliderAmount : Int
  sliderParticleNum : Int
  polledLast : List RigidBody → List RigidBody

/-- The loop `while(!gameStarted) { glfwSetCursorPos(window, screenWidth/2, screenHeight/2); gameStarted = true; }`
with `n` iterations allowed. -/
def centreCursor : Nat → FrameState → FrameState
  | 0, f => f
  | n + 1, f =>
    if f.gameStarted = false then
      centreCursor n
        { f with gameStarted := true, log := f.log ++ [FrameEvent.setCursorPos (1200 / 2) (900 / 2)] }
    else f

/-- The loop `for (int i = 0; i < planeNum; i++)` that draws the planes. -/
def drawPlanes : List FrameEvent :=
  (List.range planeNum.toNat).map (fun i => FrameEvent.drawPlane (i : Int))

/-- The loop `for (unsigned int i = 0; i < instanceModel.meshes.size(); i++)`
around `glDrawElementsInstanced(..., amount)`. -/
def drawInstances (meshes : Nat) (amount : Int) : List FrameEvent :=
  (List.range meshes).map (fun _ => FrameEvent.drawInstanced amount)

/-- The part of an iteration after the loop over the bodies: the instanced draw,
the overlay with its two sliders, `glfwSwapBuffers` and the second
`glfwPollEvents`. -/
def finishFrame (inp : FrameInput) (f : FrameState) : FrameState :=
  { f with
    scene :=
      { f.scene with
        bodies := inp.polledLast f.scene.bodies
        pool := { f.scene.pool with particleNum := inp.sliderParticleNum } }
    amount := inp.sliderAmount
    log := f.log ++ drawInstances inp.instanceMeshes f.amount
      ++ [FrameEvent.overlay, FrameEvent.swapBuffers, FrameEvent.pollEvents] }

/-- One iteration of the frame loop, in the order of the source: poll, camera
movement, cursor centring on the first iteration, physics step, planes, the loop
over the bodies, and the rest. The centring loop ends after one pass, since its
body sets `gameStarted`; more passes change nothing (`centreCursor_succ`). A
state stopped by a read outside a vector stays as it is. -/
def frame (rand : Nat → Int) (inp : FrameInput) (f : FrameState) : FrameState :=
  if f.scene.fault = some Fault.outOfRange then f
  else
    let f1 : FrameState :=
      { f with
        scene := { f.scene with bodies := inp.polledFirst f.scene.bodies }
        log := f.log ++ [FrameEvent.pollEvents, FrameEvent.cameraMovement] }
    let f2 := centreCursor 1 f1
    let args := stepSimulationArgs inp.deltaTime
    let f3 : FrameState :=
      { f2 with
        scene := { f2.scene with bodies := inp.stepped f2.scene.bodies }
        log := f2.log ++ [FrameEvent.stepSimulation args.1 args.2] ++ drawPlanes }
    let passed := framePass rand inp.deltaTime { f3.scene with trace := [] }
    let f4 : FrameState :=
      { f3 with
        scene := { passed with trace := f3.scene.trace ++ passed.trace }
        log := f3.log ++ passed.trace.map FrameEvent.body }
    if passed.fault = some Fault.outOfRange then f4
    else finishFrame inp f4

/-- A run of the frame loop: one iteration per input. -/
def run (rand : Nat → Int) : List FrameInput → FrameState → FrameState
  | [], f => f
  | inp :: rest, f => run rand rest (frame rand inp f)

/-- What the callbacks run by one call of `glfwPollEvents` do to the
collision-object array: any number of key events, each handled by `key_callback`
with the globals of the moment (the other callbacks do not touch the array). -/
inductive Polled (glm_inverse : Mat4 → Mat4) (glm_sqrt : ℚ → ℚ) :
    (List RigidBody → List RigidBody) → Prop where
  | idle : Polled glm_inverse glm_sqrt id
  | key (p : List RigidBody → List RigidBody) (g : Globals) (key action : Int) :
      Polled glm_inverse glm_sqrt p →
      Polled glm_inverse glm_sqrt
        (fun bodies => (key_callback glm_inverse glm_sqrt key action { g with bodies := p bodies }).bodies)

/-- Modelled from the spec: what `stepSimulation` of the physics engine, which is
not among the sources, may do to the collision-object array (spec: its side
effect is the mutation of the transforms and velocities of the bodies). It
neither adds, removes nor reorders entries, and does not change what a body was
created with. -/
def Stepped (stepped : List RigidBody → List RigidBody) : Prop :=
  ∀ bodies, (stepped bodies).map RigidBody.creation = bodies.map RigidBody.creation

/-- The states of the frame loop the program can be in between two iterations:
the state after scene setup, with any pool and any `amount`, and every state an
iteration leads to from such a state, when the two polls of the iteration run
key callbacks and the physics step keeps to `Stepped`. -/
inductive Reachable (rand : Nat → Int) (glm_inverse : Mat4 → Mat4) (glm_sqrt : ℚ → ℚ) :
    FrameState → Prop where
  | setup (pool : Pool) (amount : Int) :
      Reachable rand glm_inverse glm_sqrt ⟨⟨setupBodies, pool, 0, [], none⟩, false, amount, []⟩
  | frame (inp : FrameInput) (f : FrameState) :
      Reachable rand glm_inverse glm_sqrt f →
      Polled glm_inverse glm_sqrt inp.polledFirst →
      Stepped inp.stepped →
      Polled glm_inverse glm_sqrt inp.polledLast →
      Reachable rand glm_inverse glm_sqrt (frame rand inp f)

/-- Whether an action centres the cursor. -/
def FrameEvent.isSetCursorPos : FrameEvent → Bool
  | FrameEvent.setCursorPos _ _ => true
  | _ => false

/-- Whether an action is the physics step. -/
def FrameEvent.isStep : FrameEvent → Bool
  | FrameEvent.stepSimulation _ _ => true
  | _ => false

/-- An input with a frame time of 1/60 s in which the environment changes
nothing: no shot, bodies at rest, one mesh, sliders at 10000 and 3. -/
def quietInput : FrameInput :=
  { deltaTime := 1 / 60
    polledFirst := id
    stepped := id
    instanceMeshes := 1
    sliderAmount := 10000
    sliderParticleNum := 3
    polledLast := id }

/-- The frame loop before its first iteration, on three planes and one body that
has fallen to `y = -7.1`. -/
def startState : FrameState := ⟨fallenScene, false, 10000, []⟩

/-- The scene the loop over the bodies starts from in an iteration: the array
after the first poll and the physics step, with an empty record of actions. -/
def sceneAfterStep (inp : FrameInput) (f : FrameState) : Scene :=
  { f.scene with bodies := inp.stepped (inp.polledFirst f.scene.bodies), trace := [] }

/-- The actions of an iteration up to the loop over the bodies. -/
def frameHead (inp : FrameInput) (f : FrameState) : List FrameEvent :=
  [FrameEvent.pollEvents, FrameEvent.cameraMovement]
    ++ (if f.gameStarted = false then [FrameEvent.setCursorPos 600 450] else [])
    ++ [FrameEvent.stepSimulation (stepSimulationArgs inp.deltaTime).1
          (stepSimulationArgs inp.deltaTime).2]
    ++ drawPlanes

/-- The actions of an iteration after the loop over the bodies. -/
def frameTail (inp : FrameInput) (f : FrameState) : List FrameEvent :=
  drawInstances inp.instanceMeshes f.amount
    ++ [FrameEvent.overlay, FrameEvent.swapBuffers, FrameEvent.pollEvents]

/-- The actions of the visit of the body at position `i`: the transform read, then
either the destructor call, or two spawns, the update of the pool, the draw of
the live particles and the draw of the object. -/
def IsVisit (i : Int) (es : List Event) : Prop :=
  es = [Event.readTransform i, Event.destroyBody i] ∨
  ∃ (slot1 slot2 : Int) (ps : List Particle),
    es = [Event.readTransform i, Event.spawnParticle i slot1, Event.spawnParticle i slot2,
        Event.tickParticles]
      ++ ps.map Event.drawParticle
      ++ [Event.drawObject i (objectKind i) (objectSize (objectKind i))]

/-- The frame loop after its first iteration, on three planes and one body that
has fallen to `y = -7.1`. -/
def startedState : FrameState := ⟨fallenScene, true, 10000, []⟩
/-- The frame loop after its first iteration and after a cull, on `culledScene`. -/
def culledState : FrameState := ⟨culledScene, true, 10000, []⟩

/-- The transposed matrix of cofactors of a `mat4`: the entry of row `i` and
column `j` is the cofactor of the entry of row `j` and column `i`. -/
def Mat4.adjugate (m : Mat4) : Mat4 :=
  ⟨(m.m11 * (m.m22 * m.m33 - m.m23 * m.m32) - m.m12 * (m.m21 * m.m33 - m.m23 * m.m31) + m.m13 * (m.m21 * m.m32 - m.m22 * m.m31)),
   -(m.m01 * (m.m22 * m.m33 - m.m23 * m.m32) - m.m02 * (m.m21 * m.m33 - m.m23 * m.m31) + m.m03 * (m.m21 * m.m32 - m.m22 * m.m31)),
   (m.m01 * (m.m12 * m.m33 - m.m13 * m.m32) - m.m02 * (m.m11 * m.m33 - m.m13 * m.m31) + m.m03 * (m.m11 * m.m32 - m.m12 * m.m31)),
   -(m.m01 * (m.m12 * m.m23 - m.m13 * m.m22) - m.m02 * (m.m11 * m.m23 - m.m13 * m.m21) + m.m03 * (m.m11 * m.m22 - m.m12 * m.m21)),
   -(m.m10 * (m.m22 * m.m33 - m.m23 * m.m32) - m.m12 * (m.m20 * m.m33 - m.m23 * m.m30) + m.m13 * (m.m20 * m.m32 - m.m22 * m.m30)),
   (m.m00 * (m.m22 * m.m33 - m.m23 * m.m32) - m.m02 * (m.m20 * m.m33 - m.m23 * m.m30) + m.m03 * (m.m20 * m.m32 - m.m22 * m.m30)),
   -(m.m00 * (m.m12 * m.m33 - m.m13 * m.m32) - m.m02 * (m.m10 * m.m33 - m.m13 * m.m30) + m.m03 * (m.m10 * m.m32 - m.m12 * m.m30)),
   (m.m00 * (m.m12 * m.m23 - m.m13 * m.m22) - m.m02 * (m.m10 * m.m23 - m.m13 * m.m20) + m.m03 * (m.m10 * m.m22 - m.m12 * m.m20)),
   (m.m10 * (m.m21 * m.m33 - m.m23 * m.m31) - m.m11 * (m.m20 * m.m33 - m.m23 * m.m30) + m.m13 * (m.m20 * m.m31 - m.m21 * m.m30)),
   -(m.m00 * (m.m21 * m.m33 - m.m23 * m.m31) - m.m01 * (m.m20 * m.m33 - m.m23 * m.m30) + m.m03 * (m.m20 * m.m31 - m.m21 * m.m30)),
   (m.m00 * (m.m11 * m.m33 - m.m13 * m.m31) - m.m01 * (m.m10 * m.m33 - m.m13 * m.m30) + m.m03 * (m.m10 * m.m31 - m.m11 * m.m30)),
   -(m.m00 * (m.m11 * m.m23 - m.m13 * m.m21) - m.m01 * (m.m10 * m.m23 - m.m13 * m.m20) + m.m03 * (m.m10 * m.m21 - m.m11 * m.m20)),
   -(m.m10 * (m.m21 * m.m32 - m.m22 * m.m31) - m.m11 * (m.m20 * m.m32 - m.m22 * m.m30) + m.m12 * (m.m20 * m.m31 - m.m21 * m.m30)),
   (m.m00 * (m.m21 * m.m32 - m.m22 * m.m31) - m.m01 * (m.m20 * m.m32 - m.m22 * m.m30) + m.m02 * (m.m20 * m.m31 - m.m21 * m.m30)),
   -(m.m00 * (m.m11 * m.m32 - m.m12 * m.m31) - m.m01 * (m.m10 * m.m32 - m.m12 * m.m30) + m.m02 * (m.m10 * m.m31 - m.m11 * m.m30)),
   (m.m00 * (m.m11 * m.m22 - m.m12 * m.m21) - m.m01 * (m.m10 * m.m22 - m.m12 * m.m20) + m.m02 * (m.m10 * m.m21 - m.m11 * m.m20))⟩

/-- The determinant of a `mat4`, expanded along its first row. -/
def Mat4.det (m : Mat4) : ℚ :=
  m.m00 * m.adjugate.m00 + m.m01 * m.adjugate.m10 + m.m02 * m.adjugate.m20
    + m.m03 * m.adjugate.m30

/-- The function `glm::inverse` on a `mat4`: the transposed matrix of cofactors
times the inverse of the determinant. -/
def Mat4.inverse (m : Mat4) : Mat4 :=
  ⟨m.adjugate.m00 * (1 / m.det), m.adjugate.m01 * (1 / m.det), m.adjugate.m02 * (1 / m.det), m.adjugate.m03 * (1 / m.det),
   m.adjugate.m10 * (1 / m.det), m.adjugate.m11 * (1 / m.det), m.adjugate.m12 * (1 / m.det), m.adjugate.m13 * (1 / m.det),
   m.adjugate.m20 * (1 / m.det), m.adjugate.m21 * (1 / m.det), m.adjugate.m22 * (1 / m.det), m.adjugate.m23 * (1 / m.det),
   m.adjugate.m30 * (1 / m.det), m.adjugate.m31 * (1 / m.det), m.adjugate.m32 * (1 / m.det), m.adjugate.m33 * (1 / m.det)⟩

/-- The matrix `glm::perspective(fovy, aspect, zNear, zFar)`, with the value of
`tan(fovy / 2)` as an argument. -/
def perspective (tanHalfFovy aspect zNear zFar : ℚ) : Mat4 :=
  ⟨1 / (aspect * tanHalfFovy), 0, 0, 0,
   0, 1 / tanHalfFovy, 0, 0,
   0, 0, -(zFar + zNear) / (zFar - zNear), -(2 * zFar * zNear) / (zFar - zNear),
   0, 0, -1, 0⟩

/-- The global `projection` as `main` sets it:
`glm::perspective(45.0f, (float)screenWidth/(float)screenHeight, 0.1f, 10000.0f)`,
with the value of `tan(45.0f / 2)` as an argument. -/
def projectionMatrix (tanHalfFovy : ℚ) : Mat4 :=
  perspective tanHalfFovy (screenWidth / screenHeight) (1 / 10) 10000

/-- Modelled from the spec: the view matrix of the camera, `Camera::GetViewMatrix`
of `utils/camera.h`, which is not among the sources. It is the look-at matrix of
the camera position `eye` and the orthonormal camera axes `right`, `up` and
`front`. -/
def lookAt (eye right up front : Vec3) : Mat4 :=
  ⟨right.x, right.y, right.z, -(right.x * eye.x + right.y * eye.y + right.z * eye.z),
   up.x, up.y, up.z, -(up.x * eye.x + up.y * eye.y + up.z * eye.z),
   -front.x, -front.y, -front.z, front.x * eye.x + front.y * eye.y + front.z * eye.z,
   0, 0, 0, 1⟩

/-- The forward axis of the camera a view matrix belongs to: the world direction
the matrix sends to the negative `z` axis. -/
def forwardAxis (view : Mat4) : Vec3 := ⟨-view.m20, -view.m21, -view.m22⟩

/-- The cross product of two `vec3`; it is zero exactly when they are parallel. -/
def Vec3.cross (v w : Vec3) : Vec3 :=
  ⟨v.y * w.z - v.z * w.y, v.z * w.x - v.x * w.z, v.x * w.y - v.y * w.x⟩

/-- The square of the Euclidean length of a `vec3`. -/
def Vec3.normSq (v : Vec3) : ℚ := v.x * v.x + v.y * v.y + v.z * v.z

/-- A square root on the rationals that is exact on squares of rationals: the
integer square roots of numerator and denominator. -/
def sqrtExact (q : ℚ) : ℚ := (Nat.sqrt q.num.toNat : ℚ) / (Nat.sqrt q.den : ℚ)

/-- Modelled from the spec: the view matrix of the camera as the program starts,
`Camera camera(glm::vec3(5.0f, 1.0f, 12.0f), GL_TRUE)`: the camera is at
`(5, 1, 12)` and, with the start angles of `utils/camera.h` (not among the
sources), looks along the negative `z` axis with `y` up. -/
def startView : Mat4 := lookAt ⟨5, 1, 12⟩ ⟨1, 0, 0⟩ ⟨0, 1, 0⟩ ⟨0, 0, -1⟩

/-- An input in which the first poll runs the key callback for a press of the
space bar, with the globals of `sampleGlobals`. -/
def shotInput : FrameInput :=
  { quietInput with
    polledFirst := fun bodies =>
      (key_callback Mat4.inverse sqrtExact GLFW_KEY_SPACE GLFW_PRESS
        { sampleGlobals with bodies := id bodies }).bodies }

/-- The state after scene setup, with a fresh pool of three particles. -/
def setupState : FrameState :=
  ⟨⟨setupBodies, ⟨[Particle.new, Particle.new, Particle.new], 3, 0⟩, 0, [], none⟩,
    false, 10000, []⟩

/-- Whether an action is a spawn into the slot `slot` of the pool. -/
def Event.isSpawnAt (slot : Int) : Event → Bool
  | Event.spawnParticle _ k => decide (k = slot)
  | _ => false

/-- Three planes, then a body at `y = 0`, a body at `y = -7.1` whose destructor has
run in an earlier pass and a body at `y = 2`, with a fresh pool of six
particles. -/
def sixPoolScene : Scene :=
  ⟨[restingBody (-1), restingBody (-1), restingBody (-1), restingBody 0,
      { restingBody (-71 / 10) with destroyed := true }, restingBody 2],
    ⟨[Particle.new, Particle.new, Particle.new, Particle.new, Particle.new, Particle.new], 6, 0⟩,
    0, [], none⟩

/-! ## Lemmas on the slot search -/

theorem readParticle_natCast (ps : List Particle) (k : Nat) :
    readParticle ps (k : Int) = ps[k]? := by
  simp [readParticle]

theorem scanDead_eq_find (ps : List Particle) :
    ∀ (n k : Nat), k + n ≤ ps.length →
      scanDead ps n (k : Int)
        = some (((List.range' k n).map Nat.cast).find? (isDead ps)) := by
  intro n
  induction n with
  | zero => intro k _; simp [scanDead]
  | succ n ih =>
    intro k hk
    have hlt : k < ps.length := by omega
    have hrd : readParticle ps (k : Int) = some ps[k] := by
      rw [readParticle_natCast]; exact List.getElem?_eq_getElem hlt
    have hnext := ih (k + 1) (by omega)
    simp only [scanDead, hrd, List.range'_succ, List.map_cons, List.find?_cons]
    by_cases hd : ps[k].Life ≤ 0
    · have : isDead ps (k : Int) = true := by
        simp [isDead, hrd, hd]
      simp only [hd, this, if_true]
    · have : isDead ps (k : Int) = false := by
        simp [isDead, hrd, hd]
      simp only [hd, this, if_false]
      have hc : ((k : Int) + 1) = ((k + 1 : Nat) : Int) := by push_cast; rfl
      rw [hc, hnext]

theorem mem_cyclicOrder_lt {last particleNum j : Int} (hl0 : 0 ≤ last)
    (hj : j ∈ cyclicOrder last particleNum) :
    0 ≤ j ∧ (j < particleNum ∨ j < last) := by
  simp only [cyclicOrder, List.mem_append, List.mem_map, List.mem_range'_1] at hj
  rcases hj with ⟨k, ⟨hk1, hk2⟩, rfl⟩ | ⟨k, ⟨_, hk2⟩, rfl⟩
  · refine ⟨Int.natCast_nonneg k, Or.inl ?_⟩
    omega
  · refine ⟨Int.natCast_nonneg k, Or.inr ?_⟩
    omega

theorem mem_cyclicOrder_of_lt {last particleNum j : Int} (hl0 : 0 ≤ last)
    (hlp : last ≤ particleNum) (hj0 : 0 ≤ j) (hj : j < particleNum) :
    j ∈ cyclicOrder last particleNum := by
  simp only [cyclicOrder, List.mem_append, List.mem_map, List.mem_range'_1]
  by_cases h : last ≤ j
  · exact Or.inl ⟨j.toNat, ⟨by omega, by omega⟩, by omega⟩
  · exact Or.inr ⟨j.toNat, ⟨by omega, by omega⟩, by omega⟩

/-- Within the bounds of the vector, `FirstUnusedParticle` returns the first
dead index of the search order, or `0` when there is none, and stores it in
`lastUsedParticle`. -/
theorem FirstUnusedParticle_eq (s : Pool)
    (hpn : s.particleNum ≤ s.particles.length)
    (hl0 : 0 ≤ s.lastUsedParticle) (hl : s.lastUsedParticle ≤ s.particles.length) :
    FirstUnusedParticle s
      = some (((cyclicOrder s.lastUsedParticle s.particleNum).find? (isDead s.particles)).getD 0,
          { s with lastUsedParticle :=
              ((cyclicOrder s.lastUsedParticle s.particleNum).find? (isDead s.particles)).getD 0 }) := by
  have h1 := scanDead_eq_find s.particles (s.particleNum - s.lastUsedParticle).toNat
    s.lastUsedParticle.toNat (by omega)
  have h2 := scanDead_eq_find s.particles s.lastUsedParticle.toNat 0 (by omega)
  have hc : ((s.lastUsedParticle.toNat : Nat) : Int) = s.lastUsedParticle := by omega
  rw [hc] at h1
  have h0 : ((0 : Nat) : Int) = 0 := rfl
  rw [h0] at h2
  simp only [FirstUnusedParticle, sub_zero, h1, h2, cyclicOrder, List.find?_append]
  cases hf1 : List.find? (isDead s.particles)
      (List.map Nat.cast (List.range' s.lastUsedParticle.toNat
        (s.particleNum - s.lastUsedParticle).toNat)) with
  | some i => simp
  | none =>
    cases hf2 : List.find? (isDead s.particles)
        (List.map Nat.cast (List.range' 0 s.lastUsedParticle.toNat)) with
    | some i => simp
    | none => simp

theorem find_range_spec (ps : List Particle) :
    ∀ (n a : Nat),
      match ((List.range' a n).map Nat.cast).find? (isDead ps) with
      | some i => (a : Int) ≤ i ∧ i < a + n ∧ isDead ps i = true ∧
          ∀ k : Int, (a : Int) ≤ k → k < i → isDead ps k = false
      | none => ∀ k : Int, (a : Int) ≤ k → k < a + n → isDead ps k = false := by
  intro n
  induction n with
  | zero => intro a; simp; intro k h1 h2; omega
  | succ n ih =>
    intro a
    have h := ih (a + 1)
    simp only [List.range'_succ, List.map_cons, List.find?_cons]
    cases hd : isDead ps (a : Int) with
    | true =>
      refine ⟨le_refl _, by push_cast; omega, hd, ?_⟩
      intro k h1 h2; omega
    | false =>
      simp only
      cases hf : List.find? (isDead ps) (List.map Nat.cast (List.range' (a + 1) n)) with
      | some i =>
        rw [hf] at h
        simp only at h ⊢
        obtain ⟨h1, h2, h3, h4⟩ := h
        refine ⟨by push_cast at h1; omega, by push_cast at h2 ⊢; omega, h3, ?_⟩
        intro k hk1 hk2
        by_cases hka : k = (a : Int)
        · rw [hka]; exact hd
        · exact h4 k (by push_cast; omega) hk2
      | none =>
        rw [hf] at h
        simp only at h ⊢
        intro k hk1 hk2
        by_cases hka : k = (a : Int)
        · rw [hka]; exact hd
        · exact h k (by push_cast; omega) (by push_cast at hk2 ⊢; omega)

theorem isDead_eq_true_iff (ps : List Particle) (i : Int) :
    isDead ps i = true ↔ ∃ p, readParticle ps i = some p ∧ p.Life ≤ 0 := by
  unfold isDead
  cases h : readParticle ps i with
  | none => simp
  | some p => simp

theorem isDead_eq_false_of_alive (ps : List Particle) (i : Int) (p : Particle)
    (h : readParticle ps i = some p) (hp : 0 < p.Life) : isDead ps i = false := by
  unfold isDead
  rw [h]
  simp [hp]

theorem alive_of_isDead_eq_false (ps : List Particle) (i : Int) (h0 : 0 ≤ i)
    (hi : i < ps.length) (h : isDead ps i = false) :
    ∃ p, readParticle ps i = some p ∧ 0 < p.Life := by
  have hlt : i.toNat < ps.length := by omega
  have hrd : readParticle ps i = some ps[i.toNat] := by
    simp only [readParticle, h0, if_true]
    exact List.getElem?_eq_getElem hlt
  refine ⟨_, hrd, ?_⟩
  unfold isDead at h
  rw [hrd] at h
  simpa using h

theorem searchResult_bounds (s : Pool) (hn : 1 ≤ s.particles.length)
    (hpn : s.particleNum ≤ s.particles.length)
    (hl0 : 0 ≤ s.lastUsedParticle) (hl : s.lastUsedParticle ≤ s.particles.length) :
    0 ≤ searchResult s ∧ searchResult s < s.particles.length := by
  unfold searchResult
  cases hf : (cyclicOrder s.lastUsedParticle s.particleNum).find? (isDead s.particles) with
  | none => simp; omega
  | some i =>
    have hm := mem_cyclicOrder_lt hl0 (List.mem_of_find?_eq_some hf)
    simp only [Option.getD_some]
    omega

/-! ## The slot search of `FirstUnusedParticle` -/

/-- C1: on a pool of size at least 1 with `0 ≤ particleNum ≤ size` and
`0 ≤ lastUsedParticle ≤ size`, `FirstUnusedParticle` returns an index `i` with
`0 ≤ i < size` and leaves the vector alone, and the spawn built on it
(`FirstUnusedParticle`, then `RespawnParticle` on that slot) succeeds on the
same slot and leaves the number of particles unchanged. -/
theorem spawn_slot_in_range_size_kept (s : Pool) (rnd : Int) (velocity : Vec3)
    (transform : btTransform) (obj_size : Vec3)
    (hn : 1 ≤ s.particles.length)
    (_hp0 : 0 ≤ s.particleNum) (hpn : s.particleNum ≤ s.particles.length)
    (hl0 : 0 ≤ s.lastUsedParticle) (hl : s.lastUsedParticle ≤ s.particles.length) :
    ∃ (i : Int) (s1 s2 : Pool),
      FirstUnusedParticle s = some (i, s1) ∧ 0 ≤ i ∧ i < s.particles.length ∧
      s1.particles = s.particles ∧
      spawn rnd velocity transform obj_size s = some (i, s2) ∧
      s2.particles.length = s.particles.length := by
  have hfu := FirstUnusedParticle_eq s hpn hl0 hl
  have hb := searchResult_bounds s hn hpn hl0 hl
  have hlt : (searchResult s).toNat < s.particles.length := by omega
  have hrd : readParticle s.particles (searchResult s)
      = some (s.particles[(searchResult s).toNat]) := by
    simp only [readParticle, hb.1, if_true]
    exact List.getElem?_eq_getElem hlt
  refine ⟨searchResult s, { s with lastUsedParticle := searchResult s },
    { s with
      lastUsedParticle := searchResult s
      particles := s.particles.set (searchResult s).toNat
        (RespawnParticle rnd (s.particles[(searchResult s).toNat]) velocity transform obj_size) },
    hfu, hb.1, hb.2, rfl, ?_, ?_⟩
  · simp only [spawn]
    rw [hfu]
    simp only [searchResult] at hrd ⊢
    rw [hrd]
  · simp

/-- C1, at a pool of three live particles with the cursor at the end. -/
theorem spawn_slot_in_range_size_kept_witness :
    ∃ (i : Int) (s1 s2 : Pool),
      FirstUnusedParticle ⟨[liveParticle, liveParticle, liveParticle], 3, 3⟩ = some (i, s1) ∧
      0 ≤ i ∧ i < ([liveParticle, liveParticle, liveParticle] : List Particle).length ∧
      s1.particles = [liveParticle, liveParticle, liveParticle] ∧
      spawn 7 ⟨1, 2, 3⟩ ⟨⟨0, 1, 0⟩⟩ ball_size
        ⟨[liveParticle, liveParticle, liveParticle], 3, 3⟩ = some (i, s2) ∧
      s2.particles.length = ([liveParticle, liveParticle, liveParticle] : List Particle).length :=
  spawn_slot_in_range_size_kept ⟨[liveParticle, liveParticle, liveParticle], 3, 3⟩ 7 ⟨1, 2, 3⟩
    ⟨⟨0, 1, 0⟩⟩ ball_size (by decide) (by decide) (by decide) (by decide) (by decide)

/-- C2: when every index below `particleNum` holds a particle with `Life > 0`
and `0 ≤ lastUsedParticle ≤ particleNum`, `FirstUnusedParticle` returns slot 0
and sets `lastUsedParticle` to 0. -/
theorem all_alive_returns_slot_zero (s : Pool)
    (halive : ∀ j : Int, 0 ≤ j → j < s.particleNum →
      ∃ p, readParticle s.particles j = some p ∧ 0 < p.Life)
    (hl0 : 0 ≤ s.lastUsedParticle) (hl : s.lastUsedParticle ≤ s.particleNum) :
    FirstUnusedParticle s = some (0, { s with lastUsedParticle := 0 }) := by
  have hpn : s.particleNum ≤ s.particles.length := by
    by_contra hc
    obtain ⟨p, hp, _⟩ := halive (s.particles.length : Int) (Int.natCast_nonneg _) (by omega)
    rw [readParticle_natCast] at hp
    simp at hp
  have hfu := FirstUnusedParticle_eq s hpn hl0 (by omega)
  have hnone : (cyclicOrder s.lastUsedParticle s.particleNum).find? (isDead s.particles)
      = none := by
    rw [List.find?_eq_none]
    intro j hj
    have hm := mem_cyclicOrder_lt hl0 hj
    obtain ⟨p, hp, hlife⟩ := halive j hm.1 (by omega)
    simp [isDead_eq_false_of_alive s.particles j p hp hlife]
  rw [hfu, hnone]
  rfl

/-- C2, on a pool of size 3 with all three particles alive. -/
theorem all_alive_returns_slot_zero_witness :
    FirstUnusedParticle ⟨[liveParticle, liveParticle, liveParticle], 3, 2⟩
      = some (0, ⟨[liveParticle, liveParticle, liveParticle], 3, 0⟩) :=
  all_alive_returns_slot_zero ⟨[liveParticle, liveParticle, liveParticle], 3, 2⟩
    (by
      intro j h0 h3
      have h3 : j < 3 := h3
      interval_cases j <;> exact ⟨liveParticle, rfl, by norm_num [liveParticle]⟩)
    (by decide) (by decide)

/-- The search order for cursor 2 and five configured slots. -/
theorem cyclicOrder_two_five : cyclicOrder 2 5 = [2, 3, 4, 0, 1] := by decide

/-- C3: with `0 ≤ lastUsedParticle < particleNum ≤ size` and some dead particle
below `particleNum`, `FirstUnusedParticle` returns the first dead index of the
order `lastUsedParticle, ..., particleNum-1, 0, ..., lastUsedParticle-1`: the
returned slot is dead, every slot before it in that order is alive, and
`lastUsedParticle` afterwards is the returned index. -/
theorem first_dead_in_cyclic_order (s : Pool)
    (hl0 : 0 ≤ s.lastUsedParticle) (hlp : s.lastUsedParticle < s.particleNum)
    (hpn : s.particleNum ≤ s.particles.length)
    (hdead : ∃ (j : Int) (p : Particle), 0 ≤ j ∧ j < s.particleNum ∧
      readParticle s.particles j = some p ∧ p.Life ≤ 0) :
    ∃ (i : Int) (p : Particle),
      FirstUnusedParticle s = some (i, { s with lastUsedParticle := i }) ∧
      (cyclicOrder s.lastUsedParticle s.particleNum).find? (isDead s.particles) = some i ∧
      0 ≤ i ∧ i < s.particleNum ∧ readParticle s.particles i = some p ∧ p.Life ≤ 0 ∧
      ((s.lastUsedParticle ≤ i ∧
          ∀ k : Int, s.lastUsedParticle ≤ k → k < i →
            ∃ q, readParticle s.particles k = some q ∧ 0 < q.Life) ∨
       (i < s.lastUsedParticle ∧
          (∀ k : Int, s.lastUsedParticle ≤ k → k < s.particleNum →
            ∃ q, readParticle s.particles k = some q ∧ 0 < q.Life) ∧
          ∀ k : Int, 0 ≤ k → k < i →
            ∃ q, readParticle s.particles k = some q ∧ 0 < q.Life)) := by
  have hfu := FirstUnusedParticle_eq s hpn hl0 (by omega)
  have h1 := find_range_spec s.particles (s.particleNum - s.lastUsedParticle).toNat
    s.lastUsedParticle.toNat
  have h2 := find_range_spec s.particles s.lastUsedParticle.toNat 0
  have hc1 : ((s.lastUsedParticle.toNat : Nat) : Int) = s.lastUsedParticle := by omega
  have hc2 : (((s.particleNum - s.lastUsedParticle).toNat : Nat) : Int)
      = s.particleNum - s.lastUsedParticle := by omega
  obtain ⟨j, pj, hj0, hjn, hjr, hjl⟩ := hdead
  have hjd : isDead s.particles j = true := (isDead_eq_true_iff _ _).2 ⟨pj, hjr, hjl⟩
  have hfa : (cyclicOrder s.lastUsedParticle s.particleNum).find? (isDead s.particles)
      = Option.or (((List.range' s.lastUsedParticle.toNat
            (s.particleNum - s.lastUsedParticle).toNat).map Nat.cast).find? (isDead s.particles))
          (((List.range' 0 s.lastUsedParticle.toNat).map Nat.cast).find?
            (isDead s.particles)) := by
    simp only [cyclicOrder, List.find?_append]
  cases hf1 : List.find? (isDead s.particles)
      (List.map Nat.cast (List.range' s.lastUsedParticle.toNat
        (s.particleNum - s.lastUsedParticle).toNat)) with
  | some i =>
    rw [hf1] at h1 hfa
    simp only [hc1, hc2] at h1
    obtain ⟨a1, a2, a3, a4⟩ := h1
    obtain ⟨p, hp, hpl⟩ := (isDead_eq_true_iff _ _).1 a3
    have hfind : (cyclicOrder s.lastUsedParticle s.particleNum).find? (isDead s.particles)
        = some i := by rw [hfa]; rfl
    refine ⟨i, p, by rw [hfu, hfind]; rfl, hfind, by omega, by omega, hp, hpl, Or.inl ⟨a1, ?_⟩⟩
    intro k hk1 hk2
    exact alive_of_isDead_eq_false _ k (by omega) (by omega) (a4 k hk1 hk2)
  | none =>
    rw [hf1] at h1 hfa
    simp only [hc1, hc2] at h1
    cases hf2 : List.find? (isDead s.particles)
        (List.map Nat.cast (List.range' 0 s.lastUsedParticle.toNat)) with
    | some i =>
      rw [hf2] at h2 hfa
      simp only [hc1] at h2
      obtain ⟨b1, b2, b3, b4⟩ := h2
      have b1 : 0 ≤ i := b1
      obtain ⟨p, hp, hpl⟩ := (isDead_eq_true_iff _ _).1 b3
      have hfind : (cyclicOrder s.lastUsedParticle s.particleNum).find? (isDead s.particles)
          = some i := by rw [hfa]; rfl
      refine ⟨i, p, by rw [hfu, hfind]; rfl, hfind, b1, by omega, hp, hpl,
        Or.inr ⟨by omega, ?_, ?_⟩⟩
      · intro k hk1 hk2
        exact alive_of_isDead_eq_false _ k (by omega) (by omega) (h1 k hk1 (by omega))
      · intro k hk1 hk2
        exact alive_of_isDead_eq_false _ k hk1 (by omega) (b4 k hk1 hk2)
    | none =>
      rw [hf2] at h2
      simp only [hc1] at h2
      exfalso
      by_cases hjl : s.lastUsedParticle ≤ j
      · have := h1 j hjl (by omega)
        rw [this] at hjd
        exact Bool.noConfusion hjd
      · have := h2 j hj0 (by omega)
        rw [this] at hjd
        exact Bool.noConfusion hjd

/-- C3, at the pool `[live, dead, live]` with the cursor on slot 2: the search
wraps around and settles on a dead slot, which becomes the cursor. -/
theorem first_dead_in_cyclic_order_witness :
    ∃ i : Int,
      FirstUnusedParticle ⟨[liveParticle, Particle.new, liveParticle], 3, 2⟩
        = some (i, ⟨[liveParticle, Particle.new, liveParticle], 3, i⟩) ∧
      (cyclicOrder 2 3).find? (isDead [liveParticle, Particle.new, liveParticle]) = some i ∧
      isDead [liveParticle, Particle.new, liveParticle] i = true := by
  obtain ⟨i, p, h1, h2, -, -, h3, h4, -⟩ :=
    first_dead_in_cyclic_order ⟨[liveParticle, Particle.new, liveParticle], 3, 2⟩
      (by decide) (by decide) (by decide)
      ⟨1, Particle.new, by decide, by decide, rfl, by norm_num [Particle.new]⟩
  exact ⟨i, h1, h2, (isDead_eq_true_iff _ _).2 ⟨p, h3, h4⟩⟩

/-- The same search evaluated: slot 1 is returned and becomes the cursor. -/
theorem FirstUnusedParticle_live_dead_live :
    FirstUnusedParticle ⟨[liveParticle, Particle.new, liveParticle], 3, 2⟩
      = some (1, ⟨[liveParticle, Particle.new, liveParticle], 3, 1⟩) := by
  simp [FirstUnusedParticle, scanDead, readParticle, liveParticle, Particle.new]
  norm_num

/-! ## The update loop and the draw test -/

theorem tick_getElem? (deltaTime : ℚ) (ps : List Particle) (i : Nat) :
    (tick deltaTime ps)[i]? = (ps[i]?).map (tickParticle deltaTime) := by
  simp [tick]

/-- C4: in a tick with `deltaTime ≥ 0`, a particle of the pool whose `Life` is
`≤ 0` before the update loop still has `Life ≤ 0` after it, so it fails the draw
test `Life > 0` and is not among the drawn particles. -/
theorem inert_particle_stays_inert (deltaTime : ℚ) (ps : List Particle) (i : Nat)
    (p : Particle) (hd : 0 ≤ deltaTime) (hp : ps[i]? = some p) (hlife : p.Life ≤ 0) :
    ∃ q, (tick deltaTime ps)[i]? = some q ∧ q.Life ≤ 0 ∧ isDrawn q = false ∧
      q ∉ drawnParticles (tick deltaTime ps) := by
  have hle : p.Life - deltaTime ≤ 0 := by linarith
  have hq : (tickParticle deltaTime p).Life = p.Life - deltaTime := by
    unfold tickParticle
    simp only
    split <;> rfl
  have hnd : isDrawn (tickParticle deltaTime p) = false := by
    simp only [isDrawn, hq]
    exact decide_eq_false (not_lt.mpr hle)
  refine ⟨tickParticle deltaTime p, ?_, by rw [hq]; exact hle, hnd, ?_⟩
  · rw [tick_getElem?, hp]; rfl
  · simp [drawnParticles, hnd]

/-- C4, at a dead particle in slot 1 of a three-slot pool and a tick of 1/60 s. -/
theorem inert_particle_stays_inert_witness :
    ∃ q, (tick (1 / 60) [liveParticle, Particle.new, liveParticle])[1]? = some q ∧ q.Life ≤ 0 ∧
      isDrawn q = false ∧
      q ∉ drawnParticles (tick (1 / 60) [liveParticle, Particle.new, liveParticle]) :=
  inert_particle_stays_inert (1 / 60) [liveParticle, Particle.new, liveParticle] 1 Particle.new
    (by norm_num) rfl (by norm_num [Particle.new])

/-- C5: one run of the update loop keeps the size of the pool and changes the
particle `p` of each slot as follows: `Life` becomes `p.Life - deltaTime` and
`Speed` is kept; when the new `Life` is `> 0`, `Position` becomes
`p.Position - p.Speed * deltaTime` and alpha becomes `alpha - 2.5 * deltaTime`
with the RGB channels kept; when the new `Life` is `≤ 0`, `Position` and `Color`
are kept. -/
theorem tick_updates_each_particle (deltaTime : ℚ) (ps : List Particle) :
    (tick deltaTime ps).length = ps.length ∧
    ∀ (i : Nat) (p : Particle), ps[i]? = some p →
      ∃ q, (tick deltaTime ps)[i]? = some q ∧
        q.Life = p.Life - deltaTime ∧ q.Speed = p.Speed ∧
        (p.Life - deltaTime > 0 →
          q.Position = ⟨p.Position.x - p.Speed.x * deltaTime,
            p.Position.y - p.Speed.y * deltaTime, p.Position.z - p.Speed.z * deltaTime⟩ ∧
          q.Color = ⟨p.Color.r, p.Color.g, p.Color.b, p.Color.a - 5 / 2 * deltaTime⟩) ∧
        (p.Life - deltaTime ≤ 0 → q.Position = p.Position ∧ q.Color = p.Color) := by
  refine ⟨by simp [tick], ?_⟩
  intro i p hp
  refine ⟨tickParticle deltaTime p, by rw [tick_getElem?, hp]; rfl, ?_, ?_, ?_, ?_⟩
  · unfold tickParticle
    simp only
    split <;> rfl
  · unfold tickParticle
    simp only
    split <;> rfl
  · intro h
    have h' : p.Life - deltaTime > 0 := h
    simp only [tickParticle, h', if_true, Vec3.sub, Vec3.scale, true_and]
    rw [mul_comm deltaTime]
  · intro h
    have h' : ¬ (p.Life - deltaTime > 0) := not_lt.mpr h
    simp only [tickParticle, h', if_false, and_self]

/-- C5, at a three-slot pool and a tick of 1/60 s. -/
theorem tick_updates_each_particle_witness :
    (tick (1 / 60) [liveParticle, Particle.new, liveParticle]).length = 3 ∧
    (tick (1 / 60) [liveParticle, Particle.new, liveParticle])[0]?
      = some ⟨⟨0, 0, 0⟩, ⟨0, 0, 0⟩, ⟨0, 0, 0, 23 / 24⟩, 29 / 60⟩ := by
  obtain ⟨hlen, h⟩ := tick_updates_each_particle (1 / 60)
    [liveParticle, Particle.new, liveParticle]
  obtain ⟨q, hq, h1, h2, h3, -⟩ := h 0 liveParticle rfl
  have hpos : liveParticle.Life - 1 / 60 > 0 := by norm_num [liveParticle]
  obtain ⟨h4, h5⟩ := h3 hpos
  refine ⟨hlen, ?_⟩
  rw [hq]
  obtain ⟨qp, qs, qc, ql⟩ := q
  simp only at h1 h2 h4 h5
  subst h1 h2 h4 h5
  norm_num [liveParticle]

/-! ## `RespawnParticle` -/

/-- C6: whatever the slot held, `RespawnParticle` sets `Life` to exactly 1, `Speed`
to 0.1 times the body's linear velocity componentwise, `Position` to the origin
of the transform and the colour's alpha to 1. -/
theorem respawn_sets_fields (rnd : Int) (particle : Particle) (velocity : Vec3)
    (transform : btTransform) (obj_size : Vec3) :
    (RespawnParticle rnd particle velocity transform obj_size).Life = 1 ∧
    (RespawnParticle rnd particle velocity transform obj_size).Speed
      = ⟨1 / 10 * velocity.x, 1 / 10 * velocity.y, 1 / 10 * velocity.z⟩ ∧
    (RespawnParticle rnd particle velocity transform obj_size).Position = transform.origin ∧
    (RespawnParticle rnd particle velocity transform obj_size).Color.a = 1 := by
  refine ⟨rfl, ?_, rfl, ?_⟩
  · simp only [RespawnParticle, Vec3.scale]
    rw [mul_comm velocity.x, mul_comm velocity.y, mul_comm velocity.z]
  · simp only [RespawnParticle]
    split <;> rfl

theorem rColor_bounds (rnd : Int) (h : 0 ≤ rnd) : 1 / 2 ≤ rColor rnd ∧ rColor rnd ≤ 3 / 2 := by
  have hm : Int.tmod rnd 100 = rnd % 100 := Int.tmod_eq_emod h (by decide)
  have h0 : (0 : Int) ≤ rnd % 100 := Int.emod_nonneg rnd (by decide)
  have h1 : rnd % 100 < 100 := Int.emod_lt_of_pos rnd (by decide)
  have q0 : (0 : ℚ) ≤ ((rnd % 100 : Int) : ℚ) := by exact_mod_cast h0
  have q1 : ((rnd % 100 : Int) : ℚ) < 100 := by exact_mod_cast h1
  unfold rColor
  rw [hm]
  constructor
  · linarith [div_nonneg q0 (by norm_num : (0 : ℚ) ≤ 100)]
  · have : ((rnd % 100 : Int) : ℚ) / 100 ≤ 1 := by
      rw [div_le_one (by norm_num : (0 : ℚ) < 100)]
      exact le_of_lt q1
    linarith

/-- C7: for every value `rnd ≥ 0` that `rand()` returns, the brightness
`0.5 + (rnd % 100) / 100` lies in `[0.5, 1.5]`, and the spawned colour is
`(0, r, 0, 1)` when the object's size equals `ball_size` and `(r, r, r, 1)`
otherwise. -/
theorem respawn_colour (rnd : Int) (particle : Particle) (velocity : Vec3)
    (transform : btTransform) (obj_size : Vec3) (hrnd : 0 ≤ rnd) :
    1 / 2 ≤ rColor rnd ∧ rColor rnd ≤ 3 / 2 ∧
    (obj_size = ball_size →
      (RespawnParticle rnd particle velocity transform obj_size).Color
        = ⟨0, rColor rnd, 0, 1⟩) ∧
    (obj_size ≠ ball_size →
      (RespawnParticle rnd particle velocity transform obj_size).Color
        = ⟨rColor rnd, rColor rnd, rColor rnd, 1⟩) := by
  refine ⟨(rColor_bounds rnd hrnd).1, (rColor_bounds rnd hrnd).2, ?_, ?_⟩
  · intro h
    simp only [RespawnParticle, h, if_true]
  · intro h
    simp only [RespawnParticle, h, if_false]

/-- C7, at `rand() = 199` (brightness 1.49) for a ball and for a pin. -/
theorem respawn_colour_witness :
    rColor 199 = 149 / 100 ∧
    (RespawnParticle 199 Particle.new ⟨1, 2, 3⟩ ⟨⟨0, 1, 0⟩⟩ ball_size).Color
      = ⟨0, rColor 199, 0, 1⟩ ∧
    (RespawnParticle 199 Particle.new ⟨1, 2, 3⟩ ⟨⟨0, 1, 0⟩⟩ pin_size).Color
      = ⟨rColor 199, rColor 199, rColor 199, 1⟩ :=
  ⟨by norm_num [rColor, Int.tmod],
    (respawn_colour 199 Particle.new ⟨1, 2, 3⟩ ⟨⟨0, 1, 0⟩⟩ ball_size (by decide)).2.2.1 rfl,
    (respawn_colour 199 Particle.new ⟨1, 2, 3⟩ ⟨⟨0, 1, 0⟩⟩ pin_size (by decide)).2.2.2
      (by norm_num [pin_size, ball_size])⟩

/-! ## Lemmas on the loop over the bodies -/

theorem spawn_eq (rnd : Int) (velocity : Vec3) (transform : btTransform) (obj_size : Vec3)
    (s : Pool) (h : PoolOK s) :
    ∃ p, readParticle s.particles (searchResult s) = some p ∧
      spawn rnd velocity transform obj_size s
        = some (searchResult s,
            { particles := s.particles.set (searchResult s).toNat
                (RespawnParticle rnd p velocity transform obj_size)
              particleNum := s.particleNum
              lastUsedParticle := searchResult s }) := by
  obtain ⟨hn, -, hpn, hl0, hl⟩ := h
  have hfu := FirstUnusedParticle_eq s hpn hl0 hl
  have hb := searchResult_bounds s hn hpn hl0 hl
  have hlt : (searchResult s).toNat < s.particles.length := by omega
  have hrd : readParticle s.particles (searchResult s)
      = some (s.particles[(searchResult s).toNat]) := by
    simp only [readParticle, hb.1, if_true]
    exact List.getElem?_eq_getElem hlt
  refine ⟨_, hrd, ?_⟩
  simp only [spawn]
  rw [hfu]
  simp only [searchResult] at hrd ⊢
  rw [hrd]

theorem spawn_keeps_PoolOK (rnd : Int) (velocity : Vec3) (transform : btTransform)
    (obj_size : Vec3) (s : Pool) (h : PoolOK s) :
    ∃ slot s1, spawn rnd velocity transform obj_size s = some (slot, s1) ∧ PoolOK s1 ∧
      s1.particles.length = s.particles.length ∧ s1.particleNum = s.particleNum := by
  obtain ⟨p, -, hs⟩ := spawn_eq rnd velocity transform obj_size s h
  have hb := searchResult_bounds s h.1 h.2.2.1 h.2.2.2.1 h.2.2.2.2
  refine ⟨_, _, hs, ?_, by simp, rfl⟩
  obtain ⟨hn, hp0, hpn, hl0, hl⟩ := h
  refine ⟨by simpa using hn, hp0, by simpa using hpn, hb.1, ?_⟩
  simp only [List.length_set]
  omega

theorem not_stopped_of_none {fault : Option Fault} (hf : fault = none) :
    fault ≠ some Fault.outOfRange := by
  rw [hf]
  exact fun h => Option.noConfusion h

theorem useBody_rest (i : Int) (body : RigidBody) (sc : Scene) :
    (useBody i body sc).bodies = sc.bodies ∧ (useBody i body sc).pool = sc.pool ∧
      (useBody i body sc).randCalls = sc.randCalls ∧ (useBody i body sc).trace = sc.trace := by
  unfold useBody
  split <;> exact ⟨rfl, rfl, rfl, rfl⟩

theorem useBody_fault (i : Int) (body : RigidBody) (sc : Scene)
    (hnh : sc.fault ≠ some Fault.outOfRange) :
    (useBody i body sc).fault ≠ some Fault.outOfRange := by
  unfold useBody
  split
  · exact fun h => Fault.noConfusion (Option.some.inj h)
  · exact hnh

theorem useBody_eq (i : Int) (body : RigidBody) (sc : Scene) :
    useBody i body sc = { sc with fault := (useBody i body sc).fault } := by
  unfold useBody
  split <;> rfl

/-- One spawn step in a pass that has not stopped, with the pool within its
bounds: the step succeeds, the pool stays within its bounds and keeps its size
and `particleNum`, and only the slot of the spawn is written. -/
theorem spawnStep_go (rand : Nat → Int) (i : Int) (body : RigidBody) (obj_size : Vec3)
    (sc : Scene) (hnh : sc.fault ≠ some Fault.outOfRange) (h : PoolOK sc.pool) :
    ∃ slot pool, spawnStep rand i body obj_size sc
        = { sc with
            pool := pool
            randCalls := sc.randCalls + 1
            trace := sc.trace ++ [Event.spawnParticle i slot] } ∧
      PoolOK pool ∧ pool.particles.length = sc.pool.particles.length ∧
      pool.particleNum = sc.pool.particleNum ∧
      ∀ j : Nat, (j : Int) ≠ slot → pool.particles[j]? = sc.pool.particles[j]? := by
  obtain ⟨p, -, hs⟩ :=
    spawn_eq (rand sc.randCalls) body.linearVelocity body.transform obj_size sc.pool h
  obtain ⟨slot, s1, hs1, hok, hlen, hnum⟩ :=
    spawn_keeps_PoolOK (rand sc.randCalls) body.linearVelocity body.transform obj_size sc.pool h
  have hb := searchResult_bounds sc.pool h.1 h.2.2.1 h.2.2.2.1 h.2.2.2.2
  have hs0 := hs1
  rw [hs] at hs1
  have he := Option.some.inj hs1
  have hslot : searchResult sc.pool = slot := congrArg Prod.fst he
  have hpool := congrArg Prod.snd he
  simp only at hpool
  refine ⟨slot, s1, ?_, hok, hlen, hnum, ?_⟩
  · simp only [spawnStep, if_neg hnh, hs0]
  · intro j hj
    rw [← hpool]
    simp only
    rw [List.getElem?_set_ne]
    rw [hslot]
    omega

theorem spawnStep_ok (rand : Nat → Int) (i : Int) (body : RigidBody) (obj_size : Vec3)
    (sc : Scene) (hf : sc.fault = none) (h : PoolOK sc.pool) :
    ∃ slot pool, spawnStep rand i body obj_size sc
        = { sc with
            pool := pool
            randCalls := sc.randCalls + 1
            trace := sc.trace ++ [Event.spawnParticle i slot] } ∧
      PoolOK pool ∧ pool.particles.length = sc.pool.particles.length := by
  obtain ⟨slot, pool, hs, hok, hlen, -, -⟩ :=
    spawnStep_go rand i body obj_size sc (not_stopped_of_none hf) h
  exact ⟨slot, pool, hs, hok, hlen⟩

/-- The visit of a body below the threshold in a pass that has not stopped: the
transform is read and the destructor called, whether or not the destructor of
the body has run before. -/
theorem visitBody_culled_go (rand : Nat → Int) (deltaTime : ℚ) (i : Int) (sc : Scene)
    (body : RigidBody) (hnh : sc.fault ≠ some Fault.outOfRange)
    (hb : readBody sc.bodies i = some body) (hy : body.transform.origin.y < -7) :
    visitBody rand deltaTime i sc
      = { sc with
          bodies := sc.bodies.set i.toNat { body with destroyed := true }
          trace := sc.trace ++ [Event.readTransform i] ++ [Event.destroyBody i]
          fault := (useBody i body sc).fault } := by
  have hy' : ¬ (body.transform.origin.y ≥ -7) := not_le.mpr hy
  obtain ⟨r1, r2, r3, -⟩ := useBody_rest i body sc
  simp only [visitBody, if_neg hnh, hb, hy', if_false, r1, r2, r3]

/-- The visit of a body at or above the threshold in a pass that has not stopped,
with the pool within its bounds: the transform is read, two spawns are made, the
pool is updated and drawn and the object is drawn, whether or not the destructor
of the body has run before; only the slots of the two spawns are written before
the update. -/
theorem visitBody_kept_go (rand : Nat → Int) (deltaTime : ℚ) (i : Int) (sc : Scene)
    (body : RigidBody) (hnh : sc.fault ≠ some Fault.outOfRange)
    (hb : readBody sc.bodies i = some body) (hy : -7 ≤ body.transform.origin.y)
    (hpool : PoolOK sc.pool) :
    ∃ slot1 slot2 pool,
      visitBody rand deltaTime i sc
        = { sc with
            pool := { pool with particles := tick deltaTime pool.particles }
            randCalls := sc.randCalls + 1 + 1
            trace := sc.trace ++ [Event.readTransform i] ++ [Event.spawnParticle i slot1]
              ++ [Event.spawnParticle i slot2] ++ [Event.tickParticles]
              ++ (drawnParticles (tick deltaTime pool.particles)).map Event.drawParticle
              ++ [Event.drawObject i (objectKind i) (objectSize (objectKind i))]
            fault := (useBody i body sc).fault } ∧
      PoolOK pool ∧ pool.particles.length = sc.pool.particles.length ∧
      pool.particleNum = sc.pool.particleNum ∧
      ∀ j : Nat, (j : Int) ≠ slot1 → (j : Int) ≠ slot2 →
        pool.particles[j]? = sc.pool.particles[j]? := by
  have hy' : body.transform.origin.y ≥ -7 := hy
  have hu := useBody_fault i body sc hnh
  obtain ⟨r1, r2, r3, -⟩ := useBody_rest i body sc
  obtain ⟨slot1, pool1, h1, hok1, hlen1, hnum1, hk1⟩ :=
    spawnStep_go rand i body (objectSize (objectKind i))
      ⟨sc.bodies, sc.pool, sc.randCalls, sc.trace ++ [Event.readTransform i],
        (useBody i body sc).fault⟩ hu hpool
  obtain ⟨slot2, pool2, h2, hok2, hlen2, hnum2, hk2⟩ :=
    spawnStep_go rand i body (objectSize (objectKind i))
      ⟨sc.bodies, pool1, sc.randCalls + 1,
        sc.trace ++ [Event.readTransform i] ++ [Event.spawnParticle i slot1],
        (useBody i body sc).fault⟩ hu hok1
  simp only at h1 h2 hlen1 hlen2 hnum1 hnum2 hk1 hk2
  refine ⟨slot1, slot2, pool2, ?_, hok2, by rw [hlen2]; exact hlen1,
    by rw [hnum2]; exact hnum1, ?_⟩
  · simp only [visitBody, if_neg hnh, hb, hy', if_true, r1, r2, r3]
    rw [h1, h2]
    simp only [tickAndDraw, drawObject, if_neg hu]
  · intro j hj1 hj2
    rw [hk2 j hj2, hk1 j hj1]

theorem spawnStep_frame (rand : Nat → Int) (i : Int) (body : RigidBody) (obj_size : Vec3)
    (sc : Scene) :
    ∃ evs : List Event,
      (spawnStep rand i body obj_size sc).trace = sc.trace ++ evs ∧
      (spawnStep rand i body obj_size sc).bodies = sc.bodies ∧
      ∀ e ∈ evs, ∀ j, e.bodyIndex = some j → j = i := by
  unfold spawnStep
  by_cases hst : sc.fault = some Fault.outOfRange
  · rw [if_pos hst]
    exact ⟨[], by simp, rfl, by simp⟩
  · rw [if_neg hst]
    cases hs : spawn (rand sc.randCalls) body.linearVelocity body.transform obj_size sc.pool with
    | none => exact ⟨[], by simp, rfl, by simp⟩
    | some r =>
      obtain ⟨slot, pool⟩ := r
      refine ⟨[Event.spawnParticle i slot], rfl, rfl, ?_⟩
      intro e he j hj
      rw [List.mem_singleton] at he
      subst he
      simp only [Event.bodyIndex, Option.some.injEq] at hj
      exact hj.symm

theorem tickAndDraw_frame (deltaTime : ℚ) (sc : Scene) :
    ∃ evs : List Event,
      (tickAndDraw deltaTime sc).trace = sc.trace ++ evs ∧
      (tickAndDraw deltaTime sc).bodies = sc.bodies ∧
      ∀ e ∈ evs, e.bodyIndex = none := by
  unfold tickAndDraw
  by_cases hst : sc.fault = some Fault.outOfRange
  · rw [if_pos hst]
    exact ⟨[], by simp, rfl, by simp⟩
  · rw [if_neg hst]
    refine ⟨[Event.tickParticles]
      ++ (drawnParticles (tick deltaTime sc.pool.particles)).map Event.drawParticle,
      by simp, rfl, ?_⟩
    intro e he
    simp only [List.mem_append, List.mem_singleton, List.mem_map] at he
    rcases he with rfl | ⟨p, -, rfl⟩ <;> rfl

theorem drawObject_frame (i : Int) (sc : Scene) :
    ∃ evs : List Event,
      (drawObject i sc).trace = sc.trace ++ evs ∧
      (drawObject i sc).bodies = sc.bodies ∧
      ∀ e ∈ evs, ∀ j, e.bodyIndex = some j → j = i := by
  unfold drawObject
  by_cases hst : sc.fault = some Fault.outOfRange
  · rw [if_pos hst]
    exact ⟨[], by simp, rfl, by simp⟩
  · rw [if_neg hst]
    refine ⟨[Event.drawObject i (objectKind i) (objectSize (objectKind i))], rfl, rfl, ?_⟩
    intro e he j hj
    rw [List.mem_singleton] at he
    subst he
    simp only [Event.bodyIndex, Option.some.injEq] at hj
    exact hj.symm

theorem readBody_set_ne (bodies : List RigidBody) (i j : Int) (b : RigidBody) (hi : 0 ≤ i)
    (hne : j ≠ i) : readBody (bodies.set i.toNat b) j = readBody bodies j := by
  unfold readBody
  by_cases hj : 0 ≤ j
  · simp only [hj, if_true]
    exact List.getElem?_set_ne (by omega)
  · simp only [hj, if_false]

/-- One visit only acts on the body at its own index: every action it records
that names a body names `i`, and every other entry of the array is left as it
was. -/
theorem visitBody_frame (rand : Nat → Int) (deltaTime : ℚ) (i : Int) (sc : Scene) :
    ∃ evs : List Event,
      (visitBody rand deltaTime i sc).trace = sc.trace ++ evs ∧
      (∀ e ∈ evs, ∀ j, e.bodyIndex = some j → j = i) ∧
      (visitBody rand deltaTime i sc).bodies.length = sc.bodies.length ∧
      ∀ j, j ≠ i → readBody (visitBody rand deltaTime i sc).bodies j = readBody sc.bodies j := by
  by_cases hst : sc.fault = some Fault.outOfRange
  · have hv : visitBody rand deltaTime i sc = sc := by
      simp only [visitBody, if_pos hst]
    rw [hv]
    exact ⟨[], by simp, by simp, rfl, fun _ _ => rfl⟩
  · cases hb : readBody sc.bodies i with
    | none =>
      have hv : visitBody rand deltaTime i sc = { sc with fault := some Fault.outOfRange } := by
        simp only [visitBody, if_neg hst, hb]
      rw [hv]
      exact ⟨[], by simp, by simp, rfl, fun _ _ => rfl⟩
    | some body =>
      have hi0 : 0 ≤ i := by
        by_contra hneg
        simp [readBody, hneg] at hb
      obtain ⟨r1, r2, r3, -⟩ := useBody_rest i body sc
      by_cases hy : body.transform.origin.y ≥ -7
      · have hv : visitBody rand deltaTime i sc
            = drawObject i (tickAndDraw deltaTime
                (spawnStep rand i body (objectSize (objectKind i))
                  (spawnStep rand i body (objectSize (objectKind i))
                    ⟨sc.bodies, sc.pool, sc.randCalls, sc.trace ++ [Event.readTransform i],
                      (useBody i body sc).fault⟩))) := by
          simp only [visitBody, if_neg hst, hb, hy, if_true, r1, r2, r3]
        rw [hv]
        obtain ⟨e1, t1, b1, m1⟩ := spawnStep_frame rand i body (objectSize (objectKind i))
          ⟨sc.bodies, sc.pool, sc.randCalls, sc.trace ++ [Event.readTransform i],
            (useBody i body sc).fault⟩
        obtain ⟨e2, t2, b2, m2⟩ := spawnStep_frame rand i body (objectSize (objectKind i))
          (spawnStep rand i body (objectSize (objectKind i))
            ⟨sc.bodies, sc.pool, sc.randCalls, sc.trace ++ [Event.readTransform i],
              (useBody i body sc).fault⟩)
        obtain ⟨e3, t3, b3, m3⟩ := tickAndDraw_frame deltaTime
          (spawnStep rand i body (objectSize (objectKind i))
            (spawnStep rand i body (objectSize (objectKind i))
              ⟨sc.bodies, sc.pool, sc.randCalls, sc.trace ++ [Event.readTransform i],
                (useBody i body sc).fault⟩))
        obtain ⟨e4, t4, b4, m4⟩ := drawObject_frame i
          (tickAndDraw deltaTime
            (spawnStep rand i body (objectSize (objectKind i))
              (spawnStep rand i body (objectSize (objectKind i))
                ⟨sc.bodies, sc.pool, sc.randCalls, sc.trace ++ [Event.readTransform i],
                  (useBody i body sc).fault⟩)))
        refine ⟨[Event.readTransform i] ++ e1 ++ e2 ++ e3 ++ e4, ?_, ?_, ?_, ?_⟩
        · rw [t4, t3, t2, t1]
          simp
        · intro e he j hj
          simp only [List.mem_append, List.mem_singleton] at he
          rcases he with (((rfl | he) | he) | he) | he
          · simp only [Event.bodyIndex, Option.some.injEq] at hj
            exact hj.symm
          · exact m1 e he j hj
          · exact m2 e he j hj
          · rw [m3 e he] at hj
            exact Option.noConfusion hj
          · exact m4 e he j hj
        · rw [b4, b3, b2, b1]
        · intro j _
          rw [b4, b3, b2, b1]
      · have hv : visitBody rand deltaTime i sc
            = ⟨sc.bodies.set i.toNat { body with destroyed := true }, sc.pool, sc.randCalls,
                sc.trace ++ [Event.readTransform i] ++ [Event.destroyBody i],
                (useBody i body sc).fault⟩ := by
          simp only [visitBody, if_neg hst, hb, hy, if_false, r1, r2, r3]
        rw [hv]
        refine ⟨[Event.readTransform i] ++ [Event.destroyBody i], by simp, ?_, by simp, ?_⟩
        · intro e he j hj
          simp only [List.mem_append, List.mem_singleton] at he
          rcases he with rfl | rfl <;>
            (simp only [Event.bodyIndex, Option.some.injEq] at hj; exact hj.symm)
        · intro j hne
          exact readBody_set_ne sc.bodies i j _ hi0 hne

theorem bodyLoop_frame (rand : Nat → Int) (deltaTime : ℚ) :
    ∀ (n : Nat) (i : Int) (sc : Scene),
      ∃ evs : List Event,
        (bodyLoop rand deltaTime n i sc).trace = sc.trace ++ evs ∧
        (∀ e ∈ evs, ∀ j, e.bodyIndex = some j → i ≤ j) ∧
        (bodyLoop rand deltaTime n i sc).bodies.length = sc.bodies.length ∧
        ∀ j, j < i → readBody (bodyLoop rand deltaTime n i sc).bodies j = readBody sc.bodies j := by
  intro n
  induction n with
  | zero => intro i sc; exact ⟨[], by simp [bodyLoop], by simp, rfl, fun _ _ => rfl⟩
  | succ n ih =>
    intro i sc
    obtain ⟨e1, t1, m1, l1, r1⟩ := visitBody_frame rand deltaTime i sc
    obtain ⟨e2, t2, m2, l2, r2⟩ := ih (i + 1) (visitBody rand deltaTime i sc)
    refine ⟨e1 ++ e2, ?_, ?_, ?_, ?_⟩
    · simp only [bodyLoop]
      rw [t2, t1, List.append_assoc]
    · intro e he j hj
      rw [List.mem_append] at he
      rcases he with he | he
      · exact le_of_eq (m1 e he j hj).symm
      · have := m2 e he j hj
        omega
    · simp only [bodyLoop]
      rw [l2, l1]
    · intro j hj
      simp only [bodyLoop]
      rw [r2 j (by omega), r1 j (by omega)]

/-! ## The planes are outside the cull pass -/

/-- C10: for every state of the array and every pass, the pass records no
transform read (cull check) and no destructor call for an index below
`planeNum = 3`, every action that names a body names an index `≥ 3`, and the
entries at positions 0, 1, 2 are the same after the pass. -/
theorem planes_never_culled (rand : Nat → Int) (deltaTime : ℚ) (sc : Scene) :
    planeNum = 3 ∧
    ∃ evs : List Event,
      (framePass rand deltaTime sc).trace = sc.trace ++ evs ∧
      (∀ e ∈ evs, ∀ j, e.bodyIndex = some j → 3 ≤ j) ∧
      (∀ j : Int, j < 3 → Event.readTransform j ∉ evs ∧ Event.destroyBody j ∉ evs) ∧
      ∀ j : Int, j < 3 → readBody (framePass rand deltaTime sc).bodies j = readBody sc.bodies j := by
  refine ⟨rfl, ?_⟩
  obtain ⟨evs, t, m, -, r⟩ :=
    bodyLoop_frame rand deltaTime ((sc.bodies.length : Int) - planeNum).toNat planeNum sc
  refine ⟨evs, t, m, ?_, r⟩
  intro j hj
  constructor
  · intro hmem
    have := m _ hmem j rfl
    have h3 : planeNum = 3 := rfl
    omega
  · intro hmem
    have := m _ hmem j rfl
    have h3 : planeNum = 3 := rfl
    omega

/-- C10, with the first three bodies placed at `y = -8`, below the threshold: the
pass neither reads nor destroys them. -/
theorem planes_never_culled_witness :
    ∃ evs : List Event,
      (framePass zeroRand (1 / 60) sunkenPlanesScene).trace = sunkenPlanesScene.trace ++ evs ∧
      Event.readTransform 0 ∉ evs ∧ Event.destroyBody 0 ∉ evs ∧
      Event.readTransform 2 ∉ evs ∧ Event.destroyBody 2 ∉ evs ∧
      readBody (framePass zeroRand (1 / 60) sunkenPlanesScene).bodies 0
        = some (restingBody (-8)) ∧
      readBody (framePass zeroRand (1 / 60) sunkenPlanesScene).bodies 2
        = some (restingBody (-8)) := by
  obtain ⟨-, evs, ht, -, hm, hr⟩ := planes_never_culled zeroRand (1 / 60) sunkenPlanesScene
  refine ⟨evs, ht, (hm 0 (by decide)).1, (hm 0 (by decide)).2, (hm 2 (by decide)).1,
    (hm 2 (by decide)).2, ?_, ?_⟩
  · rw [hr 0 (by decide)]; rfl
  · rw [hr 2 (by decide)]; rfl

/-! ## A culled body stays in the array -/

/-- C9, evaluated on three planes and one body at `y = -7.1`: the pass calls the
destructor of the body at index 3, after which the array still has four entries
with the destroyed body at index 3, and the next pass goes to index 3 again and
uses the destroyed body. -/
theorem culled_body_stays_in_array :
    (framePass zeroRand (1 / 60) fallenScene).trace
      = [Event.readTransform 3, Event.destroyBody 3] ∧
    (framePass zeroRand (1 / 60) fallenScene).bodies.length = 4 ∧
    readBody (framePass zeroRand (1 / 60) fallenScene).bodies 3
      = some { restingBody (-71 / 10) with destroyed := true } ∧
    (framePass zeroRand (1 / 60) (framePass zeroRand (1 / 60) fallenScene)).fault
      = some (Fault.useAfterDestroy 3) := by
  have h1 : framePass zeroRand (1 / 60) fallenScene
      = ⟨[restingBody (-1), restingBody (-1), restingBody (-1),
            { restingBody (-71 / 10) with destroyed := true }],
          ⟨[Particle.new, Particle.new, Particle.new], 3, 0⟩, 0,
          [Event.readTransform 3, Event.destroyBody 3], none⟩ := by
    simp [framePass, fallenScene, planeNum, bodyLoop, visitBody, useBody, readBody, restingBody]
    norm_num
  rw [h1]
  refine ⟨rfl, rfl, rfl, ?_⟩
  simp [framePass, planeNum, bodyLoop, visitBody, useBody, readBody, restingBody]
  norm_num

/-! ## Counting the spawns of a pass -/

theorem PoolOK_tick (deltaTime : ℚ) (pool : Pool) (h : PoolOK pool) :
    PoolOK { pool with particles := tick deltaTime pool.particles } := by
  unfold PoolOK at h ⊢
  simpa [tick] using h

theorem list_map_set_destroyed {α : Type} (g : RigidBody → α)
    (hg : ∀ b : RigidBody, g { b with destroyed := true } = g b)
    (bodies : List RigidBody) (k : Nat) (body : RigidBody) (hb : bodies[k]? = some body) :
    (bodies.set k { body with destroyed := true }).map g = bodies.map g := by
  rw [List.map_set]
  apply List.ext_getElem?
  intro n
  by_cases hn : n = k
  · subst hn
    by_cases hlt : n < bodies.length
    · rw [List.getElem?_set_self (by simpa using hlt)]
      simp [hb, hg]
    · rw [List.getElem?_eq_none (by simpa using hlt),
        List.getElem?_eq_none (by simpa using hlt)]
  · rw [List.getElem?_set_ne (Ne.symm hn)]

/-- What one visit does in a pass that has not stopped, summarised, whether or not
the destructor of the body has run before: the pass does not stop, the pool stays
within its bounds, the array keeps its length, its other entries and every
transform, and the visit records two spawns and one run of the update loop when
the body passes the cull test and none otherwise. -/
theorem visitBody_summary (rand : Nat → Int) (deltaTime : ℚ) (k : Nat) (sc : Scene)
    (body : RigidBody) (hnh : sc.fault ≠ some Fault.outOfRange)
    (hb : sc.bodies[k]? = some body) (hpool : PoolOK sc.pool) :
    ∃ evs : List Event,
      (visitBody rand deltaTime (k : Int) sc).trace = sc.trace ++ evs ∧
      (visitBody rand deltaTime (k : Int) sc).fault ≠ some Fault.outOfRange ∧
      PoolOK (visitBody rand deltaTime (k : Int) sc).pool ∧
      (visitBody rand deltaTime (k : Int) sc).bodies.length = sc.bodies.length ∧
      (∀ j : Nat, j ≠ k → (visitBody rand deltaTime (k : Int) sc).bodies[j]? = sc.bodies[j]?) ∧
      (visitBody rand deltaTime (k : Int) sc).bodies.map RigidBody.transform
        = sc.bodies.map RigidBody.transform ∧
      evs.countP Event.isSpawn = (if aboveThreshold body then 2 else 0) ∧
      evs.countP Event.isTick = (if aboveThreshold body then 1 else 0) ∧
      ∀ j : Int, evs.countP (Event.isSpawnFor j)
        = (if j = (k : Int) ∧ aboveThreshold body = true then 2 else 0) := by
  have hrb : readBody sc.bodies (k : Int) = some body := by
    simp [readBody, hb]
  have hu := useBody_fault (k : Int) body sc hnh
  by_cases hy : body.transform.origin.y < -7
  · have hv := visitBody_culled_go rand deltaTime (k : Int) sc body hnh hrb hy
    have ha : aboveThreshold body = false := by
      simp [aboveThreshold, hy]
    refine ⟨[Event.readTransform (k : Int)] ++ [Event.destroyBody (k : Int)], ?_, ?_, ?_, ?_, ?_,
      ?_, ?_, ?_, ?_⟩
    · rw [hv]; simp
    · rw [hv]; exact hu
    · rw [hv]; exact hpool
    · rw [hv]; simp
    · intro j hj
      rw [hv]
      simp only [Int.toNat_ofNat]
      exact List.getElem?_set_ne (Ne.symm hj)
    · rw [hv]
      simp only [Int.toNat_ofNat]
      exact list_map_set_destroyed RigidBody.transform (fun _ => rfl) sc.bodies k body hb
    · simp [ha, Event.isSpawn]
    · simp [ha, Event.isTick]
    · intro j
      simp [ha, Event.isSpawnFor]
  · have hy' : -7 ≤ body.transform.origin.y := not_lt.mp hy
    have ha : aboveThreshold body = true := by
      simp [aboveThreshold, hy']
    obtain ⟨slot1, slot2, pool, hv, hok, hlen, -, -⟩ :=
      visitBody_kept_go rand deltaTime (k : Int) sc body hnh hrb hy' hpool
    refine ⟨[Event.readTransform (k : Int)] ++ [Event.spawnParticle (k : Int) slot1]
        ++ [Event.spawnParticle (k : Int) slot2] ++ [Event.tickParticles]
        ++ (drawnParticles (tick deltaTime pool.particles)).map Event.drawParticle
        ++ [Event.drawObject (k : Int) (objectKind k) (objectSize (objectKind k))],
      ?_, ?_, ?_, ?_, ?_, ?_, ?_, ?_, ?_⟩
    · rw [hv]; simp
    · rw [hv]; exact hu
    · rw [hv]; exact PoolOK_tick deltaTime pool hok
    · rw [hv]
    · intro j _
      rw [hv]
    · rw [hv]
    · simp [ha, Event.isSpawn, List.countP_append, List.countP_map, Function.comp_def,
        List.countP_cons]
    · simp [ha, Event.isTick, List.countP_append, List.countP_map, Function.comp_def,
        List.countP_cons]
    · intro j
      by_cases hj : j = (k : Int)
      · subst hj
        simp [ha, Event.isSpawnFor, List.countP_append, List.countP_map, Function.comp_def,
          List.countP_cons]
      · have hj' : ¬ ((k : Int) = j) := fun h => hj h.symm
        simp [ha, hj, hj', Event.isSpawnFor, List.countP_append, List.countP_map,
          Function.comp_def, List.countP_cons]

theorem keptSlice_congr (l1 l2 : List RigidBody)
    (h : l1.map RigidBody.transform = l2.map RigidBody.transform) (k n : Nat) :
    keptSlice l1 k n = keptSlice l2 k n := by
  have key : ∀ l : List RigidBody, keptSlice l k n
      = (((l.map RigidBody.transform).drop k).take n).countP
          (fun t => decide (t.origin.y ≥ -7)) := by
    intro l
    simp only [keptSlice, ← List.map_drop, ← List.map_take, List.countP_map]
    rfl
  rw [key l1, key l2, h]

theorem keptSlice_succ (bodies : List RigidBody) (k n : Nat) (b : RigidBody)
    (hb : bodies[k]? = some b) :
    keptSlice bodies k (n + 1) = (if aboveThreshold b then 1 else 0) + keptSlice bodies (k + 1) n := by
  have hlt : k < bodies.length := by
    by_contra hge
    rw [List.getElem?_eq_none (by omega)] at hb
    exact Option.noConfusion hb
  have hbk : bodies[k] = b := by
    rw [List.getElem?_eq_getElem hlt] at hb
    exact Option.some.inj hb
  simp only [keptSlice]
  rw [List.drop_eq_getElem_cons hlt, List.take_succ_cons, List.countP_cons, hbk]
  omega

/-- The loop over the positions `k, ..., k+n-1` in a pass that has not stopped,
with the pool within its bounds, whether or not the destructor of some of the
bodies has run before: the loop does not stop and records two spawns and one run
of the update loop for each body that passes the cull test, none for the
others. -/
theorem bodyLoop_counts (rand : Nat → Int) (deltaTime : ℚ) :
    ∀ (n k : Nat) (sc : Scene), sc.fault ≠ some Fault.outOfRange → PoolOK sc.pool →
      k + n ≤ sc.bodies.length →
      ∃ evs : List Event,
        (bodyLoop rand deltaTime n (k : Int) sc).trace = sc.trace ++ evs ∧
        (bodyLoop rand deltaTime n (k : Int) sc).fault ≠ some Fault.outOfRange ∧
        PoolOK (bodyLoop rand deltaTime n (k : Int) sc).pool ∧
        (bodyLoop rand deltaTime n (k : Int) sc).bodies.map RigidBody.transform
          = sc.bodies.map RigidBody.transform ∧
        evs.countP Event.isSpawn = 2 * keptSlice sc.bodies k n ∧
        evs.countP Event.isTick = keptSlice sc.bodies k n ∧
        (∀ (m : Nat) (b : RigidBody), k ≤ m → m < k + n → sc.bodies[m]? = some b →
          evs.countP (Event.isSpawnFor (m : Int)) = (if aboveThreshold b then 2 else 0)) ∧
        ∀ j : Int, (j < (k : Int) ∨ ((k + n : Nat) : Int) ≤ j) →
          evs.countP (Event.isSpawnFor j) = 0 := by
  intro n
  induction n with
  | zero =>
    intro k sc hf hpool _
    refine ⟨[], by simp [bodyLoop], hf, hpool, rfl, by simp [keptSlice], by simp [keptSlice],
      ?_, by simp⟩
    intro m b h1 h2
    omega
  | succ n ih =>
    intro k sc hf hpool hlen
    have hlt : k < sc.bodies.length := by omega
    have hb : sc.bodies[k]? = some sc.bodies[k] := List.getElem?_eq_getElem hlt
    obtain ⟨e1, t1, f1, p1, l1, o1, m1, c1, k1, s1⟩ :=
      visitBody_summary rand deltaTime k sc sc.bodies[k] hf hb hpool
    obtain ⟨e2, t2, f2, p2, m2, c2, k2, s2, z2⟩ :=
      ih (k + 1) (visitBody rand deltaTime (k : Int) sc) f1 p1 (by rw [l1]; omega)
    have hc : ((k : Int) + 1) = ((k + 1 : Nat) : Int) := by push_cast; rfl
    have hloop : bodyLoop rand deltaTime (n + 1) (k : Int) sc
        = bodyLoop rand deltaTime n ((k + 1 : Nat) : Int) (visitBody rand deltaTime (k : Int) sc) := by
      simp only [bodyLoop]
      rw [hc]
    have hks := keptSlice_congr _ _ m1 (k + 1) n
    have hstep := keptSlice_succ sc.bodies k n _ hb
    refine ⟨e1 ++ e2, ?_, ?_, ?_, ?_, ?_, ?_, ?_, ?_⟩
    · rw [hloop, t2, t1, List.append_assoc]
    · rw [hloop]; exact f2
    · rw [hloop]; exact p2
    · rw [hloop, m2, m1]
    · rw [List.countP_append, c1, c2, hks, hstep]
      split <;> omega
    · rw [List.countP_append, k1, k2, hks, hstep]
    · intro m b h1 h2 hm
      rw [List.countP_append, s1 (m : Int)]
      by_cases hmk : m = k
      · subst hmk
        have hbm : sc.bodies[m] = b := by
          rw [hb] at hm
          exact Option.some.inj hm
        rw [z2 (m : Int) (Or.inl (by push_cast; omega)), hbm]
        simp
      · have hne : ¬ ((m : Int) = (k : Int)) := by
          intro h
          exact hmk (by exact_mod_cast h)
        have hm' : (visitBody rand deltaTime (k : Int) sc).bodies[m]? = some b := by
          rw [o1 m hmk]; exact hm
        rw [s2 m b (by omega) (by omega) hm']
        simp [hne]
    · intro j hj
      rw [List.countP_append, s1 j, z2 j (by push_cast at hj ⊢; omega)]
      have hne : ¬ (j = (k : Int)) := by
        push_cast at hj
        omega
      simp [hne]

theorem culledScene_pool : PoolOK culledScene.pool := by
  refine ⟨?_, ?_, ?_, ?_, ?_⟩ <;> decide

/-- C11: in every pass that has not been stopped by a read outside a vector, with
the pool within its bounds, whether or not the destructor of some bodies has run
in an earlier pass: each dynamic body with `y ≥ -7` gets exactly two spawns and
each one below `-7` gets none, so the number of spawns of the pass is twice the
number of dynamic bodies that pass the cull test. -/
theorem two_spawns_per_kept_body (rand : Nat → Int) (deltaTime : ℚ) (sc : Scene)
    (hnh : sc.fault ≠ some Fault.outOfRange) (hpool : PoolOK sc.pool) :
    ∃ evs : List Event,
      (framePass rand deltaTime sc).trace = sc.trace ++ evs ∧
      (framePass rand deltaTime sc).fault ≠ some Fault.outOfRange ∧
      (∀ (m : Nat) (b : RigidBody), 3 ≤ m → sc.bodies[m]? = some b →
        evs.countP (Event.isSpawnFor (m : Int))
          = (if b.transform.origin.y ≥ -7 then 2 else 0)) ∧
      evs.countP Event.isSpawn = 2 * keptCount sc.bodies := by
  have hp : planeNum = ((3 : Nat) : Int) := rfl
  have hpn : planeNum.toNat = 3 := rfl
  by_cases hlen : 3 ≤ sc.bodies.length
  · have hn : ((sc.bodies.length : Int) - planeNum).toNat = sc.bodies.length - 3 := by
      rw [hp]; omega
    obtain ⟨evs, t, f, -, -, c, -, s, -⟩ :=
      bodyLoop_counts rand deltaTime (sc.bodies.length - 3) 3 sc hnh hpool (by omega)
    refine ⟨evs, ?_, ?_, ?_, ?_⟩
    · simp only [framePass, hn]
      rw [hp]; exact t
    · simp only [framePass, hn]
      rw [hp]; exact f
    · intro m b h1 hm
      have hlt : m < sc.bodies.length := by
        by_contra hge
        rw [List.getElem?_eq_none (by omega)] at hm
        exact Option.noConfusion hm
      rw [s m b h1 (by omega) hm]
      simp [aboveThreshold]
    · rw [c, keptCount, hpn]
  · have hn : ((sc.bodies.length : Int) - planeNum).toNat = 0 := by
      rw [hp]; omega
    refine ⟨[], ?_, ?_, ?_, ?_⟩
    · simp [framePass, hn, bodyLoop]
    · simp only [framePass, hn, bodyLoop]
      exact hnh
    · intro m b h1 hm
      rw [List.getElem?_eq_none (by omega)] at hm
      exact Option.noConfusion hm
    · have h0 : sc.bodies.length - 3 = 0 := by omega
      simp [keptCount, hpn, h0, keptSlice]

/-- C11, on a pass after a cull: three planes, a body at `y = -7.1` whose
destructor has run in an earlier pass, and bodies at `y = 0` and `y = 2`. The
destroyed body gets no spawn, the two others two each, four in all. -/
theorem two_spawns_per_kept_body_witness :
    ∃ evs : List Event,
      (framePass zeroRand (1 / 60) culledScene).trace = culledScene.trace ++ evs ∧
      evs.countP (Event.isSpawnFor 3) = 0 ∧ evs.countP (Event.isSpawnFor 4) = 2 ∧
      evs.countP (Event.isSpawnFor 5) = 2 ∧ evs.countP Event.isSpawn = 4 := by
  obtain ⟨evs, ht, -, hs, hc⟩ :=
    two_spawns_per_kept_body zeroRand (1 / 60) culledScene
      (fun h => Option.noConfusion h) culledScene_pool
  have h3 := hs 3 { restingBody (-71 / 10) with destroyed := true } (le_refl 3) rfl
  have h4 := hs 4 (restingBody 0) (by decide) rfl
  have h5 := hs 5 (restingBody 2) (by decide) rfl
  have hk : keptCount culledScene.bodies = 2 := by
    simp [keptCount, keptSlice, culledScene, planeNum, aboveThreshold, restingBody,
      List.countP_cons]
    norm_num
  refine ⟨evs, ht, ?_, ?_, ?_, ?_⟩
  · rw [show ((3 : Int)) = ((3 : Nat) : Int) from rfl, h3]
    norm_num [restingBody]
  · rw [show ((4 : Int)) = ((4 : Nat) : Int) from rfl, h4]
    norm_num [restingBody]
  · rw [show ((5 : Int)) = ((5 : Nat) : Int) from rfl, h5]
    norm_num [restingBody]
  · rw [hc, hk]

/-! ## The physics step -/

/-- C12: the timestep handed to the solver is `deltaTime` when `deltaTime < 1/60` and
`1/60` otherwise, so it never exceeds `1/60`, and the sub-step count is 10. -/
theorem step_is_clamped (deltaTime : ℚ) :
    (deltaTime < 1 / 60 → (stepSimulationArgs deltaTime).1 = deltaTime) ∧
    (¬ deltaTime < 1 / 60 → (stepSimulationArgs deltaTime).1 = 1 / 60) ∧
    (stepSimulationArgs deltaTime).1 ≤ 1 / 60 ∧
    (stepSimulationArgs deltaTime).2 = 10 := by
  refine ⟨?_, ?_, ?_, rfl⟩
  · intro h
    simp only [stepSimulationArgs, maxSecPerFrame, h, if_true]
  · intro h
    simp only [stepSimulationArgs, maxSecPerFrame, h, if_false]
  · by_cases h : deltaTime < 1 / 60
    · simp only [stepSimulationArgs, maxSecPerFrame, h, if_true]
      exact le_of_lt h
    · simp only [stepSimulationArgs, maxSecPerFrame, h, if_false]
      exact le_refl _

/-- C12, at a short frame (1/120 s) and at a frame spike (1/2 s). -/
theorem step_is_clamped_witness :
    stepSimulationArgs (1 / 120) = (1 / 120, 10) ∧ stepSimulationArgs (1 / 2) = (1 / 60, 10) := by
  have h1 := step_is_clamped (1 / 120)
  have h2 := step_is_clamped (1 / 2)
  refine ⟨Prod.ext (h1.1 (by norm_num)) h1.2.2.2, Prod.ext (h2.2.1 (by norm_num)) h2.2.2.2⟩

/-! ## The keyboard callback -/

theorem recordKey_subroutine (key action : Int) (g : Globals) :
    (recordKey key action g).current_subroutine = g.current_subroutine ∧
    (recordKey key action g).shaders = g.shaders ∧
    (recordKey key action g).bodies = g.bodies := by
  unfold recordKey
  split
  · split <;> exact ⟨rfl, rfl, rfl⟩
  · split
    · split <;> exact ⟨rfl, rfl, rfl⟩
    · exact ⟨rfl, rfl, rfl⟩

theorem shootBall_subroutine (glm_inverse : Mat4 → Mat4) (glm_sqrt : ℚ → ℚ) (key action : Int)
    (g : Globals) :
    (shootBall glm_inverse glm_sqrt key action g).current_subroutine = g.current_subroutine ∧
    (shootBall glm_inverse glm_sqrt key action g).shaders = g.shaders ∧
    (shootBall glm_inverse glm_sqrt key action g).fault = g.fault ∧
    (shootBall glm_inverse glm_sqrt key action g).keys = g.keys := by
  unfold shootBall
  split <;> exact ⟨rfl, rfl, rfl, rfl⟩

theorem selectSubroutine_rest (key action : Int) (g : Globals) :
    (selectSubroutine key action g).shaders = g.shaders ∧
    (selectSubroutine key action g).fault = g.fault ∧
    (selectSubroutine key action g).keys = g.keys ∧
    (selectSubroutine key action g).bodies = g.bodies := by
  unfold selectSubroutine
  split
  · split <;> exact ⟨rfl, rfl, rfl, rfl⟩
  · exact ⟨rfl, rfl, rfl, rfl⟩

theorem toggleFlags_rest (key action : Int) (g : Globals) :
    (toggleFlags key action g).current_subroutine = g.current_subroutine ∧
    (toggleFlags key action g).shaders = g.shaders ∧
    (toggleFlags key action g).fault = g.fault ∧
    (toggleFlags key action g).keys = g.keys ∧
    (toggleFlags key action g).bodies = g.bodies := by
  unfold toggleFlags
  split <;> split <;> split <;> exact ⟨rfl, rfl, rfl, rfl, rfl⟩

/-- The callback leaves `shaders` alone and sets `current_subroutine` to what the
digit branch computes from the incoming value. -/
theorem key_callback_subroutine (glm_inverse : Mat4 → Mat4) (glm_sqrt : ℚ → ℚ)
    (key action : Int) (g : Globals) :
    (key_callback glm_inverse glm_sqrt key action g).shaders = g.shaders ∧
    (key_callback glm_inverse glm_sqrt key action g).current_subroutine
      = (selectSubroutine key action g).current_subroutine := by
  obtain ⟨f1, f2, -, -, -⟩ := toggleFlags_rest key action g
  obtain ⟨r1, r2, -⟩ := recordKey_subroutine key action
    (shootBall glm_inverse glm_sqrt key action
      (selectSubroutine key action (toggleFlags key action g)))
  obtain ⟨s1, s2, -, -⟩ := shootBall_subroutine glm_inverse glm_sqrt key action
    (selectSubroutine key action (toggleFlags key action g))
  unfold key_callback
  refine ⟨by rw [r2, s2, (selectSubroutine_rest key action _).1, f2], ?_⟩
  rw [r1, s1]
  unfold selectSubroutine
  rw [f2]
  split
  · split
    · rfl
    · exact f1
  · exact f1

/-- The fault after the callback is the one the update of the key table leaves. -/
theorem key_callback_fault (glm_inverse : Mat4 → Mat4) (glm_sqrt : ℚ → ℚ)
    (key action : Int) (g : Globals) :
    (key_callback glm_inverse glm_sqrt key action g).fault = (recordKey key action g).fault := by
  obtain ⟨-, -, f3, f4, -⟩ := toggleFlags_rest key action g
  obtain ⟨-, -, s3, s4⟩ := shootBall_subroutine glm_inverse glm_sqrt key action
    (selectSubroutine key action (toggleFlags key action g))
  obtain ⟨-, e2, e3, -⟩ := selectSubroutine_rest key action (toggleFlags key action g)
  have hk : (shootBall glm_inverse glm_sqrt key action
      (selectSubroutine key action (toggleFlags key action g))).keys = g.keys := by
    rw [s4, e3, f4]
  have hf : (shootBall glm_inverse glm_sqrt key action
      (selectSubroutine key action (toggleFlags key action g))).fault = g.fault := by
    rw [s3, e2, f3]
  unfold key_callback recordKey
  rw [hk]
  split
  · split
    · exact hf
    · rfl
  · split
    · split
      · exact hf
      · rfl
    · exact hf

/-- C13: for a press of a digit key `'1'..'9'`, `current_subroutine` becomes
`key - '1'` when that is below the number of registered subroutines and is left
unchanged otherwise, and no fault is recorded (the key table has 1024 entries);
hence, for every key event, an index that is valid before the callback is valid
after it. -/
theorem digit_selects_valid_subroutine (glm_inverse : Mat4 → Mat4) (glm_sqrt : ℚ → ℚ)
    (key : Int) (g : Globals) (h1 : 49 ≤ key) (h9 : key ≤ 57) :
    ((key - 49).toNat < g.shaders.length →
      (key_callback glm_inverse glm_sqrt key GLFW_PRESS g).current_subroutine
        = (key - 49).toNat) ∧
    (¬ (key - 49).toNat < g.shaders.length →
      (key_callback glm_inverse glm_sqrt key GLFW_PRESS g).current_subroutine
        = g.current_subroutine) ∧
    (g.keys.length = 1024 →
      (key_callback glm_inverse glm_sqrt key GLFW_PRESS g).fault = g.fault) ∧
    ∀ (key' action' : Int), g.current_subroutine < g.shaders.length →
      (key_callback glm_inverse glm_sqrt key' action' g).current_subroutine
        < (key_callback glm_inverse glm_sqrt key' action' g).shaders.length := by
  have hn : newSubroutine key = (key - 49).toNat := by
    unfold newSubroutine
    omega
  have hcond : (key ≥ GLFW_KEY_1 ∧ key ≤ GLFW_KEY_9) ∧ GLFW_PRESS = GLFW_PRESS :=
    ⟨⟨h1, h9⟩, rfl⟩
  obtain ⟨hs, hc⟩ := key_callback_subroutine glm_inverse glm_sqrt key GLFW_PRESS g
  refine ⟨?_, ?_, ?_, ?_⟩
  · intro hlt
    rw [hc]
    simp only [selectSubroutine, hcond, if_true, hn, hlt, and_self]
  · intro hlt
    rw [hc]
    simp only [selectSubroutine, hcond, if_true, hn, hlt, and_self, if_false]
  · intro hk
    rw [key_callback_fault]
    have hin : 0 ≤ key ∧ key < (g.keys.length : Int) := by
      rw [hk]
      omega
    simp only [recordKey, if_true, hin, and_self]
  · intro key' action' hvalid
    obtain ⟨hs', hc'⟩ := key_callback_subroutine glm_inverse glm_sqrt key' action' g
    rw [hs', hc']
    unfold selectSubroutine
    split
    · split
      · assumption
      · exact hvalid
    · exact hvalid

/-- C13, with three subroutines registered: key `'2'` selects index 1, key `'9'`
leaves the selection at 0, and neither records a fault. -/
theorem digit_selects_valid_subroutine_witness :
    (key_callback id id 50 GLFW_PRESS sampleGlobals).current_subroutine = 1 ∧
    (key_callback id id 57 GLFW_PRESS sampleGlobals).current_subroutine = 0 ∧
    (key_callback id id 50 GLFW_PRESS sampleGlobals).fault = none ∧
    (key_callback id id 57 GLFW_PRESS sampleGlobals).fault = none := by
  have h2 := digit_selects_valid_subroutine id id 50 sampleGlobals (by decide) (by decide)
  have h9 := digit_selects_valid_subroutine id id 57 sampleGlobals (by decide) (by decide)
  have hlen : sampleGlobals.keys.length = 1024 := List.length_replicate 1024 false
  exact ⟨h2.1 (by decide), h9.2.1 (by decide), h2.2.2.1 hlen, h9.2.2.1 hlen⟩

/-! ## The pin layout -/

theorem lanePins_eq (h : Nat) :
    lanePins h =
      [⟨(h : ℚ) * 5 - 3 / 4, 0, -3⟩, ⟨(h : ℚ) * 5 - 1 / 4, 0, -3⟩, ⟨(h : ℚ) * 5 + 1 / 4, 0, -3⟩,
        ⟨(h : ℚ) * 5 + 3 / 4, 0, -3⟩,
        ⟨(h : ℚ) * 5 - 1 / 2, 0, -(5 / 2)⟩, ⟨(h : ℚ) * 5, 0, -(5 / 2)⟩,
        ⟨(h : ℚ) * 5 + 1 / 2, 0, -(5 / 2)⟩,
        ⟨(h : ℚ) * 5 - 1 / 4, 0, -2⟩, ⟨(h : ℚ) * 5 + 1 / 4, 0, -2⟩,
        ⟨(h : ℚ) * 5, 0, -(3 / 2)⟩] := by
  simp only [lanePins, rowPins, num_rows, pin_pos, Int.toNat_ofNat, List.range_succ,
    List.range_zero, List.map, List.flatten, List.nil_append, List.cons_append, List.map_append,
    List.append_nil, Nat.sub_zero, Nat.reduceSub, Nat.cast_zero, Nat.cast_one, Nat.cast_ofNat]
  norm_num
  refine ⟨by ring, by ring, by ring, by ring⟩

theorem pinPositions_eq : pinPositions = lanePins 0 ++ lanePins 1 ++ lanePins 2 := by
  simp [pinPositions, List.range_succ, List.flatten]

theorem objectKind_pin_iff (i : Int) : objectKind i = ObjectKind.pin ↔ i ≤ 32 := by
  have hb : planeNum * (total_pins + (planeNum - 1 * planeNum)) + planeNum - 1 = 32 := by decide
  unfold objectKind
  rw [hb]
  constructor
  · intro h
    by_contra hc
    rw [if_neg hc] at h
    exact ObjectKind.noConfusion h
  · intro h
    rw [if_pos h]

theorem objectKind_ball_iff (i : Int) : objectKind i = ObjectKind.ball ↔ 33 ≤ i := by
  have hp := objectKind_pin_iff i
  constructor
  · intro h
    by_contra hc
    have : objectKind i = ObjectKind.pin := hp.2 (by omega)
    rw [h] at this
    exact ObjectKind.noConfusion this
  · intro h
    cases hk : objectKind i with
    | pin =>
      have := hp.1 hk
      omega
    | ball => rfl

theorem createRigidBody_creation (type : Shape) (position size : Vec3)
    (bodies : List RigidBody) :
    (createRigidBody type position size bodies).map RigidBody.creation
      = bodies.map RigidBody.creation ++ [(type, size)] := by
  simp [createRigidBody, RigidBody.creation]

theorem foldl_createRigidBody_creation (type : Shape) (size : Vec3) (ps : List Vec3) :
    ∀ bodies : List RigidBody,
      (ps.foldl (fun bodies p => createRigidBody type p size bodies) bodies).map
          RigidBody.creation
        = bodies.map RigidBody.creation ++ List.replicate ps.length (type, size) := by
  induction ps with
  | nil => intro bodies; simp
  | cons p ps ih =>
    intro bodies
    simp only [List.foldl_cons, List.length_cons]
    rw [ih, createRigidBody_creation, List.append_assoc]
    rfl

theorem pinPositions_length : pinPositions.length = 30 := by
  rw [pinPositions_eq, lanePins_eq, lanePins_eq, lanePins_eq]
  rfl

/-- Scene setup, read off `setupBodies`: three bodies created as planes, then
thirty created as pins. -/
theorem setupBodies_creation :
    setupBodies.map RigidBody.creation
      = List.replicate 3 (Shape.BOX, plane_size) ++ List.replicate 30 (Shape.BOX, pin_size) := by
  simp only [setupBodies]
  rw [foldl_createRigidBody_creation, pinPositions_length]
  simp [createRigidBody, RigidBody.creation, List.replicate]

theorem applyCentralImpulseToLast_creation (mass : ℚ) (impulse : Vec3)
    (bodies : List RigidBody) :
    (applyCentralImpulseToLast mass impulse bodies).map RigidBody.creation
      = bodies.map RigidBody.creation := by
  unfold applyCentralImpulseToLast
  cases h : bodies.getLast? with
  | none => rfl
  | some b =>
    have hb := List.dropLast_append_getLast? b (by rw [h]; rfl)
    simp only
    conv_rhs => rw [← hb]
    simp [RigidBody.creation]

/-- A shot, read off `shootBall`: a press of the space bar adds one body created as
a ball at the end of the array, every other key event leaves the array alone. -/
theorem shootBall_creation (glm_inverse : Mat4 → Mat4) (glm_sqrt : ℚ → ℚ) (key action : Int)
    (g : Globals) :
    (shootBall glm_inverse glm_sqrt key action g).bodies.map RigidBody.creation
      = g.bodies.map RigidBody.creation
        ++ (if key = GLFW_KEY_SPACE ∧ action = GLFW_PRESS then [(Shape.SPHERE, ball_size)]
            else []) := by
  unfold shootBall
  by_cases h : key = GLFW_KEY_SPACE ∧ action = GLFW_PRESS
  · rw [if_pos h, if_pos h]
    simp only
    rw [applyCentralImpulseToLast_creation, createRigidBody_creation]
  · rw [if_neg h, if_neg h]
    simp

theorem key_callback_creation (glm_inverse : Mat4 → Mat4) (glm_sqrt : ℚ → ℚ)
    (key action : Int) (g : Globals) :
    (key_callback glm_inverse glm_sqrt key action g).bodies.map RigidBody.creation
      = g.bodies.map RigidBody.creation
        ++ (if key = GLFW_KEY_SPACE ∧ action = GLFW_PRESS then [(Shape.SPHERE, ball_size)]
            else []) := by
  unfold key_callback
  rw [(recordKey_subroutine key action _).2.2, shootBall_creation,
    (selectSubroutine_rest key action _).2.2.2, (toggleFlags_rest key action g).2.2.2.2]

/-- The key callbacks of one poll add bodies created as balls at the end of the
array and change nothing else of what the bodies were created with. -/
theorem Polled_creation (glm_inverse : Mat4 → Mat4) (glm_sqrt : ℚ → ℚ)
    (p : List RigidBody → List RigidBody) (hp : Polled glm_inverse glm_sqrt p) :
    ∀ bodies : List RigidBody, ∃ n : Nat,
      (p bodies).map RigidBody.creation
        = bodies.map RigidBody.creation ++ List.replicate n (Shape.SPHERE, ball_size) := by
  induction hp with
  | idle => intro bodies; exact ⟨0, by simp⟩
  | key p g key action _ ih =>
    intro bodies
    obtain ⟨n, hn⟩ := ih bodies
    by_cases h : key = GLFW_KEY_SPACE ∧ action = GLFW_PRESS
    · refine ⟨n + 1, ?_⟩
      simp only
      rw [key_callback_creation, if_pos h]
      simp only
      rw [hn, List.append_assoc, List.replicate_succ']
    · refine ⟨n, ?_⟩
      simp only
      rw [key_callback_creation, if_neg h]
      simp only
      rw [hn, List.append_nil]

theorem spawnStep_Q (Q : Event → Prop) (rand : Nat → Int) (i : Int) (body : RigidBody)
    (obj_size : Vec3) (hq : ∀ slot, Q (Event.spawnParticle i slot)) (sc : Scene) :
    ∃ evs : List Event,
      (spawnStep rand i body obj_size sc).trace = sc.trace ++ evs ∧ (∀ e ∈ evs, Q e) ∧
      (spawnStep rand i body obj_size sc).bodies = sc.bodies := by
  unfold spawnStep
  by_cases hst : sc.fault = some Fault.outOfRange
  · rw [if_pos hst]
    exact ⟨[], by simp, by simp, rfl⟩
  · rw [if_neg hst]
    cases hs : spawn (rand sc.randCalls) body.linearVelocity body.transform obj_size sc.pool with
    | none => exact ⟨[], by simp, by simp, rfl⟩
    | some r =>
      obtain ⟨slot, pool⟩ := r
      refine ⟨[Event.spawnParticle i slot], rfl, ?_, rfl⟩
      intro e he
      rw [List.mem_singleton] at he
      subst he
      exact hq slot

theorem tickAndDraw_Q (Q : Event → Prop) (deltaTime : ℚ) (hq1 : Q Event.tickParticles)
    (hq2 : ∀ p, Q (Event.drawParticle p)) (sc : Scene) :
    ∃ evs : List Event,
      (tickAndDraw deltaTime sc).trace = sc.trace ++ evs ∧ (∀ e ∈ evs, Q e) ∧
      (tickAndDraw deltaTime sc).bodies = sc.bodies := by
  unfold tickAndDraw
  by_cases hst : sc.fault = some Fault.outOfRange
  · rw [if_pos hst]
    exact ⟨[], by simp, by simp, rfl⟩
  · rw [if_neg hst]
    refine ⟨[Event.tickParticles]
      ++ (drawnParticles (tick deltaTime sc.pool.particles)).map Event.drawParticle,
      by simp, ?_, rfl⟩
    intro e he
    simp only [List.mem_append, List.mem_singleton, List.mem_map] at he
    rcases he with rfl | ⟨p, -, rfl⟩
    · exact hq1
    · exact hq2 p

theorem drawObject_Q (Q : Event → Prop) (i : Int)
    (hq : Q (Event.drawObject i (objectKind i) (objectSize (objectKind i)))) (sc : Scene) :
    ∃ evs : List Event,
      (drawObject i sc).trace = sc.trace ++ evs ∧ (∀ e ∈ evs, Q e) ∧
      (drawObject i sc).bodies = sc.bodies := by
  unfold drawObject
  by_cases hst : sc.fault = some Fault.outOfRange
  · rw [if_pos hst]
    exact ⟨[], by simp, by simp, rfl⟩
  · rw [if_neg hst]
    refine ⟨[Event.drawObject i (objectKind i) (objectSize (objectKind i))], rfl, ?_, rfl⟩
    intro e he
    rw [List.mem_singleton] at he
    subst he
    exact hq

/-- Every action a visit records is an action of the visit of its index, which is
then an index of the array; and the visit keeps, entry by entry, everything of
the bodies that the destructor call does not change. -/
theorem visitBody_events {α : Type} (g : RigidBody → α)
    (hg : ∀ b : RigidBody, g { b with destroyed := true } = g b) (rand : Nat → Int)
    (deltaTime : ℚ) (i : Int) (sc : Scene) :
    ∃ evs : List Event,
      (visitBody rand deltaTime i sc).trace = sc.trace ++ evs ∧
      (∀ e ∈ evs, (0 ≤ i ∧ i < sc.bodies.length) ∧ VisitEvent i e) ∧
      (visitBody rand deltaTime i sc).bodies.map g = sc.bodies.map g := by
  by_cases hst : sc.fault = some Fault.outOfRange
  · have hv : visitBody rand deltaTime i sc = sc := by
      simp only [visitBody, if_pos hst]
    rw [hv]
    exact ⟨[], by simp, by simp, rfl⟩
  · cases hb : readBody sc.bodies i with
    | none =>
      have hv : visitBody rand deltaTime i sc = { sc with fault := some Fault.outOfRange } := by
        simp only [visitBody, if_neg hst, hb]
      rw [hv]
      exact ⟨[], by simp, by simp, rfl⟩
    | some body =>
      have hi0 : 0 ≤ i := by
        by_contra hneg
        simp [readBody, hneg] at hb
      have hget : sc.bodies[i.toNat]? = some body := by
        simpa [readBody, hi0] using hb
      have hlt : i < sc.bodies.length := by
        by_contra hge
        rw [List.getElem?_eq_none (by omega)] at hget
        exact Option.noConfusion hget
      obtain ⟨r1, r2, r3, -⟩ := useBody_rest i body sc
      by_cases hy : body.transform.origin.y ≥ -7
      · have hv : visitBody rand deltaTime i sc
            = drawObject i (tickAndDraw deltaTime
                (spawnStep rand i body (objectSize (objectKind i))
                  (spawnStep rand i body (objectSize (objectKind i))
                    ⟨sc.bodies, sc.pool, sc.randCalls, sc.trace ++ [Event.readTransform i],
                      (useBody i body sc).fault⟩))) := by
          simp only [visitBody, if_neg hst, hb, hy, if_true, r1, r2, r3]
        rw [hv]
        obtain ⟨e1, t1, m1, b1⟩ := spawnStep_Q (VisitEvent i) rand i body
          (objectSize (objectKind i)) (fun slot => Or.inr (Or.inl ⟨slot, rfl⟩))
          ⟨sc.bodies, sc.pool, sc.randCalls, sc.trace ++ [Event.readTransform i],
            (useBody i body sc).fault⟩
        obtain ⟨e2, t2, m2, b2⟩ := spawnStep_Q (VisitEvent i) rand i body
          (objectSize (objectKind i)) (fun slot => Or.inr (Or.inl ⟨slot, rfl⟩))
          (spawnStep rand i body (objectSize (objectKind i))
            ⟨sc.bodies, sc.pool, sc.randCalls, sc.trace ++ [Event.readTransform i],
              (useBody i body sc).fault⟩)
        obtain ⟨e3, t3, m3, b3⟩ := tickAndDraw_Q (VisitEvent i) deltaTime
          (Or.inr (Or.inr (Or.inl rfl))) (fun p => Or.inr (Or.inr (Or.inr (Or.inl ⟨p, rfl⟩))))
          (spawnStep rand i body (objectSize (objectKind i))
            (spawnStep rand i body (objectSize (objectKind i))
              ⟨sc.bodies, sc.pool, sc.randCalls, sc.trace ++ [Event.readTransform i],
                (useBody i body sc).fault⟩))
        obtain ⟨e4, t4, m4, b4⟩ := drawObject_Q (VisitEvent i) i
          (Or.inr (Or.inr (Or.inr (Or.inr (Or.inl rfl)))))
          (tickAndDraw deltaTime
            (spawnStep rand i body (objectSize (objectKind i))
              (spawnStep rand i body (objectSize (objectKind i))
                ⟨sc.bodies, sc.pool, sc.randCalls, sc.trace ++ [Event.readTransform i],
                  (useBody i body sc).fault⟩)))
        refine ⟨[Event.readTransform i] ++ e1 ++ e2 ++ e3 ++ e4, ?_, ?_, ?_⟩
        · rw [t4, t3, t2, t1]
          simp
        · intro e he
          refine ⟨⟨hi0, hlt⟩, ?_⟩
          simp only [List.mem_append, List.mem_singleton] at he
          rcases he with (((rfl | he) | he) | he) | he
          · exact Or.inl rfl
          · exact m1 e he
          · exact m2 e he
          · exact m3 e he
          · exact m4 e he
        · rw [b4, b3, b2, b1]
      · have hv : visitBody rand deltaTime i sc
            = ⟨sc.bodies.set i.toNat { body with destroyed := true }, sc.pool, sc.randCalls,
                sc.trace ++ [Event.readTransform i] ++ [Event.destroyBody i],
                (useBody i body sc).fault⟩ := by
          simp only [visitBody, if_neg hst, hb, hy, if_false, r1, r2, r3]
        rw [hv]
        refine ⟨[Event.readTransform i] ++ [Event.destroyBody i], by simp, ?_, ?_⟩
        · intro e he
          refine ⟨⟨hi0, hlt⟩, ?_⟩
          simp only [List.mem_append, List.mem_singleton] at he
          rcases he with rfl | rfl
          · exact Or.inl rfl
          · exact Or.inr (Or.inr (Or.inr (Or.inr (Or.inr rfl))))
        · exact list_map_set_destroyed g hg sc.bodies i.toNat body hget

/-- The loop over the positions `i, ..., i+n-1`: every action it records is an
action of the visit of one of these positions, which is then an index of the
array, and the loop keeps, entry by entry and in order, everything of the bodies
that the destructor call does not change. -/
theorem bodyLoop_events {α : Type} (g : RigidBody → α)
    (hg : ∀ b : RigidBody, g { b with destroyed := true } = g b) (rand : Nat → Int)
    (deltaTime : ℚ) :
    ∀ (n : Nat) (i : Int) (sc : Scene),
      ∃ evs : List Event,
        (bodyLoop rand deltaTime n i sc).trace = sc.trace ++ evs ∧
        (∀ e ∈ evs, ∃ j : Int, i ≤ j ∧ j < i + n ∧ (0 ≤ j ∧ j < sc.bodies.length) ∧
          VisitEvent j e) ∧
        (bodyLoop rand deltaTime n i sc).bodies.map g = sc.bodies.map g := by
  intro n
  induction n with
  | zero => intro i sc; exact ⟨[], by simp [bodyLoop], by simp, rfl⟩
  | succ n ih =>
    intro i sc
    obtain ⟨e1, t1, m1, b1⟩ := visitBody_events g hg rand deltaTime i sc
    obtain ⟨-, -, -, l1, -⟩ := visitBody_frame rand deltaTime i sc
    obtain ⟨e2, t2, m2, b2⟩ := ih (i + 1) (visitBody rand deltaTime i sc)
    refine ⟨e1 ++ e2, ?_, ?_, ?_⟩
    · simp only [bodyLoop]
      rw [t2, t1, List.append_assoc]
    · intro e he
      rw [List.mem_append] at he
      rcases he with he | he
      · obtain ⟨hr, hv⟩ := m1 e he
        exact ⟨i, le_refl i, by push_cast; omega, hr, hv⟩
      · obtain ⟨j, h1, h2, hr, hv⟩ := m2 e he
        rw [l1] at hr
        exact ⟨j, by omega, by push_cast at h2 ⊢; omega, hr, hv⟩
    · simp only [bodyLoop]
      rw [b2, b1]

/-- The scene an iteration leads to from a state that has not stopped: the actions
of the loop over the bodies are added to the record, and the array is the one
the loop leaves, after the second poll unless the loop stopped. -/
theorem frame_scene (rand : Nat → Int) (inp : FrameInput) (f : FrameState)
    (hnh : f.scene.fault ≠ some Fault.outOfRange) :
    (frame rand inp f).scene.trace
      = f.scene.trace ++ (framePass rand inp.deltaTime (sceneAfterStep inp f)).trace ∧
    (frame rand inp f).scene.bodies
      = (if (framePass rand inp.deltaTime (sceneAfterStep inp f)).fault
            = some Fault.outOfRange
          then (framePass rand inp.deltaTime (sceneAfterStep inp f)).bodies
          else inp.polledLast (framePass rand inp.deltaTime (sceneAfterStep inp f)).bodies) := by
  obtain ⟨⟨bodies, pool, rc, trace, fault⟩, started, amount, log⟩ := f
  simp only at hnh
  cases started with
  | false =>
    by_cases hp : (framePass rand inp.deltaTime
        (sceneAfterStep inp ⟨⟨bodies, pool, rc, trace, fault⟩, false, amount, log⟩)).fault
          = some Fault.outOfRange
    · rw [if_pos hp]
      simp only [sceneAfterStep] at hp
      simp [frame, hnh, centreCursor, sceneAfterStep, hp]
    · rw [if_neg hp]
      simp only [sceneAfterStep] at hp
      simp [frame, hnh, centreCursor, sceneAfterStep, finishFrame, hp]
  | true =>
    by_cases hp : (framePass rand inp.deltaTime
        (sceneAfterStep inp ⟨⟨bodies, pool, rc, trace, fault⟩, true, amount, log⟩)).fault
          = some Fault.outOfRange
    · rw [if_pos hp]
      simp only [sceneAfterStep] at hp
      simp [frame, hnh, centreCursor, sceneAfterStep, hp]
    · rw [if_neg hp]
      simp only [sceneAfterStep] at hp
      simp [frame, hnh, centreCursor, sceneAfterStep, finishFrame, hp]

theorem creation_append_length (l1 l2 : List RigidBody) (n : Nat)
    (h : l1.map RigidBody.creation
      = l2.map RigidBody.creation ++ List.replicate n (Shape.SPHERE, ball_size)) :
    l1.length = l2.length + n := by
  have := congrArg List.length h
  simpa using this

/-- In every reachable state the array is, by what the bodies were created with,
the array of scene setup followed by balls, and every object the loop over the
bodies has drawn was drawn at an index of the array from 3 on, with the kind and
size the pin test gives that index. -/
theorem reachable_inv (rand : Nat → Int) (glm_inverse : Mat4 → Mat4) (glm_sqrt : ℚ → ℚ)
    (f : FrameState) (hr : Reachable rand glm_inverse glm_sqrt f) :
    (∃ shots : Nat, f.scene.bodies.map RigidBody.creation
      = setupBodies.map RigidBody.creation
        ++ List.replicate shots (Shape.SPHERE, ball_size)) ∧
    (∀ (i : Int) (kind : ObjectKind) (size : Vec3),
      Event.drawObject i kind size ∈ f.scene.trace →
        3 ≤ i ∧ i < f.scene.bodies.length ∧ kind = objectKind i
          ∧ size = objectSize (objectKind i)) := by
  induction hr with
  | setup pool amount =>
    refine ⟨⟨0, by simp⟩, ?_⟩
    intro i kind size h
    exact absurd h (List.not_mem_nil _)
  | frame inp f _ hp1 hs hp2 ih =>
    obtain ⟨⟨shots, hb⟩, ht⟩ := ih
    by_cases hst : f.scene.fault = some Fault.outOfRange
    · have hfr : frame rand inp f = f := by
        simp [frame, hst]
      rw [hfr]
      exact ⟨⟨shots, hb⟩, ht⟩
    · obtain ⟨htr, hbo⟩ := frame_scene rand inp f hst
      obtain ⟨n1, h1⟩ := Polled_creation glm_inverse glm_sqrt inp.polledFirst hp1 f.scene.bodies
      have hS : (sceneAfterStep inp f).bodies.map RigidBody.creation
          = setupBodies.map RigidBody.creation
            ++ List.replicate (shots + n1) (Shape.SPHERE, ball_size) := by
        simp only [sceneAfterStep]
        rw [hs, h1, hb, List.append_assoc, List.append_replicate_replicate]
      have hp : planeNum = 3 := rfl
      obtain ⟨evs, t, m, b⟩ := bodyLoop_events RigidBody.creation (fun _ => rfl) rand
        inp.deltaTime (((sceneAfterStep inp f).bodies.length : Int) - planeNum).toNat planeNum
        (sceneAfterStep inp f)
      have hPt : (framePass rand inp.deltaTime (sceneAfterStep inp f)).trace = evs := by
        simp only [framePass]
        rw [t]
        rfl
      have hPb : (framePass rand inp.deltaTime (sceneAfterStep inp f)).bodies.map
          RigidBody.creation
          = setupBodies.map RigidBody.creation
            ++ List.replicate (shots + n1) (Shape.SPHERE, ball_size) := by
        simp only [framePass]
        rw [b, hS]
      have hlenf := creation_append_length _ _ _ hb
      have hlenS := creation_append_length _ _ _ hS
      have hlenP := creation_append_length _ _ _ hPb
      obtain ⟨n2, h2⟩ := Polled_creation glm_inverse glm_sqrt inp.polledLast hp2
        (framePass rand inp.deltaTime (sceneAfterStep inp f)).bodies
      have hfin : ∃ k : Nat, (frame rand inp f).scene.bodies.map RigidBody.creation
          = setupBodies.map RigidBody.creation
            ++ List.replicate (shots + n1 + k) (Shape.SPHERE, ball_size) := by
        rw [hbo]
        split
        · exact ⟨0, hPb⟩
        · refine ⟨n2, ?_⟩
          rw [h2, hPb, List.append_assoc, List.append_replicate_replicate]
      obtain ⟨k, hk⟩ := hfin
      have hlenF := creation_append_length _ _ _ hk
      refine ⟨⟨shots + n1 + k, hk⟩, ?_⟩
      intro i kind size hmem
      rw [htr, hPt, List.mem_append] at hmem
      rcases hmem with hmem | hmem
      · obtain ⟨a1, a2, a3, a4⟩ := ht i kind size hmem
        exact ⟨a1, by omega, a3, a4⟩
      · obtain ⟨j, j1, j2, ⟨j3, j4⟩, hv⟩ := m _ hmem
        have hij : i = j ∧ kind = objectKind j ∧ size = objectSize (objectKind j) := by
          rcases hv with h | ⟨_, h⟩ | h | ⟨_, h⟩ | h | h
          · exact Event.noConfusion h
          · exact Event.noConfusion h
          · exact Event.noConfusion h
          · exact Event.noConfusion h
          · injection h with e1 e2 e3
            exact ⟨e1, e2, e3⟩
          · exact Event.noConfusion h
        obtain ⟨e1, e2, e3⟩ := hij
        subst e1
        refine ⟨by omega, by omega, e2, e3⟩

theorem creation_at (shots i : Nat) (c : Shape × Vec3)
    (h : (List.replicate 3 (Shape.BOX, plane_size) ++ List.replicate 30 (Shape.BOX, pin_size)
      ++ List.replicate shots (Shape.SPHERE, ball_size))[i]? = some c) :
    (i < 3 ∧ c = (Shape.BOX, plane_size)) ∨ (3 ≤ i ∧ i < 33 ∧ c = (Shape.BOX, pin_size)) ∨
      (33 ≤ i ∧ c = (Shape.SPHERE, ball_size)) := by
  by_cases h33 : i < 33
  · rw [List.getElem?_append_left (by simpa using h33)] at h
    by_cases h3 : i < 3
    · rw [List.getElem?_append_left (by simpa using h3)] at h
      exact Or.inl ⟨h3, (List.eq_of_mem_replicate (List.getElem?_mem h))⟩
    · rw [List.getElem?_append_right (by simpa using h3)] at h
      exact Or.inr (Or.inl ⟨by omega, h33, (List.eq_of_mem_replicate (List.getElem?_mem h))⟩)
  · rw [List.getElem?_append_right (by simp; omega)] at h
    exact Or.inr (Or.inr ⟨by omega, (List.eq_of_mem_replicate (List.getElem?_mem h))⟩)

/-- Every run of the frame loop from a reachable state, with polls that run key
callbacks and physics steps that keep to `Stepped`, ends in a reachable state. -/
theorem run_reachable (rand : Nat → Int) (glm_inverse : Mat4 → Mat4) (glm_sqrt : ℚ → ℚ) :
    ∀ (inps : List FrameInput) (f : FrameState),
      Reachable rand glm_inverse glm_sqrt f →
      (∀ inp ∈ inps, Polled glm_inverse glm_sqrt inp.polledFirst ∧ Stepped inp.stepped ∧
        Polled glm_inverse glm_sqrt inp.polledLast) →
      Reachable rand glm_inverse glm_sqrt (run rand inps f) := by
  intro inps
  induction inps with
  | nil => intro f hf _; exact hf
  | cons inp rest ih =>
    intro f hf h
    obtain ⟨h1, h2, h3⟩ := h inp (List.mem_cons_self _ _)
    exact ih (frame rand inp f) (Reachable.frame inp f hf h1 h2 h3)
      (fun i hi => h i (List.mem_cons_of_mem _ hi))

/-- The first poll of `shotInput` runs one key callback, for a press of the space
bar. -/
theorem shotInput_polledFirst : Polled Mat4.inverse sqrtExact shotInput.polledFirst := by
  unfold shotInput
  simp only []
  exact Polled.key id sampleGlobals GLFW_KEY_SPACE GLFW_PRESS Polled.idle

/-- C20: the bound of the pin test is 32, so the pass treats the body at position
`i` as a pin exactly when `i ≤ 32` (from `i = 3` on, the start of the loop) and as
a ball exactly when `i ≥ 33`. In every reachable state of the frame loop (scene
setup, then any number of iterations whose polls run key callbacks, so the end
of every such run by `run_reachable`) the array
is, by what the bodies were created with, the 3 planes and 30 pins of setup
followed by the balls of the shots, no pass having removed or reordered an
entry; a body is one created as a pin exactly at the positions 3 to 32 and one
created by a shot exactly from position 33 on; and every object the passes have
drawn is a body that, when created as a pin, was drawn with the pin kind and
size and, when created by a shot, with the ball kind and size. -/
theorem pins_and_balls_by_position (rand : Nat → Int) (glm_inverse : Mat4 → Mat4)
    (glm_sqrt : ℚ → ℚ) (f : FrameState) (hr : Reachable rand glm_inverse glm_sqrt f) :
    planeNum * (total_pins + (planeNum - 1 * planeNum)) + planeNum - 1 = 32 ∧
    (∀ i : Int, 3 ≤ i →
      (objectKind i = ObjectKind.pin ↔ 3 ≤ i ∧ i ≤ 32) ∧
      (objectKind i = ObjectKind.ball ↔ 33 ≤ i)) ∧
    (∃ shots : Nat, f.scene.bodies.map RigidBody.creation
      = List.replicate 3 (Shape.BOX, plane_size) ++ List.replicate 30 (Shape.BOX, pin_size)
        ++ List.replicate shots (Shape.SPHERE, ball_size)) ∧
    (∀ (deltaTime : ℚ) (sc : Scene),
      (framePass rand deltaTime sc).bodies.map RigidBody.creation
        = sc.bodies.map RigidBody.creation) ∧
    (∀ (i : Nat) (b : RigidBody), f.scene.bodies[i]? = some b →
      (b.createdAsPlane ↔ i < 3) ∧ (b.createdAsPin ↔ 3 ≤ i ∧ i ≤ 32) ∧
      (b.createdAsBall ↔ 33 ≤ i)) ∧
    (∀ (i : Int) (kind : ObjectKind) (size : Vec3),
      Event.drawObject i kind size ∈ f.scene.trace →
        ∃ b : RigidBody, readBody f.scene.bodies i = some b ∧
          (b.createdAsPin → kind = ObjectKind.pin ∧ size = pin_size) ∧
          (b.createdAsBall → kind = ObjectKind.ball ∧ size = ball_size)) := by
  obtain ⟨⟨shots, hb⟩, ht⟩ := reachable_inv rand glm_inverse glm_sqrt f hr
  rw [setupBodies_creation] at hb
  have hne1 : ((Shape.BOX, plane_size) : Shape × Vec3) ≠ (Shape.BOX, pin_size) := by
    intro h
    have := congrArg (fun c : Shape × Vec3 => c.2.x) h
    norm_num [plane_size, pin_size] at this
  have hne2 : ((Shape.BOX, plane_size) : Shape × Vec3) ≠ (Shape.SPHERE, ball_size) := by
    intro h
    exact Shape.noConfusion (congrArg Prod.fst h)
  have hne3 : ((Shape.BOX, pin_size) : Shape × Vec3) ≠ (Shape.SPHERE, ball_size) := by
    intro h
    exact Shape.noConfusion (congrArg Prod.fst h)
  have hat : ∀ (i : Nat) (b : RigidBody), f.scene.bodies[i]? = some b →
      (i < 3 ∧ b.creation = (Shape.BOX, plane_size)) ∨
      (3 ≤ i ∧ i < 33 ∧ b.creation = (Shape.BOX, pin_size)) ∨
      (33 ≤ i ∧ b.creation = (Shape.SPHERE, ball_size)) := by
    intro i b hi
    apply creation_at shots i b.creation
    rw [← hb, List.getElem?_map, hi]
    rfl
  have hkinds : ∀ (i : Nat) (b : RigidBody), f.scene.bodies[i]? = some b →
      (b.createdAsPlane ↔ i < 3) ∧ (b.createdAsPin ↔ 3 ≤ i ∧ i ≤ 32) ∧
      (b.createdAsBall ↔ 33 ≤ i) := by
    intro i b hi
    unfold RigidBody.createdAsPlane RigidBody.createdAsPin RigidBody.createdAsBall
    rcases hat i b hi with ⟨h1, h2⟩ | ⟨h1, h2, h3⟩ | ⟨h1, h2⟩
    · rw [h2]
      refine ⟨⟨fun _ => h1, fun _ => rfl⟩, ⟨fun h => absurd h hne1, fun h => by omega⟩,
        ⟨fun h => absurd h hne2, fun h => by omega⟩⟩
    · rw [h3]
      refine ⟨⟨fun h => absurd h.symm hne1, fun h => by omega⟩,
        ⟨fun _ => ⟨h1, by omega⟩, fun _ => rfl⟩, ⟨fun h => absurd h hne3, fun h => by omega⟩⟩
    · rw [h2]
      refine ⟨⟨fun h => absurd h.symm hne2, fun h => by omega⟩,
        ⟨fun h => absurd h.symm hne3, fun h => by omega⟩, ⟨fun _ => h1, fun _ => rfl⟩⟩
  refine ⟨by decide, ?_, ⟨shots, hb⟩, ?_, hkinds, ?_⟩
  · intro i hi
    refine ⟨?_, objectKind_ball_iff i⟩
    rw [objectKind_pin_iff]
    constructor
    · intro h; exact ⟨hi, h⟩
    · intro h; exact h.2
  · intro deltaTime sc
    obtain ⟨-, -, -, b⟩ := bodyLoop_events RigidBody.creation (fun _ => rfl) rand deltaTime
      ((sc.bodies.length : Int) - planeNum).toNat planeNum sc
    exact b
  · intro i kind size hmem
    obtain ⟨h3, hlt, hk, hsz⟩ := ht i kind size hmem
    have hlt2 : i.toNat < f.scene.bodies.length := by omega
    have hrd : readBody f.scene.bodies i = some f.scene.bodies[i.toNat] := by
      have h0 : 0 ≤ i := by omega
      simp only [readBody, h0, if_true]
      exact List.getElem?_eq_getElem hlt2
    obtain ⟨-, hpin, hball⟩ := hkinds i.toNat _ (List.getElem?_eq_getElem hlt2)
    refine ⟨_, hrd, ?_, ?_⟩
    · intro hc
      have h32 := (hpin.1 hc).2
      have hp : objectKind i = ObjectKind.pin := (objectKind_pin_iff i).2 (by omega)
      rw [hk, hsz, hp]
      exact ⟨rfl, rfl⟩
    · intro hc
      have h33 := hball.1 hc
      have hp : objectKind i = ObjectKind.ball := (objectKind_ball_iff i).2 (by omega)
      rw [hk, hsz, hp]
      exact ⟨rfl, rfl⟩

/-- C20, on the state one iteration after scene setup, when the first poll of the
iteration runs the key callback for a press of the space bar. -/
theorem pins_and_balls_by_position_witness :
    (∃ shots : Nat, (frame zeroRand shotInput setupState).scene.bodies.map RigidBody.creation
      = List.replicate 3 (Shape.BOX, plane_size) ++ List.replicate 30 (Shape.BOX, pin_size)
        ++ List.replicate shots (Shape.SPHERE, ball_size)) ∧
    (∀ (i : Int) (kind : ObjectKind) (size : Vec3),
      Event.drawObject i kind size ∈ (frame zeroRand shotInput setupState).scene.trace →
        ∃ b : RigidBody, readBody (frame zeroRand shotInput setupState).scene.bodies i = some b ∧
          (b.createdAsPin → kind = ObjectKind.pin ∧ size = pin_size) ∧
          (b.createdAsBall → kind = ObjectKind.ball ∧ size = ball_size)) := by
  have h := pins_and_balls_by_position zeroRand Mat4.inverse sqrtExact
    (frame zeroRand shotInput setupState)
    (Reachable.frame shotInput setupState (Reachable.setup _ _)
      shotInput_polledFirst (fun _ => rfl) Polled.idle)
  exact ⟨h.2.2.1, h.2.2.2.2.2⟩

/-! ## The order of an iteration -/

theorem centreCursor_succ (n : Nat) (f : FrameState) :
    centreCursor (n + 1) f
      = (if f.gameStarted = false then
          { f with gameStarted := true, log := f.log ++ [FrameEvent.setCursorPos 600 450] }
        else f) ∧
    (centreCursor (n + 1) f).gameStarted = true := by
  by_cases h : f.gameStarted = false
  · have h1 : centreCursor (n + 1) f
        = { f with gameStarted := true, log := f.log ++ [FrameEvent.setCursorPos 600 450] } := by
      cases n with
      | zero => simp [centreCursor, h]
      | succ m => simp [centreCursor, h]
    rw [h1, if_pos h]
    exact ⟨rfl, rfl⟩
  · have h1 : centreCursor (n + 1) f = f := by
      simp [centreCursor, h]
    rw [h1, if_neg h]
    exact ⟨rfl, by simpa using h⟩

/-- An iteration that starts from a state that has not stopped, spelled out: its
actions are the head, the actions of the loop over the bodies and, unless that
loop stops on a read outside a vector, the tail; `gameStarted` is true
afterwards. -/
theorem frame_eq (rand : Nat → Int) (inp : FrameInput) (f : FrameState)
    (hnh : f.scene.fault ≠ some Fault.outOfRange) :
    (frame rand inp f).log
      = f.log ++ frameHead inp f
        ++ (framePass rand inp.deltaTime (sceneAfterStep inp f)).trace.map FrameEvent.body
        ++ (if (framePass rand inp.deltaTime (sceneAfterStep inp f)).fault
              = some Fault.outOfRange
            then [] else frameTail inp f) ∧
    (frame rand inp f).gameStarted = true ∧
    ((framePass rand inp.deltaTime (sceneAfterStep inp f)).fault ≠ some Fault.outOfRange →
      (frame rand inp f).amount = inp.sliderAmount ∧
      (frame rand inp f).scene.pool.particleNum = inp.sliderParticleNum ∧
      (frame rand inp f).scene.pool.particles
        = (framePass rand inp.deltaTime (sceneAfterStep inp f)).pool.particles ∧
      (frame rand inp f).scene.fault
        = (framePass rand inp.deltaTime (sceneAfterStep inp f)).fault) := by
  obtain ⟨⟨bodies, pool, rc, trace, fault⟩, started, amount, log⟩ := f
  simp only at hnh
  cases started with
  | false =>
    by_cases hp : (framePass rand inp.deltaTime
        (sceneAfterStep inp ⟨⟨bodies, pool, rc, trace, fault⟩, false, amount, log⟩)).fault
          = some Fault.outOfRange
    · rw [if_pos hp]
      simp only [sceneAfterStep] at hp
      simp [frame, hnh, centreCursor, sceneAfterStep, frameHead, hp]
    · rw [if_neg hp]
      simp only [sceneAfterStep] at hp
      simp [frame, hnh, centreCursor, sceneAfterStep, frameHead, frameTail, finishFrame, hp]
  | true =>
    by_cases hp : (framePass rand inp.deltaTime
        (sceneAfterStep inp ⟨⟨bodies, pool, rc, trace, fault⟩, true, amount, log⟩)).fault
          = some Fault.outOfRange
    · rw [if_pos hp]
      simp only [sceneAfterStep] at hp
      simp [frame, hnh, centreCursor, sceneAfterStep, frameHead, hp]
    · rw [if_neg hp]
      simp only [sceneAfterStep] at hp
      simp [frame, hnh, centreCursor, sceneAfterStep, frameHead, frameTail, finishFrame, hp]

theorem frameTail_no_setCursorPos (inp : FrameInput) (f : FrameState) :
    ∀ e ∈ frameTail inp f, e.isSetCursorPos = false := by
  intro e he
  simp only [frameTail, drawInstances, List.mem_append, List.mem_map, List.mem_cons,
    List.mem_singleton, List.not_mem_nil, or_false] at he
  rcases he with ⟨_, _, rfl⟩ | rfl | rfl | rfl <;> rfl

theorem bodyEvents_no_setCursorPos (evs : List Event) :
    ∀ e ∈ evs.map FrameEvent.body, e.isSetCursorPos = false := by
  intro e he
  rw [List.mem_map] at he
  obtain ⟨_, _, rfl⟩ := he
  rfl

theorem frameHead_setCursorPos (inp : FrameInput) (f : FrameState) :
    (frameHead inp f).countP FrameEvent.isSetCursorPos
      = (if f.gameStarted = false then 1 else 0) := by
  have hp : drawPlanes.countP FrameEvent.isSetCursorPos = 0 := by
    rw [List.countP_eq_zero]
    intro e he
    simp only [drawPlanes, List.mem_map] at he
    obtain ⟨_, _, rfl⟩ := he
    simp [FrameEvent.isSetCursorPos]
  by_cases h : f.gameStarted = false
  · simp [frameHead, h, List.countP_append, List.countP_cons, hp, FrameEvent.isSetCursorPos]
  · simp [frameHead, h, List.countP_append, List.countP_cons, hp, FrameEvent.isSetCursorPos]

/-- The actions one iteration adds, counted for cursor centring: one when the
iteration starts from a state that has not stopped and with `gameStarted` false,
none when `gameStarted` is true; in both cases `gameStarted` is true afterwards. -/
theorem frame_setCursorPos (rand : Nat → Int) (inp : FrameInput) (f : FrameState)
    (h : f.scene.fault ≠ some Fault.outOfRange ∨ f.gameStarted = true) :
    ∃ evs : List FrameEvent,
      (frame rand inp f).log = f.log ++ evs ∧
      evs.countP FrameEvent.isSetCursorPos = (if f.gameStarted = false then 1 else 0) ∧
      (frame rand inp f).gameStarted = true := by
  by_cases hf : f.scene.fault = some Fault.outOfRange
  · have hg : f.gameStarted = true := by
      rcases h with h | h
      · exact absurd hf h
      · exact h
    have hfr : frame rand inp f = f := by
      simp [frame, hf]
    rw [hfr]
    exact ⟨[], by simp, by simp [hg], hg⟩
  · obtain ⟨hl, hg, -⟩ := frame_eq rand inp f hf
    refine ⟨frameHead inp f
        ++ (framePass rand inp.deltaTime (sceneAfterStep inp f)).trace.map FrameEvent.body
        ++ (if (framePass rand inp.deltaTime (sceneAfterStep inp f)).fault
              = some Fault.outOfRange
            then [] else frameTail inp f), ?_, ?_, hg⟩
    · rw [hl]
      simp only [List.append_assoc]
    · have hb : ((framePass rand inp.deltaTime (sceneAfterStep inp f)).trace.map
          FrameEvent.body).countP FrameEvent.isSetCursorPos = 0 := by
        rw [List.countP_eq_zero]
        intro e he
        simp [bodyEvents_no_setCursorPos _ e he]
      have ht : (if (framePass rand inp.deltaTime (sceneAfterStep inp f)).fault
              = some Fault.outOfRange
            then [] else frameTail inp f).countP FrameEvent.isSetCursorPos = 0 := by
        rw [List.countP_eq_zero]
        intro e he
        split at he
        · exact absurd he (List.not_mem_nil e)
        · simp [frameTail_no_setCursorPos inp f e he]
      rw [List.countP_append, List.countP_append, hb, ht, frameHead_setCursorPos]
      simp

theorem run_started (rand : Nat → Int) :
    ∀ (inputs : List FrameInput) (f : FrameState), f.gameStarted = true →
      ∃ evs : List FrameEvent,
        (run rand inputs f).log = f.log ++ evs ∧
        evs.countP FrameEvent.isSetCursorPos = 0 ∧
        (run rand inputs f).gameStarted = true := by
  intro inputs
  induction inputs with
  | nil => intro f hg; exact ⟨[], by simp [run], rfl, hg⟩
  | cons inp rest ih =>
    intro f hg
    obtain ⟨e1, l1, c1, g1⟩ := frame_setCursorPos rand inp f (Or.inr hg)
    obtain ⟨e2, l2, c2, g2⟩ := ih (frame rand inp f) g1
    refine ⟨e1 ++ e2, ?_, ?_, ?_⟩
    · simp only [run]
      rw [l2, l1, List.append_assoc]
    · rw [List.countP_append, c1, c2]
      simp [hg]
    · simp only [run]
      exact g2

/-! ## Cursor centring -/

/-- C18: in a run that starts without a fault and with `gameStarted` false, the
first iteration centres the cursor at `(600, 450)` exactly once and leaves
`gameStarted` true; the later iterations, however many, never centre it again
and `gameStarted` stays true. -/
theorem cursor_centred_once (rand : Nat → Int) (inp : FrameInput) (rest : List FrameInput)
    (f : FrameState) (hf : f.scene.fault = none) (hg : f.gameStarted = false) :
    ∃ first later : List FrameEvent,
      (frame rand inp f).log = f.log ++ first ∧
      (run rand (inp :: rest) f).log = f.log ++ first ++ later ∧
      first.countP FrameEvent.isSetCursorPos = 1 ∧
      FrameEvent.setCursorPos 600 450 ∈ first ∧
      later.countP FrameEvent.isSetCursorPos = 0 ∧
      (frame rand inp f).gameStarted = true ∧
      (run rand (inp :: rest) f).gameStarted = true := by
  obtain ⟨hl, hgs, -⟩ := frame_eq rand inp f (not_stopped_of_none hf)
  obtain ⟨e1, l1, c1, g1⟩ := frame_setCursorPos rand inp f (Or.inl (not_stopped_of_none hf))
  obtain ⟨e2, l2, c2, g2⟩ := run_started rand rest (frame rand inp f) g1
  refine ⟨e1, e2, l1, ?_, ?_, ?_, c2, g1, ?_⟩
  · simp only [run]
    rw [l2, l1]
  · rw [c1]
    simp [hg]
  · have he : e1 = frameHead inp f
        ++ (framePass rand inp.deltaTime (sceneAfterStep inp f)).trace.map FrameEvent.body
        ++ (if (framePass rand inp.deltaTime (sceneAfterStep inp f)).fault
              = some Fault.outOfRange
            then [] else frameTail inp f) := by
      have := l1.symm.trans hl
      simp only [List.append_assoc] at this
      have h2 := List.append_cancel_left this
      rw [h2]
      simp only [List.append_assoc]
    rw [he]
    simp [frameHead, hg]
  · simp only [run]
    exact g2

/-- C18, on a run of three quiet iterations from the start state. -/
theorem cursor_centred_once_witness :
    ∃ first later : List FrameEvent,
      (frame zeroRand quietInput startState).log = startState.log ++ first ∧
      (run zeroRand [quietInput, quietInput, quietInput] startState).log
        = startState.log ++ first ++ later ∧
      first.countP FrameEvent.isSetCursorPos = 1 ∧
      FrameEvent.setCursorPos 600 450 ∈ first ∧
      later.countP FrameEvent.isSetCursorPos = 0 ∧
      (frame zeroRand quietInput startState).gameStarted = true ∧
      (run zeroRand [quietInput, quietInput, quietInput] startState).gameStarted = true :=
  cursor_centred_once zeroRand quietInput [quietInput, quietInput] startState rfl rfl

/-! ## The actions of an iteration, in order -/

theorem visitBody_shape (rand : Nat → Int) (deltaTime : ℚ) (k : Nat) (sc : Scene)
    (body : RigidBody) (hnh : sc.fault ≠ some Fault.outOfRange)
    (hb : sc.bodies[k]? = some body) (hpool : PoolOK sc.pool) :
    ∃ evs : List Event,
      (visitBody rand deltaTime (k : Int) sc).trace = sc.trace ++ evs ∧ IsVisit (k : Int) evs := by
  have hrb : readBody sc.bodies (k : Int) = some body := by
    simp [readBody, hb]
  by_cases hy : body.transform.origin.y < -7
  · have hv := visitBody_culled_go rand deltaTime (k : Int) sc body hnh hrb hy
    refine ⟨[Event.readTransform (k : Int), Event.destroyBody (k : Int)], ?_, Or.inl rfl⟩
    rw [hv]
    simp
  · obtain ⟨slot1, slot2, pool, hv, -, -, -, -⟩ :=
      visitBody_kept_go rand deltaTime (k : Int) sc body hnh hrb (not_lt.mp hy) hpool
    refine ⟨_, ?_, Or.inr ⟨slot1, slot2, drawnParticles (tick deltaTime pool.particles), rfl⟩⟩
    rw [hv]
    simp

/-- The loop over the positions `k, ..., k+n-1` in a pass that has not stopped,
with the pool within its bounds, whether or not the destructor of some of the
bodies has run before: its actions are the visits of these positions, one after
the other in the order of the array, and it does not stop. -/
theorem bodyLoop_visits (rand : Nat → Int) (deltaTime : ℚ) :
    ∀ (n k : Nat) (sc : Scene), sc.fault ≠ some Fault.outOfRange → PoolOK sc.pool →
      k + n ≤ sc.bodies.length →
      ∃ visits : List (List Event),
        (bodyLoop rand deltaTime n (k : Int) sc).trace = sc.trace ++ visits.flatten ∧
        (bodyLoop rand deltaTime n (k : Int) sc).fault ≠ some Fault.outOfRange ∧
        visits.length = n ∧
        ∀ (j : Nat) (es : List Event), visits[j]? = some es → IsVisit ((k + j : Nat) : Int) es := by
  intro n
  induction n with
  | zero =>
    intro k sc hf _ _
    exact ⟨[], by simp [bodyLoop], hf, rfl, by simp⟩
  | succ n ih =>
    intro k sc hf hpool hlen
    have hlt : k < sc.bodies.length := by omega
    have hb : sc.bodies[k]? = some sc.bodies[k] := List.getElem?_eq_getElem hlt
    obtain ⟨e0, t0, f1, p1, l1, o1, -, -, -, -⟩ :=
      visitBody_summary rand deltaTime k sc sc.bodies[k] hf hb hpool
    obtain ⟨e1, t1, v1⟩ := visitBody_shape rand deltaTime k sc sc.bodies[k] hf hb hpool
    obtain ⟨vs, t2, f2, n2, s2⟩ :=
      ih (k + 1) (visitBody rand deltaTime (k : Int) sc) f1 p1 (by rw [l1]; omega)
    have hc : ((k : Int) + 1) = ((k + 1 : Nat) : Int) := by push_cast; rfl
    have hloop : bodyLoop rand deltaTime (n + 1) (k : Int) sc
        = bodyLoop rand deltaTime n ((k + 1 : Nat) : Int) (visitBody rand deltaTime (k : Int) sc) := by
      simp only [bodyLoop]
      rw [hc]
    refine ⟨e1 :: vs, ?_, ?_, ?_, ?_⟩
    · rw [hloop, t2, t1]
      simp
    · rw [hloop]; exact f2
    · simp [n2]
    · intro j es hj
      cases j with
      | zero =>
        simp only [List.getElem?_cons_zero, Option.some.injEq] at hj
        subst hj
        exact v1
      | succ j =>
        simp only [List.getElem?_cons_succ] at hj
        have := s2 j es hj
        have he : ((k + 1 + j : Nat) : Int) = ((k + (j + 1) : Nat) : Int) := by
          push_cast; ring
        rw [← he]
        exact this

theorem framePass_visits (rand : Nat → Int) (deltaTime : ℚ) (sc : Scene)
    (hnh : sc.fault ≠ some Fault.outOfRange) (hpool : PoolOK sc.pool) :
    ∃ visits : List (List Event),
      (framePass rand deltaTime sc).trace = sc.trace ++ visits.flatten ∧
      (framePass rand deltaTime sc).fault ≠ some Fault.outOfRange ∧
      visits.length = sc.bodies.length - 3 ∧
      ∀ (j : Nat) (es : List Event), visits[j]? = some es → IsVisit ((3 + j : Nat) : Int) es := by
  have hp : planeNum = ((3 : Nat) : Int) := rfl
  by_cases hlen : 3 ≤ sc.bodies.length
  · have hn : ((sc.bodies.length : Int) - planeNum).toNat = sc.bodies.length - 3 := by
      rw [hp]; omega
    obtain ⟨vs, t, f, n, s⟩ :=
      bodyLoop_visits rand deltaTime (sc.bodies.length - 3) 3 sc hnh hpool (by omega)
    refine ⟨vs, ?_, ?_, n, s⟩
    · simp only [framePass, hn]
      rw [hp]; exact t
    · simp only [framePass, hn]
      rw [hp]; exact f
  · have hn : ((sc.bodies.length : Int) - planeNum).toNat = 0 := by
      rw [hp]; omega
    refine ⟨[], ?_, ?_, by simp; omega, by simp⟩
    · simp [framePass, hn, bodyLoop]
    · simp only [framePass, hn, bodyLoop]
      exact hnh

theorem drawPlanes_eq :
    drawPlanes = [FrameEvent.drawPlane 0, FrameEvent.drawPlane 1, FrameEvent.drawPlane 2] := by
  have hp : planeNum.toNat = 3 := rfl
  simp [drawPlanes, hp, List.range_succ]

theorem countP_isStep_body (evs : List Event) :
    (evs.map FrameEvent.body).countP FrameEvent.isStep = 0 := by
  rw [List.countP_eq_zero]
  intro e he
  rw [List.mem_map] at he
  obtain ⟨_, _, rfl⟩ := he
  simp [FrameEvent.isStep]

theorem countP_isStep_instances (meshes : Nat) (amount : Int) :
    (drawInstances meshes amount).countP FrameEvent.isStep = 0 := by
  rw [List.countP_eq_zero]
  intro e he
  simp only [drawInstances, List.mem_map] at he
  obtain ⟨_, _, rfl⟩ := he
  simp [FrameEvent.isStep]

/-- C17, as the code has it: every iteration that starts from a state not stopped
by a read outside a vector, with the pool within its bounds, whether or not the
destructor of some bodies has run in an earlier iteration, performs, in this
order: poll of input, camera movement, cursor centring when `gameStarted` is
false, one physics step, the three planes, the visits of the dynamic bodies in
the order of the array (transform read, then the destructor call or two spawns,
update of the pool, draw of the live particles and draw of the object), the
instanced draws, the overlay, the buffer swap and a second poll of input. The
step occurs once and nothing before it is an action on a body. -/
theorem frame_order (rand : Nat → Int) (inp : FrameInput) (f : FrameState)
    (hnh : f.scene.fault ≠ some Fault.outOfRange) (hpool : PoolOK f.scene.pool) :
    ∃ (visits : List (List Event)) (pre post : List FrameEvent),
      (frame rand inp f).log
        = f.log ++ pre
          ++ [FrameEvent.stepSimulation (stepSimulationArgs inp.deltaTime).1 10]
          ++ post ∧
      pre = [FrameEvent.pollEvents, FrameEvent.cameraMovement]
          ++ (if f.gameStarted = false then [FrameEvent.setCursorPos 600 450] else []) ∧
      post = [FrameEvent.drawPlane 0, FrameEvent.drawPlane 1, FrameEvent.drawPlane 2]
          ++ visits.flatten.map FrameEvent.body
          ++ drawInstances inp.instanceMeshes f.amount
          ++ [FrameEvent.overlay, FrameEvent.swapBuffers, FrameEvent.pollEvents] ∧
      visits.length = (sceneAfterStep inp f).bodies.length - 3 ∧
      (∀ (j : Nat) (es : List Event), visits[j]? = some es →
        IsVisit ((3 + j : Nat) : Int) es) ∧
      pre.countP FrameEvent.isStep = 0 ∧ post.countP FrameEvent.isStep = 0 ∧
      (∀ e : Event, FrameEvent.body e ∉ pre) := by
  obtain ⟨hl, -, -⟩ := frame_eq rand inp f hnh
  obtain ⟨vs, t, fp, n, s⟩ :=
    framePass_visits rand inp.deltaTime (sceneAfterStep inp f) hnh hpool
  have htr : (framePass rand inp.deltaTime (sceneAfterStep inp f)).trace = vs.flatten := by
    rw [t]
    rfl
  refine ⟨vs, _, _, ?_, rfl, rfl, n, s, ?_, ?_, ?_⟩
  · rw [hl, htr, if_neg fp]
    simp only [frameHead, frameTail, drawPlanes_eq, List.append_assoc]
    rfl
  · by_cases hg : f.gameStarted = false <;> simp [hg, FrameEvent.isStep]
  · rw [List.countP_append, List.countP_append, List.countP_append, countP_isStep_body,
      countP_isStep_instances]
    simp [FrameEvent.isStep]
  · intro e he
    by_cases hg : f.gameStarted = false <;> simp [hg] at he

/-- The loop over the bodies on three planes and one body at `y = -7.1`. -/
theorem framePass_fallenScene :
    framePass zeroRand (1 / 60) fallenScene
      = ⟨[restingBody (-1), restingBody (-1), restingBody (-1),
            { restingBody (-71 / 10) with destroyed := true }],
          ⟨[Particle.new, Particle.new, Particle.new], 3, 0⟩, 0,
          [Event.readTransform 3, Event.destroyBody 3], none⟩ := by
  simp [framePass, fallenScene, planeNum, bodyLoop, visitBody, useBody, readBody, restingBody]
  norm_num

/-- C17 as stated fails: evaluated on three planes and one fallen body, the
iteration ends with a second poll of input after the buffer swap, so the order
does not end with the present and input is polled twice; and the first iteration
centres the cursor between the camera movement and the physics step. -/
theorem frame_ends_with_second_poll :
    (frame zeroRand quietInput startedState).log
      = [FrameEvent.pollEvents, FrameEvent.cameraMovement,
          FrameEvent.stepSimulation (1 / 60) 10,
          FrameEvent.drawPlane 0, FrameEvent.drawPlane 1, FrameEvent.drawPlane 2,
          FrameEvent.body (Event.readTransform 3), FrameEvent.body (Event.destroyBody 3),
          FrameEvent.drawInstanced 10000,
          FrameEvent.overlay, FrameEvent.swapBuffers, FrameEvent.pollEvents] ∧
    (frame zeroRand quietInput startedState).log.getLast? = some FrameEvent.pollEvents ∧
    (frame zeroRand quietInput startedState).log.count FrameEvent.pollEvents = 2 ∧
    (frame zeroRand quietInput startState).log
      = [FrameEvent.pollEvents, FrameEvent.cameraMovement, FrameEvent.setCursorPos 600 450,
          FrameEvent.stepSimulation (1 / 60) 10,
          FrameEvent.drawPlane 0, FrameEvent.drawPlane 1, FrameEvent.drawPlane 2,
          FrameEvent.body (Event.readTransform 3), FrameEvent.body (Event.destroyBody 3),
          FrameEvent.drawInstanced 10000,
          FrameEvent.overlay, FrameEvent.swapBuffers, FrameEvent.pollEvents] := by
  have hs : sceneAfterStep quietInput startedState = fallenScene := rfl
  have hs0 : sceneAfterStep quietInput startState = fallenScene := rfl
  have hd : quietInput.deltaTime = 1 / 60 := rfl
  have hl : (frame zeroRand quietInput startedState).log
      = [FrameEvent.pollEvents, FrameEvent.cameraMovement,
          FrameEvent.stepSimulation (1 / 60) 10,
          FrameEvent.drawPlane 0, FrameEvent.drawPlane 1, FrameEvent.drawPlane 2,
          FrameEvent.body (Event.readTransform 3), FrameEvent.body (Event.destroyBody 3),
          FrameEvent.drawInstanced 10000,
          FrameEvent.overlay, FrameEvent.swapBuffers, FrameEvent.pollEvents] := by
    rw [(frame_eq zeroRand quietInput startedState (not_stopped_of_none rfl)).1, hs]
    rw [hd, framePass_fallenScene]
    simp [frameHead, frameTail, drawPlanes_eq, drawInstances, startedState, quietInput,
      stepSimulationArgs, maxSecPerFrame]
  have hl0 : (frame zeroRand quietInput startState).log
      = [FrameEvent.pollEvents, FrameEvent.cameraMovement, FrameEvent.setCursorPos 600 450,
          FrameEvent.stepSimulation (1 / 60) 10,
          FrameEvent.drawPlane 0, FrameEvent.drawPlane 1, FrameEvent.drawPlane 2,
          FrameEvent.body (Event.readTransform 3), FrameEvent.body (Event.destroyBody 3),
          FrameEvent.drawInstanced 10000,
          FrameEvent.overlay, FrameEvent.swapBuffers, FrameEvent.pollEvents] := by
    rw [(frame_eq zeroRand quietInput startState (not_stopped_of_none rfl)).1, hs0]
    rw [hd, framePass_fallenScene]
    simp [frameHead, frameTail, drawPlanes_eq, drawInstances, startState, quietInput,
      stepSimulationArgs, maxSecPerFrame]
  rw [hl]
  refine ⟨rfl, rfl, ?_, hl0⟩
  decide

/-- C17 as the code has it, on an iteration after a cull: three planes, a body
whose destructor has run in an earlier iteration and two more bodies. The
iteration makes three visits after the step and ends with the second poll. -/
theorem frame_order_witness :
    ∃ (visits : List (List Event)) (post : List FrameEvent),
      (frame zeroRand quietInput culledState).log
        = culledState.log
          ++ [FrameEvent.pollEvents, FrameEvent.cameraMovement]
          ++ [FrameEvent.stepSimulation (stepSimulationArgs quietInput.deltaTime).1 10]
          ++ post ∧
      post = [FrameEvent.drawPlane 0, FrameEvent.drawPlane 1, FrameEvent.drawPlane 2]
          ++ visits.flatten.map FrameEvent.body
          ++ drawInstances 1 10000
          ++ [FrameEvent.overlay, FrameEvent.swapBuffers, FrameEvent.pollEvents] ∧
      visits.length = 3 ∧ post.countP FrameEvent.isStep = 0 := by
  obtain ⟨visits, pre, post, hlog, hpre, hpost, hlen, -, -, hc, -⟩ :=
    frame_order zeroRand quietInput culledState (fun h => Option.noConfusion h)
      culledScene_pool
  refine ⟨visits, post, ?_, hpost, hlen, hc⟩
  rw [hlog, hpre]
  rfl

/-! ## The sliders of the overlay -/

theorem sqrtExact_mul_self (x : ℚ) (hx : 0 ≤ x) : sqrtExact (x * x) = x := by
  have hn : 0 ≤ x.num := Rat.num_nonneg.2 hx
  have h1 : (x * x).num = x.num * x.num := Rat.mul_self_num x
  have h2 : (x * x).den = x.den * x.den := Rat.mul_self_den x
  have h3 : (x.num * x.num).toNat = x.num.toNat * x.num.toNat := by
    have : x.num = (x.num.toNat : Int) := (Int.toNat_of_nonneg hn).symm
    rw [this]
    norm_cast
  unfold sqrtExact
  rw [h1, h2, h3, Nat.sqrt_eq, Nat.sqrt_eq]
  have h4 : ((x.num.toNat : Nat) : ℚ) = (x.num : ℚ) := by
    have := Int.toNat_of_nonneg hn
    exact_mod_cast congrArg (fun z : Int => (z : ℚ)) this
  rw [h4]
  exact Rat.num_div_den x

theorem Mat4.adjugate_mul_row_0 (m : Mat4) :
    m.adjugate.m00 * m.m00 + m.adjugate.m01 * m.m10 + m.adjugate.m02 * m.m20 + m.adjugate.m03 * m.m30 = m.det ∧
    m.adjugate.m00 * m.m01 + m.adjugate.m01 * m.m11 + m.adjugate.m02 * m.m21 + m.adjugate.m03 * m.m31 = 0 ∧
    m.adjugate.m00 * m.m02 + m.adjugate.m01 * m.m12 + m.adjugate.m02 * m.m22 + m.adjugate.m03 * m.m32 = 0 ∧
    m.adjugate.m00 * m.m03 + m.adjugate.m01 * m.m13 + m.adjugate.m02 * m.m23 + m.adjugate.m03 * m.m33 = 0 := by
  simp only [Mat4.det, Mat4.adjugate]
  refine ⟨?_, ?_, ?_, ?_⟩ <;> ring1

theorem Mat4.adjugate_mul_row_1 (m : Mat4) :
    m.adjugate.m10 * m.m00 + m.adjugate.m11 * m.m10 + m.adjugate.m12 * m.m20 + m.adjugate.m13 * m.m30 = 0 ∧
    m.adjugate.m10 * m.m01 + m.adjugate.m11 * m.m11 + m.adjugate.m12 * m.m21 + m.adjugate.m13 * m.m31 = m.det ∧
    m.adjugate.m10 * m.m02 + m.adjugate.m11 * m.m12 + m.adjugate.m12 * m.m22 + m.adjugate.m13 * m.m32 = 0 ∧
    m.adjugate.m10 * m.m03 + m.adjugate.m11 * m.m13 + m.adjugate.m12 * m.m23 + m.adjugate.m13 * m.m33 = 0 := by
  simp only [Mat4.det, Mat4.adjugate]
  refine ⟨?_, ?_, ?_, ?_⟩ <;> ring1

theorem Mat4.adjugate_mul_row_2 (m : Mat4) :
    m.adjugate.m20 * m.m00 + m.adjugate.m21 * m.m10 + m.adjugate.m22 * m.m20 + m.adjugate.m23 * m.m30 = 0 ∧
    m.adjugate.m20 * m.m01 + m.adjugate.m21 * m.m11 + m.adjugate.m22 * m.m21 + m.adjugate.m23 * m.m31 = 0 ∧
    m.adjugate.m20 * m.m02 + m.adjugate.m21 * m.m12 + m.adjugate.m22 * m.m22 + m.adjugate.m23 * m.m32 = m.det ∧
    m.adjugate.m20 * m.m03 + m.adjugate.m21 * m.m13 + m.adjugate.m22 * m.m23 + m.adjugate.m23 * m.m33 = 0 := by
  simp only [Mat4.det, Mat4.adjugate]
  refine ⟨?_, ?_, ?_, ?_⟩ <;> ring1

theorem Mat4.adjugate_mul_row_3 (m : Mat4) :
    m.adjugate.m30 * m.m00 + m.adjugate.m31 * m.m10 + m.adjugate.m32 * m.m20 + m.adjugate.m33 * m.m30 = 0 ∧
    m.adjugate.m30 * m.m01 + m.adjugate.m31 * m.m11 + m.adjugate.m32 * m.m21 + m.adjugate.m33 * m.m31 = 0 ∧
    m.adjugate.m30 * m.m02 + m.adjugate.m31 * m.m12 + m.adjugate.m32 * m.m22 + m.adjugate.m33 * m.m32 = 0 ∧
    m.adjugate.m30 * m.m03 + m.adjugate.m31 * m.m13 + m.adjugate.m32 * m.m23 + m.adjugate.m33 * m.m33 = m.det := by
  simp only [Mat4.det, Mat4.adjugate]
  refine ⟨?_, ?_, ?_, ?_⟩ <;> ring1

theorem Mat4.mul_adjugate_row_0 (m : Mat4) :
    m.m00 * m.adjugate.m00 + m.m01 * m.adjugate.m10 + m.m02 * m.adjugate.m20 + m.m03 * m.adjugate.m30 = m.det ∧
    m.m00 * m.adjugate.m01 + m.m01 * m.adjugate.m11 + m.m02 * m.adjugate.m21 + m.m03 * m.adjugate.m31 = 0 ∧
    m.m00 * m.adjugate.m02 + m.m01 * m.adjugate.m12 + m.m02 * m.adjugate.m22 + m.m03 * m.adjugate.m32 = 0 ∧
    m.m00 * m.adjugate.m03 + m.m01 * m.adjugate.m13 + m.m02 * m.adjugate.m23 + m.m03 * m.adjugate.m33 = 0 := by
  simp only [Mat4.det, Mat4.adjugate]
  refine ⟨trivial, ?_, ?_, ?_⟩ <;> ring1

theorem Mat4.mul_adjugate_row_1 (m : Mat4) :
    m.m10 * m.adjugate.m00 + m.m11 * m.adjugate.m10 + m.m12 * m.adjugate.m20 + m.m13 * m.adjugate.m30 = 0 ∧
    m.m10 * m.adjugate.m01 + m.m11 * m.adjugate.m11 + m.m12 * m.adjugate.m21 + m.m13 * m.adjugate.m31 = m.det ∧
    m.m10 * m.adjugate.m02 + m.m11 * m.adjugate.m12 + m.m12 * m.adjugate.m22 + m.m13 * m.adjugate.m32 = 0 ∧
    m.m10 * m.adjugate.m03 + m.m11 * m.adjugate.m13 + m.m12 * m.adjugate.m23 + m.m13 * m.adjugate.m33 = 0 := by
  simp only [Mat4.det, Mat4.adjugate]
  refine ⟨?_, ?_, ?_, ?_⟩ <;> ring1

theorem Mat4.mul_adjugate_row_2 (m : Mat4) :
    m.m20 * m.adjugate.m00 + m.m21 * m.adjugate.m10 + m.m22 * m.adjugate.m20 + m.m23 * m.adjugate.m30 = 0 ∧
    m.m20 * m.adjugate.m01 + m.m21 * m.adjugate.m11 + m.m22 * m.adjugate.m21 + m.m23 * m.adjugate.m31 = 0 ∧
    m.m20 * m.adjugate.m02 + m.m21 * m.adjugate.m12 + m.m22 * m.adjugate.m22 + m.m23 * m.adjugate.m32 = m.det ∧
    m.m20 * m.adjugate.m03 + m.m21 * m.adjugate.m13 + m.m22 * m.adjugate.m23 + m.m23 * m.adjugate.m33 = 0 := by
  simp only [Mat4.det, Mat4.adjugate]
  refine ⟨?_, ?_, ?_, ?_⟩ <;> ring1

theorem Mat4.mul_adjugate_row_3 (m : Mat4) :
    m.m30 * m.adjugate.m00 + m.m31 * m.adjugate.m10 + m.m32 * m.adjugate.m20 + m.m33 * m.adjugate.m30 = 0 ∧
    m.m30 * m.adjugate.m01 + m.m31 * m.adjugate.m11 + m.m32 * m.adjugate.m21 + m.m33 * m.adjugate.m31 = 0 ∧
    m.m30 * m.adjugate.m02 + m.m31 * m.adjugate.m12 + m.m32 * m.adjugate.m22 + m.m33 * m.adjugate.m32 = 0 ∧
    m.m30 * m.adjugate.m03 + m.m31 * m.adjugate.m13 + m.m32 * m.adjugate.m23 + m.m33 * m.adjugate.m33 = m.det := by
  simp only [Mat4.det, Mat4.adjugate]
  refine ⟨?_, ?_, ?_, ?_⟩ <;> ring1

/-- The matrix `Mat4.inverse m` is the inverse of `m` when the determinant is not
zero. -/
theorem Mat4.inverse_isInverseOf (m : Mat4) (h : m.det ≠ 0) : (m.inverse).IsInverseOf m := by
  obtain ⟨l00, l01, l02, l03⟩ := Mat4.adjugate_mul_row_0 m
  obtain ⟨r00, r01, r02, r03⟩ := Mat4.mul_adjugate_row_0 m
  obtain ⟨l10, l11, l12, l13⟩ := Mat4.adjugate_mul_row_1 m
  obtain ⟨r10, r11, r12, r13⟩ := Mat4.mul_adjugate_row_1 m
  obtain ⟨l20, l21, l22, l23⟩ := Mat4.adjugate_mul_row_2 m
  obtain ⟨r20, r21, r22, r23⟩ := Mat4.mul_adjugate_row_2 m
  obtain ⟨l30, l31, l32, l33⟩ := Mat4.adjugate_mul_row_3 m
  obtain ⟨r30, r31, r32, r33⟩ := Mat4.mul_adjugate_row_3 m
  have hd : m.det * (1 / m.det) = 1 := mul_one_div_cancel h
  constructor
  · simp only [Mat4.mul, Mat4.inverse, Mat4.one, Mat4.mk.injEq]
    refine ⟨?_, ?_, ?_, ?_, ?_, ?_, ?_, ?_, ?_, ?_, ?_, ?_, ?_, ?_, ?_, ?_⟩
    · have e : m.adjugate.m00 * (1 / m.det) * m.m00 + m.adjugate.m01 * (1 / m.det) * m.m10 + m.adjugate.m02 * (1 / m.det) * m.m20 + m.adjugate.m03 * (1 / m.det) * m.m30
          = (m.adjugate.m00 * m.m00 + m.adjugate.m01 * m.m10 + m.adjugate.m02 * m.m20 + m.adjugate.m03 * m.m30) * (1 / m.det) := by ring
      rw [e, l00]
      exact hd
    · have e : m.adjugate.m00 * (1 / m.det) * m.m01 + m.adjugate.m01 * (1 / m.det) * m.m11 + m.adjugate.m02 * (1 / m.det) * m.m21 + m.adjugate.m03 * (1 / m.det) * m.m31
          = (m.adjugate.m00 * m.m01 + m.adjugate.m01 * m.m11 + m.adjugate.m02 * m.m21 + m.adjugate.m03 * m.m31) * (1 / m.det) := by ring
      rw [e, l01]
      exact zero_mul _
    · have e : m.adjugate.m00 * (1 / m.det) * m.m02 + m.adjugate.m01 * (1 / m.det) * m.m12 + m.adjugate.m02 * (1 / m.det) * m.m22 + m.adjugate.m03 * (1 / m.det) * m.m32
          = (m.adjugate.m00 * m.m02 + m.adjugate.m01 * m.m12 + m.adjugate.m02 * m.m22 + m.adjugate.m03 * m.m32) * (1 / m.det) := by ring
      rw [e, l02]
      exact zero_mul _
    · have e : m.adjugate.m00 * (1 / m.det) * m.m03 + m.adjugate.m01 * (1 / m.det) * m.m13 + m.adjugate.m02 * (1 / m.det) * m.m23 + m.adjugate.m03 * (1 / m.det) * m.m33
          = (m.adjugate.m00 * m.m03 + m.adjugate.m01 * m.m13 + m.adjugate.m02 * m.m23 + m.adjugate.m03 * m.m33) * (1 / m.det) := by ring
      rw [e, l03]
      exact zero_mul _
    · have e : m.adjugate.m10 * (1 / m.det) * m.m00 + m.adjugate.m11 * (1 / m.det) * m.m10 + m.adjugate.m12 * (1 / m.det) * m.m20 + m.adjugate.m13 * (1 / m.det) * m.m30
          = (m.adjugate.m10 * m.m00 + m.adjugate.m11 * m.m10 + m.adjugate.m12 * m.m20 + m.adjugate.m13 * m.m30) * (1 / m.det) := by ring
      rw [e, l10]
      exact zero_mul _
    · have e : m.adjugate.m10 * (1 / m.det) * m.m01 + m.adjugate.m11 * (1 / m.det) * m.m11 + m.adjugate.m12 * (1 / m.det) * m.m21 + m.adjugate.m13 * (1 / m.det) * m.m31
          = (m.adjugate.m10 * m.m01 + m.adjugate.m11 * m.m11 + m.adjugate.m12 * m.m21 + m.adjugate.m13 * m.m31) * (1 / m.det) := by ring
      rw [e, l11]
      exact hd
    · have e : m.adjugate.m10 * (1 / m.det) * m.m02 + m.adjugate.m11 * (1 / m.det) * m.m12 + m.adjugate.m12 * (1 / m.det) * m.m22 + m.adjugate.m13 * (1 / m.det) * m.m32
          = (m.adjugate.m10 * m.m02 + m.adjugate.m11 * m.m12 + m.adjugate.m12 * m.m22 + m.adjugate.m13 * m.m32) * (1 / m.det) := by ring
      rw [e, l12]
      exact zero_mul _
    · have e : m.adjugate.m10 * (1 / m.det) * m.m03 + m.adjugate.m11 * (1 / m.det) * m.m13 + m.adjugate.m12 * (1 / m.det) * m.m23 + m.adjugate.m13 * (1 / m.det) * m.m33
          = (m.adjugate.m10 * m.m03 + m.adjugate.m11 * m.m13 + m.adjugate.m12 * m.m23 + m.adjugate.m13 * m.m33) * (1 / m.det) := by ring
      rw [e, l13]
      exact zero_mul _
    · have e : m.adjugate.m20 * (1 / m.det) * m.m00 + m.adjugate.m21 * (1 / m.det) * m.m10 + m.adjugate.m22 * (1 / m.det) * m.m20 + m.adjugate.m23 * (1 / m.det) * m.m30
          = (m.adjugate.m20 * m.m00 + m.adjugate.m21 * m.m10 + m.adjugate.m22 * m.m20 + m.adjugate.m23 * m.m30) * (1 / m.det) := by ring
      rw [e, l20]
      exact zero_mul _
    · have e : m.adjugate.m20 * (1 / m.det) * m.m01 + m.adjugate.m21 * (1 / m.det) * m.m11 + m.adjugate.m22 * (1 / m.det) * m.m21 + m.adjugate.m23 * (1 / m.det) * m.m31
          = (m.adjugate.m20 * m.m01 + m.adjugate.m21 * m.m11 + m.adjugate.m22 * m.m21 + m.adjugate.m23 * m.m31) * (1 / m.det) := by ring
      rw [e, l21]
      exact zero_mul _
    · have e : m.adjugate.m20 * (1 / m.det) * m.m02 + m.adjugate.m21 * (1 / m.det) * m.m12 + m.adjugate.m22 * (1 / m.det) * m.m22 + m.adjugate.m23 * (1 / m.det) * m.m32
          = (m.adjugate.m20 * m.m02 + m.adjugate.m21 * m.m12 + m.adjugate.m22 * m.m22 + m.adjugate.m23 * m.m32) * (1 / m.det) := by ring
      rw [e, l22]
      exact hd
    · have e : m.adjugate.m20 * (1 / m.det) * m.m03 + m.adjugate.m21 * (1 / m.det) * m.m13 + m.adjugate.m22 * (1 / m.det) * m.m23 + m.adjugate.m23 * (1 / m.det) * m.m33
          = (m.adjugate.m20 * m.m03 + m.adjugate.m21 * m.m13 + m.adjugate.m22 * m.m23 + m.adjugate.m23 * m.m33) * (1 / m.det) := by ring
      rw [e, l23]
      exact zero_mul _
    · have e : m.adjugate.m30 * (1 / m.det) * m.m00 + m.adjugate.m31 * (1 / m.det) * m.m10 + m.adjugate.m32 * (1 / m.det) * m.m20 + m.adjugate.m33 * (1 / m.det) * m.m30
          = (m.adjugate.m30 * m.m00 + m.adjugate.m31 * m.m10 + m.adjugate.m32 * m.m20 + m.adjugate.m33 * m.m30) * (1 / m.det) := by ring
      rw [e, l30]
      exact zero_mul _
    · have e : m.adjugate.m30 * (1 / m.det) * m.m01 + m.adjugate.m31 * (1 / m.det) * m.m11 + m.adjugate.m32 * (1 / m.det) * m.m21 + m.adjugate.m33 * (1 / m.det) * m.m31
          = (m.adjugate.m30 * m.m01 + m.adjugate.m31 * m.m11 + m.adjugate.m32 * m.m21 + m.adjugate.m33 * m.m31) * (1 / m.det) := by ring
      rw [e, l31]
      exact zero_mul _
    · have e : m.adjugate.m30 * (1 / m.det) * m.m02 + m.adjugate.m31 * (1 / m.det) * m.m12 + m.adjugate.m32 * (1 / m.det) * m.m22 + m.adjugate.m33 * (1 / m.det) * m.m32
          = (m.adjugate.m30 * m.m02 + m.adjugate.m31 * m.m12 + m.adjugate.m32 * m.m22 + m.adjugate.m33 * m.m32) * (1 / m.det) := by ring
      rw [e, l32]
      exact zero_mul _
    · have e : m.adjugate.m30 * (1 / m.det) * m.m03 + m.adjugate.m31 * (1 / m.det) * m.m13 + m.adjugate.m32 * (1 / m.det) * m.m23 + m.adjugate.m33 * (1 / m.det) * m.m33
          = (m.adjugate.m30 * m.m03 + m.adjugate.m31 * m.m13 + m.adjugate.m32 * m.m23 + m.adjugate.m33 * m.m33) * (1 / m.det) := by ring
      rw [e, l33]
      exact hd
  · simp only [Mat4.mul, Mat4.inverse, Mat4.one, Mat4.mk.injEq]
    refine ⟨?_, ?_, ?_, ?_, ?_, ?_, ?_, ?_, ?_, ?_, ?_, ?_, ?_, ?_, ?_, ?_⟩
    · have e : m.m00 * (m.adjugate.m00 * (1 / m.det)) + m.m01 * (m.adjugate.m10 * (1 / m.det)) + m.m02 * (m.adjugate.m20 * (1 / m.det)) + m.m03 * (m.adjugate.m30 * (1 / m.det))
          = (m.m00 * m.adjugate.m00 + m.m01 * m.adjugate.m10 + m.m02 * m.adjugate.m20 + m.m03 * m.adjugate.m30) * (1 / m.det) := by ring
      rw [e, r00]
      exact hd
    · have e : m.m00 * (m.adjugate.m01 * (1 / m.det)) + m.m01 * (m.adjugate.m11 * (1 / m.det)) + m.m02 * (m.adjugate.m21 * (1 / m.det)) + m.m03 * (m.adjugate.m31 * (1 / m.det))
          = (m.m00 * m.adjugate.m01 + m.m01 * m.adjugate.m11 + m.m02 * m.adjugate.m21 + m.m03 * m.adjugate.m31) * (1 / m.det) := by ring
      rw [e, r01]
      exact zero_mul _
    · have e : m.m00 * (m.adjugate.m02 * (1 / m.det)) + m.m01 * (m.adjugate.m12 * (1 / m.det)) + m.m02 * (m.adjugate.m22 * (1 / m.det)) + m.m03 * (m.adjugate.m32 * (1 / m.det))
          = (m.m00 * m.adjugate.m02 + m.m01 * m.adjugate.m12 + m.m02 * m.adjugate.m22 + m.m03 * m.adjugate.m32) * (1 / m.det) := by ring
      rw [e, r02]
      exact zero_mul _
    · have e : m.m00 * (m.adjugate.m03 * (1 / m.det)) + m.m01 * (m.adjugate.m13 * (1 / m.det)) + m.m02 * (m.adjugate.m23 * (1 / m.det)) + m.m03 * (m.adjugate.m33 * (1 / m.det))
          = (m.m00 * m.adjugate.m03 + m.m01 * m.adjugate.m13 + m.m02 * m.adjugate.m23 + m.m03 * m.adjugate.m33) * (1 / m.det) := by ring
      rw [e, r03]
      exact zero_mul _
    · have e : m.m10 * (m.adjugate.m00 * (1 / m.det)) + m.m11 * (m.adjugate.m10 * (1 / m.det)) + m.m12 * (m.adjugate.m20 * (1 / m.det)) + m.m13 * (m.adjugate.m30 * (1 / m.det))
          = (m.m10 * m.adjugate.m00 + m.m11 * m.adjugate.m10 + m.m12 * m.adjugate.m20 + m.m13 * m.adjugate.m30) * (1 / m.det) := by ring
      rw [e, r10]
      exact zero_mul _
    · have e : m.m10 * (m.adjugate.m01 * (1 / m.det)) + m.m11 * (m.adjugate.m11 * (1 / m.det)) + m.m12 * (m.adjugate.m21 * (1 / m.det)) + m.m13 * (m.adjugate.m31 * (1 / m.det))
          = (m.m10 * m.adjugate.m01 + m.m11 * m.adjugate.m11 + m.m12 * m.adjugate.m21 + m.m13 * m.adjugate.m31) * (1 / m.det) := by ring
      rw [e, r11]
      exact hd
    · have e : m.m10 * (m.adjugate.m02 * (1 / m.det)) + m.m11 * (m.adjugate.m12 * (1 / m.det)) + m.m12 * (m.adjugate.m22 * (1 / m.det)) + m.m13 * (m.adjugate.m32 * (1 / m.det))
          = (m.m10 * m.adjugate.m02 + m.m11 * m.adjugate.m12 + m.m12 * m.adjugate.m22 + m.m13 * m.adjugate.m32) * (1 / m.det) := by ring
      rw [e, r12]
      exact zero_mul _
    · have e : m.m10 * (m.adjugate.m03 * (1 / m.det)) + m.m11 * (m.adjugate.m13 * (1 / m.det)) + m.m12 * (m.adjugate.m23 * (1 / m.det)) + m.m13 * (m.adjugate.m33 * (1 / m.det))
          = (m.m10 * m.adjugate.m03 + m.m11 * m.adjugate.m13 + m.m12 * m.adjugate.m23 + m.m13 * m.adjugate.m33) * (1 / m.det) := by ring
      rw [e, r13]
      exact zero_mul _
    · have e : m.m20 * (m.adjugate.m00 * (1 / m.det)) + m.m21 * (m.adjugate.m10 * (1 / m.det)) + m.m22 * (m.adjugate.m20 * (1 / m.det)) + m.m23 * (m.adjugate.m30 * (1 / m.det))
          = (m.m20 * m.adjugate.m00 + m.m21 * m.adjugate.m10 + m.m22 * m.adjugate.m20 + m.m23 * m.adjugate.m30) * (1 / m.det) := by ring
      rw [e, r20]
      exact zero_mul _
    · have e : m.m20 * (m.adjugate.m01 * (1 / m.det)) + m.m21 * (m.adjugate.m11 * (1 / m.det)) + m.m22 * (m.adjugate.m21 * (1 / m.det)) + m.m23 * (m.adjugate.m31 * (1 / m.det))
          = (m.m20 * m.adjugate.m01 + m.m21 * m.adjugate.m11 + m.m22 * m.adjugate.m21 + m.m23 * m.adjugate.m31) * (1 / m.det) := by ring
      rw [e, r21]
      exact zero_mul _
    · have e : m.m20 * (m.adjugate.m02 * (1 / m.det)) + m.m21 * (m.adjugate.m12 * (1 / m.det)) + m.m22 * (m.adjugate.m22 * (1 / m.det)) + m.m23 * (m.adjugate.m32 * (1 / m.det))
          = (m.m20 * m.adjugate.m02 + m.m21 * m.adjugate.m12 + m.m22 * m.adjugate.m22 + m.m23 * m.adjugate.m32) * (1 / m.det) := by ring
      rw [e, r22]
      exact hd
    · have e : m.m20 * (m.adjugate.m03 * (1 / m.det)) + m.m21 * (m.adjugate.m13 * (1 / m.det)) + m.m22 * (m.adjugate.m23 * (1 / m.det)) + m.m23 * (m.adjugate.m33 * (1 / m.det))
          = (m.m20 * m.adjugate.m03 + m.m21 * m.adjugate.m13 + m.m22 * m.adjugate.m23 + m.m23 * m.adjugate.m33) * (1 / m.det) := by ring
      rw [e, r23]
      exact zero_mul _
    · have e : m.m30 * (m.adjugate.m00 * (1 / m.det)) + m.m31 * (m.adjugate.m10 * (1 / m.det)) + m.m32 * (m.adjugate.m20 * (1 / m.det)) + m.m33 * (m.adjugate.m30 * (1 / m.det))
          = (m.m30 * m.adjugate.m00 + m.m31 * m.adjugate.m10 + m.m32 * m.adjugate.m20 + m.m33 * m.adjugate.m30) * (1 / m.det) := by ring
      rw [e, r30]
      exact zero_mul _
    · have e : m.m30 * (m.adjugate.m01 * (1 / m.det)) + m.m31 * (m.adjugate.m11 * (1 / m.det)) + m.m32 * (m.adjugate.m21 * (1 / m.det)) + m.m33 * (m.adjugate.m31 * (1 / m.det))
          = (m.m30 * m.adjugate.m01 + m.m31 * m.adjugate.m11 + m.m32 * m.adjugate.m21 + m.m33 * m.adjugate.m31) * (1 / m.det) := by ring
      rw [e, r31]
      exact zero_mul _
    · have e : m.m30 * (m.adjugate.m02 * (1 / m.det)) + m.m31 * (m.adjugate.m12 * (1 / m.det)) + m.m32 * (m.adjugate.m22 * (1 / m.det)) + m.m33 * (m.adjugate.m32 * (1 / m.det))
          = (m.m30 * m.adjugate.m02 + m.m31 * m.adjugate.m12 + m.m32 * m.adjugate.m22 + m.m33 * m.adjugate.m32) * (1 / m.det) := by ring
      rw [e, r32]
      exact zero_mul _
    · have e : m.m30 * (m.adjugate.m03 * (1 / m.det)) + m.m31 * (m.adjugate.m13 * (1 / m.det)) + m.m32 * (m.adjugate.m23 * (1 / m.det)) + m.m33 * (m.adjugate.m33 * (1 / m.det))
          = (m.m30 * m.adjugate.m03 + m.m31 * m.adjugate.m13 + m.m32 * m.adjugate.m23 + m.m33 * m.adjugate.m33) * (1 / m.det) := by ring
      rw [e, r33]
      exact hd

theorem Mat4.mulVec_mul (a b : Mat4) (v : HVec) : (a.mul b).mulVec v = a.mulVec (b.mulVec v) := by
  simp only [Mat4.mul, Mat4.mulVec, HVec.mk.injEq]
  refine ⟨?_, ?_, ?_, ?_⟩ <;> ring

theorem Mat4.one_mulVec (v : HVec) : Mat4.one.mulVec v = v := by
  simp [Mat4.one, Mat4.mulVec]

/-- The inverse applied to the image of a vector gives the vector back. -/
theorem Mat4.inverse_mulVec (m : Mat4) (h : m.det ≠ 0) (u : HVec) :
    (m.inverse).mulVec (m.mulVec u) = u := by
  rw [← Mat4.mulVec_mul, (Mat4.inverse_isInverseOf m h).1, Mat4.one_mulVec]

/-- The un-projected cursor at the centre of the window, for a camera at `eye` with
orthonormal axes: the forward axis plus the camera position divided by the far
distance, with `w = 1 / 10000`. -/
theorem centre_unproject (t : ℚ) (eye right up front : Vec3)
    (hrf : right.x * front.x + right.y * front.y + right.z * front.z = 0)
    (huf : up.x * front.x + up.y * front.y + up.z * front.z = 0)
    (hff : front.x * front.x + front.y * front.y + front.z * front.z = 1)
    (hdet : ((projectionMatrix t).mul (lookAt eye right up front)).det ≠ 0) :
    (Mat4.inverse ((projectionMatrix t).mul (lookAt eye right up front))).mulVec
        (cursorNDC 600 450)
      = ⟨front.x + eye.x / 10000, front.y + eye.y / 10000, front.z + eye.z / 10000,
          1 / 10000⟩ := by
  have hv : ((projectionMatrix t).mul (lookAt eye right up front)).mulVec
      ⟨front.x + eye.x / 10000, front.y + eye.y / 10000, front.z + eye.z / 10000, 1 / 10000⟩
        = cursorNDC 600 450 := by
    simp only [projectionMatrix, perspective, lookAt, Mat4.mul, Mat4.mulVec, cursorNDC,
      screenWidth, screenHeight, HVec.mk.injEq]
    refine ⟨?_, ?_, ?_, ?_⟩
    · linear_combination (1 / (1200 / 900 * t)) * hrf
    · linear_combination (1 / t) * huf
    · linear_combination (-(-(10000 + 1 / 10) / (10000 - 1 / 10))) * hff
    · linear_combination hff
  rw [← hv]
  exact Mat4.inverse_mulVec _ hdet _

theorem normalize_scale_dot (glm_sqrt : ℚ → ℚ) (u : HVec) (k : ℚ) (hs : u.dot ≠ 0)
    (hr : glm_sqrt u.dot * glm_sqrt u.dot = u.dot) :
    ((normalize glm_sqrt u).scale k).dot = k * k ∧
    ((normalize glm_sqrt u).scale k).x * ((normalize glm_sqrt u).scale k).x
      + ((normalize glm_sqrt u).scale k).y * ((normalize glm_sqrt u).scale k).y
      + ((normalize glm_sqrt u).scale k).z * ((normalize glm_sqrt u).scale k).z
      = k * k * (u.dot - u.w * u.w) / u.dot := by
  have hr0 : glm_sqrt u.dot ≠ 0 := by
    intro h0
    rw [h0] at hr
    exact hs (by rw [← hr]; ring)
  simp only [normalize, HVec.scale]
  generalize glm_sqrt u.dot = r at hr hr0
  have hdot : u.dot = u.x * u.x + u.y * u.y + u.z * u.z + u.w * u.w := rfl
  constructor
  · simp only [HVec.dot]
    field_simp
    rw [hdot] at hr
    linear_combination (-(k * k)) * hr
  · rw [eq_div_iff hs]
    field_simp
    rw [hdot] at hr ⊢
    linear_combination (-(k * k)) * (u.x * u.x + u.y * u.y + u.z * u.z) * hr

/-- The length of the impulse in general: when `glm_sqrt` returns a square root of
the dot product `s` of the un-projected vector with itself, the four-component
vector `shoot` has squared length 1600 and the impulse, its first three
components, has squared length `1600 * (s - w * w) / s`. -/
theorem shoot_normSq (glm_inverse : Mat4 → Mat4) (glm_sqrt : ℚ → ℚ) (projection view : Mat4)
    (cursorX cursorY : ℚ)
    (hs : ((glm_inverse (projection.mul view)).mulVec (cursorNDC cursorX cursorY)).dot ≠ 0)
    (hr : glm_sqrt ((glm_inverse (projection.mul view)).mulVec (cursorNDC cursorX cursorY)).dot
        * glm_sqrt ((glm_inverse (projection.mul view)).mulVec (cursorNDC cursorX cursorY)).dot
      = ((glm_inverse (projection.mul view)).mulVec (cursorNDC cursorX cursorY)).dot) :
    (shootVector glm_inverse glm_sqrt projection view cursorX cursorY).dot = 1600 ∧
    (shootImpulse glm_inverse glm_sqrt projection view cursorX cursorY).normSq
      = 1600 * (((glm_inverse (projection.mul view)).mulVec (cursorNDC cursorX cursorY)).dot
          - ((glm_inverse (projection.mul view)).mulVec (cursorNDC cursorX cursorY)).w
            * ((glm_inverse (projection.mul view)).mulVec (cursorNDC cursorX cursorY)).w)
        / ((glm_inverse (projection.mul view)).mulVec (cursorNDC cursorX cursorY)).dot := by
  obtain ⟨h1, h2⟩ := normalize_scale_dot glm_sqrt
    ((glm_inverse (projection.mul view)).mulVec (cursorNDC cursorX cursorY)) shootInitialSpeed hs hr
  have hk : shootInitialSpeed * shootInitialSpeed = 1600 := by
    norm_num [shootInitialSpeed]
  rw [hk] at h1 h2
  exact ⟨h1, h2⟩

theorem start_det (t : ℚ) (ht : t ≠ 0) : ((projectionMatrix t).mul startView).det ≠ 0 := by
  have hd : ((projectionMatrix t).mul startView).det
      = -(20000 / 99999) * (1 / (4 / 3 * t)) * (1 / t) := by
    simp only [projectionMatrix, perspective, startView, lookAt, Mat4.mul, Mat4.det,
      Mat4.adjugate, screenWidth, screenHeight]
    ring
  rw [hd]
  have h1 : (1 : ℚ) / (4 / 3 * t) ≠ 0 := by
    apply one_div_ne_zero
    exact mul_ne_zero (by norm_num) ht
  have h2 : (1 : ℚ) / t ≠ 0 := one_div_ne_zero ht
  exact mul_ne_zero (mul_ne_zero (by norm_num) h1) h2

theorem sqrtExact_ne_zero (q : ℚ) (hq : 0 < q) : sqrtExact q ≠ 0 := by
  have hn : 0 < q.num := Rat.num_pos.2 hq
  have h1 : 0 < Nat.sqrt q.num.toNat := Nat.sqrt_pos.2 (by omega)
  have h2 : 0 < Nat.sqrt q.den := Nat.sqrt_pos.2 q.den_pos
  unfold sqrtExact
  apply div_ne_zero
  · exact_mod_cast Nat.pos_iff_ne_zero.1 h1
  · exact_mod_cast Nat.pos_iff_ne_zero.1 h2

/-- The un-projected cursor at the centre of the window for the camera as the
program starts: `(5, 1, -9988) / 10000` with `w = 1 / 10000`, of dot product
`99760171 / 100000000` with itself. -/
theorem start_unproject (t : ℚ) (ht : t ≠ 0) :
    (Mat4.inverse ((projectionMatrix t).mul startView)).mulVec (cursorNDC 600 450)
      = ⟨1 / 2000, 1 / 10000, -(2497 / 2500), 1 / 10000⟩ ∧
    (⟨1 / 2000, 1 / 10000, -(2497 / 2500), 1 / 10000⟩ : HVec).dot = 99760171 / 100000000 := by
  constructor
  · have h := centre_unproject t ⟨5, 1, 12⟩ ⟨1, 0, 0⟩ ⟨0, 1, 0⟩ ⟨0, 0, -1⟩ (by norm_num)
      (by norm_num) (by norm_num) (start_det t ht)
    rw [startView, h]
    simp only [HVec.mk.injEq]
    refine ⟨?_, ?_, ?_, ?_⟩ <;> norm_num
  · simp only [HVec.dot]
    norm_num

/-- C15, evaluated for a shot from the camera as the program starts, at `(5, 1, 12)`
and looking along the negative `z` axis, with the cursor at the centre
`(600, 450)` of the window, with the projection of `main` for any non-zero value
`t` of `tan(45.0f / 2)`, and with any `glm_sqrt` whose value `r` at the dot
product `99760171 / 100000000` is not zero: the cursor is mapped to `(0, 0)` in
normalised device coordinates, the forward axis of the camera is `(0, 0, -1)`,
the matrix is invertible, and the impulse is `40 / r` times
`(1 / 2000, 1 / 10000, -2497 / 2500)`, the forward axis plus the camera position
divided by the far distance. Its cross product with the forward axis is `40 / r`
times `(-1 / 10000, 1 / 2000, 0)`, which is not zero: the impulse is not parallel
to the forward axis. -/
theorem start_shot_off_forward_axis (glm_sqrt : ℚ → ℚ) (t : ℚ) (ht : t ≠ 0)
    (hr : glm_sqrt (99760171 / 100000000) ≠ 0) :
    cursorNDC 600 450 = ⟨0, 0, 1, 1⟩ ∧
    forwardAxis startView = ⟨0, 0, -1⟩ ∧
    (Mat4.inverse ((projectionMatrix t).mul startView)).IsInverseOf
      ((projectionMatrix t).mul startView) ∧
    shootImpulse Mat4.inverse glm_sqrt (projectionMatrix t) startView 600 450
      = ⟨1 / 2000 * (1 / glm_sqrt (99760171 / 100000000)) * 40,
         1 / 10000 * (1 / glm_sqrt (99760171 / 100000000)) * 40,
         -(2497 / 2500) * (1 / glm_sqrt (99760171 / 100000000)) * 40⟩ ∧
    (shootImpulse Mat4.inverse glm_sqrt (projectionMatrix t) startView 600 450).cross
        (forwardAxis startView)
      = ⟨-(1 / 10000 * (1 / glm_sqrt (99760171 / 100000000)) * 40),
         1 / 2000 * (1 / glm_sqrt (99760171 / 100000000)) * 40, 0⟩ ∧
    (shootImpulse Mat4.inverse glm_sqrt (projectionMatrix t) startView 600 450).cross
        (forwardAxis startView) ≠ ⟨0, 0, 0⟩ := by
  obtain ⟨hu, hdot⟩ := start_unproject t ht
  have hn : cursorNDC 600 450 = ⟨0, 0, 1, 1⟩ := by
    simp only [cursorNDC, screenWidth, screenHeight, HVec.mk.injEq]
    refine ⟨?_, ?_, trivial, trivial⟩ <;> norm_num
  have hf : forwardAxis startView = ⟨0, 0, -1⟩ := by
    simp [forwardAxis, startView, lookAt]
  have hi : shootImpulse Mat4.inverse glm_sqrt (projectionMatrix t) startView 600 450
      = ⟨1 / 2000 * (1 / glm_sqrt (99760171 / 100000000)) * 40,
         1 / 10000 * (1 / glm_sqrt (99760171 / 100000000)) * 40,
         -(2497 / 2500) * (1 / glm_sqrt (99760171 / 100000000)) * 40⟩ := by
    simp only [shootImpulse, shootVector]
    rw [hu]
    simp only [normalize, hdot, HVec.scale, shootInitialSpeed]
  have hc : (shootImpulse Mat4.inverse glm_sqrt (projectionMatrix t) startView 600 450).cross
      (forwardAxis startView)
      = ⟨-(1 / 10000 * (1 / glm_sqrt (99760171 / 100000000)) * 40),
         1 / 2000 * (1 / glm_sqrt (99760171 / 100000000)) * 40, 0⟩ := by
    rw [hi, hf]
    simp only [Vec3.cross, Vec3.mk.injEq]
    refine ⟨?_, ?_, ?_⟩ <;> ring
  refine ⟨hn, hf, Mat4.inverse_isInverseOf _ (start_det t ht), hi, hc, ?_⟩
  rw [hc]
  intro h
  have hy := congrArg Vec3.y h
  simp only at hy
  have h1 : (1 : ℚ) / glm_sqrt (99760171 / 100000000) ≠ 0 := one_div_ne_zero hr
  have h2 : (1 : ℚ) / 2000 * (1 / glm_sqrt (99760171 / 100000000)) * 40 ≠ 0 :=
    mul_ne_zero (mul_ne_zero (by norm_num) h1) (by norm_num)
  exact h2 hy

/-- C15 at the start of the program, with `2789 / 5000` for `tan(45.0f / 2)` and
the square root `sqrtExact`. -/
theorem start_shot_off_forward_axis_witness :
    (2789 / 5000 : ℚ) ≠ 0 ∧ sqrtExact (99760171 / 100000000) ≠ 0 ∧
    forwardAxis startView = ⟨0, 0, -1⟩ ∧
    (shootImpulse Mat4.inverse sqrtExact (projectionMatrix (2789 / 5000)) startView 600 450).cross
        (forwardAxis startView) ≠ ⟨0, 0, 0⟩ :=
  ⟨by norm_num, sqrtExact_ne_zero _ (by norm_num),
    (start_shot_off_forward_axis sqrtExact (2789 / 5000) (by norm_num)
      (sqrtExact_ne_zero _ (by norm_num))).2.1,
    (start_shot_off_forward_axis sqrtExact (2789 / 5000) (by norm_num)
      (sqrtExact_ne_zero _ (by norm_num))).2.2.2.2.2⟩

/-! ## Two consecutive spawns -/

theorem readParticle_set (ps : List Particle) (k m : Int) (x : Particle) (hk0 : 0 ≤ k)
    (hk : k < ps.length) (hm0 : 0 ≤ m) :
    readParticle (ps.set k.toNat x) m = if m = k then some x else readParticle ps m := by
  simp only [readParticle, hm0, if_true]
  by_cases hmk : m = k
  · subst hmk
    simp only [if_true]
    rw [List.getElem?_set_self (by omega)]
  · simp only [hmk, if_false]
    rw [List.getElem?_set_ne (by omega)]

theorem isDead_set_ne (ps : List Particle) (k m : Int) (x : Particle) (hk0 : 0 ≤ k)
    (hk : k < ps.length) (hm0 : 0 ≤ m) (hmk : m ≠ k) :
    isDead (ps.set k.toNat x) m = isDead ps m := by
  simp only [isDead, readParticle_set ps k m x hk0 hk hm0, hmk, if_false]

theorem isDead_set_respawn (ps : List Particle) (k : Int) (rnd : Int) (p : Particle)
    (velocity : Vec3) (transform : btTransform) (obj_size : Vec3) (hk0 : 0 ≤ k)
    (hk : k < ps.length) :
    isDead (ps.set k.toNat (RespawnParticle rnd p velocity transform obj_size)) k = false := by
  simp only [isDead, readParticle_set ps k k _ hk0 hk hk0, if_true]
  simp [RespawnParticle]

/-- With the cursor at most `particleNum` and a dead slot below `particleNum`, the
slot the search settles on is dead and below `particleNum`. -/
theorem searchResult_dead (s : Pool) (hl0 : 0 ≤ s.lastUsedParticle)
    (hlp : s.lastUsedParticle ≤ s.particleNum) (a : Int) (ha0 : 0 ≤ a)
    (ha : a < s.particleNum) (hd : isDead s.particles a = true) :
    isDead s.particles (searchResult s) = true ∧ 0 ≤ searchResult s ∧
      searchResult s < s.particleNum := by
  unfold searchResult
  cases hf : (cyclicOrder s.lastUsedParticle s.particleNum).find? (isDead s.particles) with
  | none =>
    exfalso
    rw [List.find?_eq_none] at hf
    have := hf a (mem_cyclicOrder_of_lt hl0 hlp ha0 ha)
    rw [hd] at this
    exact this rfl
  | some i =>
    have hm := mem_cyclicOrder_lt hl0 (List.mem_of_find?_eq_some hf)
    simp only [Option.getD_some]
    exact ⟨List.find?_some hf, hm.1, by omega⟩

/-- With the cursor at most `particleNum` and no dead slot below `particleNum`, the
search settles on slot 0. -/
theorem searchResult_alive (s : Pool) (hl0 : 0 ≤ s.lastUsedParticle)
    (hlp : s.lastUsedParticle ≤ s.particleNum)
    (halive : ∀ k : Int, 0 ≤ k → k < s.particleNum → isDead s.particles k = false) :
    searchResult s = 0 := by
  unfold searchResult
  have hnone : (cyclicOrder s.lastUsedParticle s.particleNum).find? (isDead s.particles)
      = none := by
    rw [List.find?_eq_none]
    intro j hj
    have hm := mem_cyclicOrder_lt hl0 hj
    simp [halive j hm.1 (by omega)]
  rw [hnone]
  rfl

theorem RespawnParticle_again (rnd1 rnd2 : Int) (p : Particle) (velocity : Vec3)
    (transform : btTransform) (obj_size : Vec3) :
    RespawnParticle rnd2 (RespawnParticle rnd1 p velocity transform obj_size) velocity transform
        obj_size
      = RespawnParticle rnd2 p velocity transform obj_size := by
  simp [RespawnParticle]

/-- C21: for a pool with `0 ≤ lastUsedParticle < particleNum ≤ size`, two
consecutive spawns for one body (`FirstUnusedParticle`, `RespawnParticle`, twice).
When two different slots below `particleNum` are dead, the spawns succeed on two
different slots, both dead before and below `particleNum`, and afterwards each of
the two slots holds the particle its own spawn wrote. When no slot below
`particleNum` is dead, both spawns land in slot 0 and the pool afterwards is the
one the second spawn alone would have left. -/
theorem two_spawns_two_slots (s : Pool) (rnd1 rnd2 : Int) (velocity : Vec3)
    (transform : btTransform) (obj_size : Vec3)
    (hl0 : 0 ≤ s.lastUsedParticle) (hlp : s.lastUsedParticle < s.particleNum)
    (hpn : s.particleNum ≤ s.particles.length) :
    ((∃ a b : Int, a ≠ b ∧ 0 ≤ a ∧ a < s.particleNum ∧ 0 ≤ b ∧ b < s.particleNum ∧
        isDead s.particles a = true ∧ isDead s.particles b = true) →
      ∃ (i j : Int) (s1 s2 : Pool) (pi pj : Particle),
        spawn rnd1 velocity transform obj_size s = some (i, s1) ∧
        spawn rnd2 velocity transform obj_size s1 = some (j, s2) ∧
        i ≠ j ∧ 0 ≤ i ∧ i < s.particleNum ∧ 0 ≤ j ∧ j < s.particleNum ∧
        readParticle s.particles i = some pi ∧ pi.Life ≤ 0 ∧
        readParticle s.particles j = some pj ∧ pj.Life ≤ 0 ∧
        readParticle s2.particles i
          = some (RespawnParticle rnd1 pi velocity transform obj_size) ∧
        readParticle s2.particles j
          = some (RespawnParticle rnd2 pj velocity transform obj_size)) ∧
    ((∀ k : Int, 0 ≤ k → k < s.particleNum → isDead s.particles k = false) →
      ∃ (s1 s2 : Pool) (p0 : Particle),
        spawn rnd1 velocity transform obj_size s = some (0, s1) ∧
        spawn rnd2 velocity transform obj_size s1 = some (0, s2) ∧
        readParticle s.particles 0 = some p0 ∧
        readParticle s1.particles 0
          = some (RespawnParticle rnd1 p0 velocity transform obj_size) ∧
        readParticle s2.particles 0
          = some (RespawnParticle rnd2 p0 velocity transform obj_size) ∧
        spawn rnd2 velocity transform obj_size s = some (0, s2)) := by
  have hok : PoolOK s := ⟨by omega, by omega, hpn, hl0, by omega⟩
  obtain ⟨p, hp, hs1⟩ := spawn_eq rnd1 velocity transform obj_size s hok
  have hb := searchResult_bounds s hok.1 hpn hl0 (by omega)
  obtain ⟨i, hi⟩ : ∃ i, searchResult s = i := ⟨_, rfl⟩
  rw [hi] at hp hs1 hb
  obtain ⟨s1, hs1d⟩ : ∃ s1 : Pool, s1 = ⟨s.particles.set i.toNat
      (RespawnParticle rnd1 p velocity transform obj_size), s.particleNum, i⟩ := ⟨_, rfl⟩
  rw [← hs1d] at hs1
  have hs1p : s1.particles = s.particles.set i.toNat
      (RespawnParticle rnd1 p velocity transform obj_size) := by rw [hs1d]
  have hs1n : s1.particleNum = s.particleNum := by rw [hs1d]
  have hs1l : s1.lastUsedParticle = i := by rw [hs1d]
  have hs1len : s1.particles.length = s.particles.length := by rw [hs1p]; simp
  have hok1 : PoolOK s1 := by
    refine ⟨?_, ?_, ?_, ?_, ?_⟩
    · rw [hs1len]; exact hok.1
    · rw [hs1n]; exact hok.2.1
    · rw [hs1n, hs1len]; exact hpn
    · rw [hs1l]; exact hb.1
    · rw [hs1l, hs1len]; omega
  obtain ⟨q, hq, hs2⟩ := spawn_eq rnd2 velocity transform obj_size s1 hok1
  obtain ⟨j, hj⟩ : ∃ j, searchResult s1 = j := ⟨_, rfl⟩
  rw [hj] at hq hs2
  have hb1 := searchResult_bounds s1 hok1.1 hok1.2.2.1 hok1.2.2.2.1 hok1.2.2.2.2
  rw [hj, hs1len] at hb1
  constructor
  · rintro ⟨a, b, hab, ha0, ha, hb0, hbn, hda, hdb⟩
    obtain ⟨hdi, hi0, hin⟩ := searchResult_dead s hl0 (le_of_lt hlp) a ha0 ha hda
    rw [hi] at hdi hi0 hin
    obtain ⟨c, hc0, hcn, hci, hdc⟩ : ∃ c : Int, 0 ≤ c ∧ c < s.particleNum ∧ c ≠ i ∧
        isDead s.particles c = true := by
      by_cases h : a = i
      · exact ⟨b, hb0, hbn, fun h2 => hab (h.trans h2.symm), hdb⟩
      · exact ⟨a, ha0, ha, h, hda⟩
    have hdc1 : isDead s1.particles c = true := by
      rw [hs1p, isDead_set_ne s.particles i c _ hb.1 hb.2 hc0 hci]
      exact hdc
    obtain ⟨hdj, hj0, hjn⟩ := searchResult_dead s1 (by rw [hs1l]; exact hi0)
      (by rw [hs1l, hs1n]; exact le_of_lt hin) c hc0 (by rw [hs1n]; exact hcn) hdc1
    rw [hj] at hdj hj0 hjn
    rw [hs1n] at hjn
    have hji : j ≠ i := by
      intro h
      rw [h, hs1p, isDead_set_respawn s.particles i rnd1 p velocity transform obj_size
        hb.1 hb.2] at hdj
      exact Bool.noConfusion hdj
    have hqj : readParticle s.particles j = some q := by
      rw [hs1p, readParticle_set s.particles i j _ hb.1 hb.2 hj0, if_neg hji] at hq
      exact hq
    obtain ⟨p2, hp2, hpl⟩ := (isDead_eq_true_iff _ _).1 hdi
    rw [hp] at hp2
    have hpe : p = p2 := Option.some.inj hp2
    have hdjs : isDead s.particles j = true := by
      rw [hs1p, isDead_set_ne s.particles i j _ hb.1 hb.2 hj0 hji] at hdj
      exact hdj
    obtain ⟨q2, hq2, hql⟩ := (isDead_eq_true_iff _ _).1 hdjs
    rw [hqj] at hq2
    have hqe : q = q2 := Option.some.inj hq2
    refine ⟨i, j, s1, _, p, q, hs1, hs2, Ne.symm hji, hi0, hin, hj0, hjn, hp,
      by rw [hpe]; exact hpl, hqj, by rw [hqe]; exact hql, ?_, ?_⟩
    · simp only
      rw [readParticle_set s1.particles j i _ hb1.1 (by rw [hs1len]; exact hb1.2) hi0,
        if_neg (Ne.symm hji), hs1p, readParticle_set s.particles i i _ hb.1 hb.2 hi0, if_pos rfl]
    · simp only
      rw [readParticle_set s1.particles j j _ hb1.1 (by rw [hs1len]; exact hb1.2) hj0, if_pos rfl]
  · intro halive
    have h0 : i = 0 := by
      rw [← hi]
      exact searchResult_alive s hl0 (le_of_lt hlp) halive
    subst h0
    have halive1 : ∀ k : Int, 0 ≤ k → k < s1.particleNum → isDead s1.particles k = false := by
      intro k hk0 hk
      rw [hs1n] at hk
      by_cases hki : k = 0
      · rw [hki, hs1p]
        exact isDead_set_respawn s.particles 0 rnd1 p velocity transform obj_size hb.1 hb.2
      · rw [hs1p, isDead_set_ne s.particles 0 k _ hb.1 hb.2 hk0 hki]
        exact halive k hk0 hk
    have h1 : j = 0 := by
      rw [← hj]
      exact searchResult_alive s1 (by rw [hs1l]) (by rw [hs1l, hs1n]; omega) halive1
    subst h1
    have hq0 : q = RespawnParticle rnd1 p velocity transform obj_size := by
      rw [hs1p, readParticle_set s.particles 0 0 _ hb.1 hb.2 (le_refl 0), if_pos rfl] at hq
      exact (Option.some.inj hq).symm
    obtain ⟨p3, hp3, hs3⟩ := spawn_eq rnd2 velocity transform obj_size s hok
    rw [hi] at hp3 hs3
    rw [hp] at hp3
    have hp3e : p = p3 := Option.some.inj hp3
    refine ⟨s1, _, p, hs1, hs2, hp, ?_, ?_, ?_⟩
    · rw [hs1p, readParticle_set s.particles 0 0 _ hb.1 hb.2 (le_refl 0), if_pos rfl]
    · simp only
      rw [readParticle_set s1.particles 0 0 _ hb1.1 (by rw [hs1len]; exact hb1.2) (le_refl 0),
        if_pos rfl, hq0, RespawnParticle_again]
    · rw [hs3, ← hp3e, hq0, RespawnParticle_again, hs1p, hs1n]
      simp

/-- C21, at the pool `[dead, live, dead]` with the cursor on slot 1, where the two
spawns take two different slots, and at a pool of three live particles, where
both take slot 0 and only the second one is left. -/
theorem two_spawns_two_slots_witness :
    (∃ (i j : Int) (s1 s2 : Pool),
      spawn 7 ⟨1, 2, 3⟩ ⟨⟨0, 1, 0⟩⟩ ball_size ⟨[Particle.new, liveParticle, Particle.new], 3, 1⟩
        = some (i, s1) ∧
      spawn 8 ⟨1, 2, 3⟩ ⟨⟨0, 1, 0⟩⟩ ball_size s1 = some (j, s2) ∧ i ≠ j ∧
      readParticle s2.particles i
        = some (RespawnParticle 7 Particle.new ⟨1, 2, 3⟩ ⟨⟨0, 1, 0⟩⟩ ball_size) ∧
      readParticle s2.particles j
        = some (RespawnParticle 8 Particle.new ⟨1, 2, 3⟩ ⟨⟨0, 1, 0⟩⟩ ball_size)) ∧
    (∃ (s1 s2 : Pool),
      spawn 7 ⟨1, 2, 3⟩ ⟨⟨0, 1, 0⟩⟩ ball_size ⟨[liveParticle, liveParticle, liveParticle], 3, 2⟩
        = some (0, s1) ∧
      spawn 8 ⟨1, 2, 3⟩ ⟨⟨0, 1, 0⟩⟩ ball_size s1 = some (0, s2) ∧
      readParticle s2.particles 0
        = some (RespawnParticle 8 liveParticle ⟨1, 2, 3⟩ ⟨⟨0, 1, 0⟩⟩ ball_size) ∧
      spawn 8 ⟨1, 2, 3⟩ ⟨⟨0, 1, 0⟩⟩ ball_size ⟨[liveParticle, liveParticle, liveParticle], 3, 2⟩
        = some (0, s2)) := by
  constructor
  · obtain ⟨i, j, s1, s2, pi, pj, h1, h2, hne, hi0, hi3, hj0, hj3, hpi, hli, hpj, hlj, hri, hrj⟩ :=
      (two_spawns_two_slots ⟨[Particle.new, liveParticle, Particle.new], 3, 1⟩ 7 8 ⟨1, 2, 3⟩
        ⟨⟨0, 1, 0⟩⟩ ball_size (by decide) (by decide) (by decide)).1
        ⟨0, 2, by decide, by decide, by decide, by decide, by decide,
          (isDead_eq_true_iff _ _).2 ⟨Particle.new, rfl, by norm_num [Particle.new]⟩,
          (isDead_eq_true_iff _ _).2 ⟨Particle.new, rfl, by norm_num [Particle.new]⟩⟩
    have hdead : ∀ (k : Int) (p : Particle), 0 ≤ k → k < 3 →
        readParticle [Particle.new, liveParticle, Particle.new] k = some p → p.Life ≤ 0 →
        p = Particle.new := by
      intro k p hk0 hk3 hp hl
      interval_cases k
      · exact (Option.some.inj hp).symm
      · have : p = liveParticle := (Option.some.inj hp).symm
        rw [this] at hl
        norm_num [liveParticle] at hl
      · exact (Option.some.inj hp).symm
    have e1 := hdead i pi hi0 hi3 hpi hli
    have e2 := hdead j pj hj0 hj3 hpj hlj
    rw [e1] at hri
    rw [e2] at hrj
    exact ⟨i, j, s1, s2, h1, h2, hne, hri, hrj⟩
  · obtain ⟨s1, s2, p0, h1, h2, hp0, -, hr, h3⟩ :=
      (two_spawns_two_slots ⟨[liveParticle, liveParticle, liveParticle], 3, 2⟩ 7 8 ⟨1, 2, 3⟩
        ⟨⟨0, 1, 0⟩⟩ ball_size (by decide) (by decide) (by decide)).2
        (by
          intro k hk0 hk3
          have hk3 : k < 3 := hk3
          interval_cases k <;>
            exact isDead_eq_false_of_alive _ _ liveParticle rfl (by norm_num [liveParticle]))
    have e0 : p0 = liveParticle := (Option.some.inj hp0).symm
    rw [e0] at hr
    exact ⟨s1, s2, h1, h2, hr, h3⟩

/-! ## The update loop runs once per kept body -/

theorem tickParticle_Life (deltaTime : ℚ) (p : Particle) :
    (tickParticle deltaTime p).Life = p.Life - deltaTime := by
  unfold tickParticle
  simp only
  split <;> rfl

/-- What one visit does to the pool in a pass that has not stopped, whether or not
the destructor of the body has run before: the size stays, a body below the
threshold leaves the pool alone, and for a body at or above it every slot that
no spawn of the visit wrote has its `Life` reduced by `deltaTime`. -/
theorem visitBody_pool (rand : Nat → Int) (deltaTime : ℚ) (k : Nat) (sc : Scene)
    (body : RigidBody) (hnh : sc.fault ≠ some Fault.outOfRange)
    (hb : sc.bodies[k]? = some body) (hpool : PoolOK sc.pool) :
    ∃ evs : List Event,
      (visitBody rand deltaTime (k : Int) sc).trace = sc.trace ++ evs ∧
      (visitBody rand deltaTime (k : Int) sc).pool.particles.length
        = sc.pool.particles.length ∧
      (aboveThreshold body = false → (visitBody rand deltaTime (k : Int) sc).pool = sc.pool) ∧
      ∀ (j : Nat) (p : Particle), sc.pool.particles[j]? = some p →
        (∀ e ∈ evs, Event.isSpawnAt (j : Int) e = false) →
        ∃ q, (visitBody rand deltaTime (k : Int) sc).pool.particles[j]? = some q ∧
          q.Life = p.Life - ((if aboveThreshold body then 1 else 0 : Nat) : ℚ) * deltaTime := by
  have hrb : readBody sc.bodies (k : Int) = some body := by
    simp [readBody, hb]
  by_cases hy : body.transform.origin.y < -7
  · have hv := visitBody_culled_go rand deltaTime (k : Int) sc body hnh hrb hy
    have ha : aboveThreshold body = false := by
      simp [aboveThreshold, hy]
    refine ⟨[Event.readTransform (k : Int)] ++ [Event.destroyBody (k : Int)], ?_, ?_, ?_, ?_⟩
    · rw [hv]; simp
    · rw [hv]
    · intro _; rw [hv]
    · intro j p hp _
      refine ⟨p, by rw [hv]; exact hp, ?_⟩
      simp [ha]
  · have hy' : -7 ≤ body.transform.origin.y := not_lt.mp hy
    have ha : aboveThreshold body = true := by
      simp [aboveThreshold, hy']
    obtain ⟨slot1, slot2, pool2, hv, -, hlen, -, hk⟩ :=
      visitBody_kept_go rand deltaTime (k : Int) sc body hnh hrb hy' hpool
    refine ⟨[Event.readTransform (k : Int)] ++ [Event.spawnParticle (k : Int) slot1]
        ++ [Event.spawnParticle (k : Int) slot2] ++ [Event.tickParticles]
        ++ (drawnParticles (tick deltaTime pool2.particles)).map Event.drawParticle
        ++ [Event.drawObject (k : Int) (objectKind k) (objectSize (objectKind k))],
      ?_, ?_, ?_, ?_⟩
    · rw [hv]; simp
    · rw [hv]
      simp only [tick, List.length_map]
      exact hlen
    · intro hab
      rw [ha] at hab
      exact Bool.noConfusion hab
    · intro j p hp hno
      have hs1 : (j : Int) ≠ slot1 := by
        intro h
        have := hno (Event.spawnParticle (k : Int) slot1) (by simp)
        simp [Event.isSpawnAt, h] at this
      have hs2 : (j : Int) ≠ slot2 := by
        intro h
        have := hno (Event.spawnParticle (k : Int) slot2) (by simp)
        simp [Event.isSpawnAt, h] at this
      have hp2 : pool2.particles[j]? = some p := by
        rw [hk j hs1 hs2]
        exact hp
      refine ⟨tickParticle deltaTime p, ?_, ?_⟩
      · rw [hv]
        simp only [tick_getElem?, hp2, Option.map_some']
      · rw [tickParticle_Life]
        simp [ha]

/-- The loop over the positions `k, ..., k+n-1` in a pass that has not stopped,
with the pool within its bounds, whether or not the destructor of some of the
bodies has run before: the pool keeps its size, it is left alone when no body of
the range passes the cull test, and a slot that no spawn of the loop wrote has
its `Life` reduced by `deltaTime` once for each body that passes the cull
test. -/
theorem bodyLoop_pool (rand : Nat → Int) (deltaTime : ℚ) :
    ∀ (n k : Nat) (sc : Scene), sc.fault ≠ some Fault.outOfRange → PoolOK sc.pool →
      k + n ≤ sc.bodies.length →
      ∃ evs : List Event,
        (bodyLoop rand deltaTime n (k : Int) sc).trace = sc.trace ++ evs ∧
        (bodyLoop rand deltaTime n (k : Int) sc).pool.particles.length
          = sc.pool.particles.length ∧
        (keptSlice sc.bodies k n = 0 → (bodyLoop rand deltaTime n (k : Int) sc).pool = sc.pool) ∧
        ∀ (j : Nat) (p : Particle), sc.pool.particles[j]? = some p →
          (∀ e ∈ evs, Event.isSpawnAt (j : Int) e = false) →
          ∃ q, (bodyLoop rand deltaTime n (k : Int) sc).pool.particles[j]? = some q ∧
            q.Life = p.Life - (keptSlice sc.bodies k n : ℚ) * deltaTime := by
  intro n
  induction n with
  | zero =>
    intro k sc _ _ _
    refine ⟨[], by simp [bodyLoop], rfl, fun _ => rfl, ?_⟩
    intro j p hp _
    exact ⟨p, hp, by simp [keptSlice]⟩
  | succ n ih =>
    intro k sc hf hpool hlen
    have hlt : k < sc.bodies.length := by omega
    have hb : sc.bodies[k]? = some sc.bodies[k] := List.getElem?_eq_getElem hlt
    obtain ⟨-, -, f1, p1, l1, o1, m1, -, -, -⟩ :=
      visitBody_summary rand deltaTime k sc sc.bodies[k] hf hb hpool
    obtain ⟨e1, t1, n1, u1, r1⟩ := visitBody_pool rand deltaTime k sc sc.bodies[k] hf hb hpool
    obtain ⟨e2, t2, n2, u2, r2⟩ :=
      ih (k + 1) (visitBody rand deltaTime (k : Int) sc) f1 p1 (by rw [l1]; omega)
    have hc : ((k : Int) + 1) = ((k + 1 : Nat) : Int) := by push_cast; rfl
    have hloop : bodyLoop rand deltaTime (n + 1) (k : Int) sc
        = bodyLoop rand deltaTime n ((k + 1 : Nat) : Int) (visitBody rand deltaTime (k : Int) sc) := by
      simp only [bodyLoop]
      rw [hc]
    have hks := keptSlice_congr _ _ m1 (k + 1) n
    have hstep := keptSlice_succ sc.bodies k n _ hb
    refine ⟨e1 ++ e2, ?_, ?_, ?_, ?_⟩
    · rw [hloop, t2, t1, List.append_assoc]
    · rw [hloop, n2, n1]
    · intro h0
      rw [hstep] at h0
      have ha : aboveThreshold sc.bodies[k] = false := by
        cases h : aboveThreshold sc.bodies[k] with
        | false => rfl
        | true => rw [h] at h0; simp at h0
      have hz : keptSlice sc.bodies (k + 1) n = 0 := by omega
      rw [hloop, u2 (by rw [hks]; exact hz), u1 ha]
    · intro j p hp hno
      obtain ⟨q1, hq1, hl1⟩ := r1 j p hp (fun e he => hno e (List.mem_append_left _ he))
      obtain ⟨q2, hq2, hl2⟩ := r2 j q1 hq1 (fun e he => hno e (List.mem_append_right _ he))
      refine ⟨q2, by rw [hloop]; exact hq2, ?_⟩
      rw [hl2, hl1, hks, hstep]
      push_cast
      ring

/-- C22: in every pass with frame delta `deltaTime` that has not been stopped by a
read outside a vector, with the pool within its bounds, whether or not the
destructor of some bodies has run in an earlier pass, where `keptCount` bodies
pass the cull test: the update loop over the pool runs `keptCount` times, the
pool keeps its size, a particle in a slot that no spawn of the pass wrote has its
`Life` reduced by `keptCount * deltaTime`, and when `keptCount = 0` the pool is
left as it was (no field of any particle changes). -/
theorem ticks_once_per_kept_body (rand : Nat → Int) (deltaTime : ℚ) (sc : Scene)
    (hnh : sc.fault ≠ some Fault.outOfRange) (hpool : PoolOK sc.pool) :
    ∃ evs : List Event,
      (framePass rand deltaTime sc).trace = sc.trace ++ evs ∧
      (framePass rand deltaTime sc).fault ≠ some Fault.outOfRange ∧
      evs.countP Event.isTick = keptCount sc.bodies ∧
      (framePass rand deltaTime sc).pool.particles.length = sc.pool.particles.length ∧
      (∀ (j : Nat) (p : Particle), sc.pool.particles[j]? = some p →
        (∀ e ∈ evs, Event.isSpawnAt (j : Int) e = false) →
        ∃ q, (framePass rand deltaTime sc).pool.particles[j]? = some q ∧
          q.Life = p.Life - (keptCount sc.bodies : ℚ) * deltaTime) ∧
      (keptCount sc.bodies = 0 → (framePass rand deltaTime sc).pool = sc.pool) := by
  have hp : planeNum = ((3 : Nat) : Int) := rfl
  have hpn : planeNum.toNat = 3 := rfl
  by_cases hlen : 3 ≤ sc.bodies.length
  · have hn : ((sc.bodies.length : Int) - planeNum).toNat = sc.bodies.length - 3 := by
      rw [hp]; omega
    obtain ⟨evs, t, f, -, -, -, c, -, -⟩ :=
      bodyLoop_counts rand deltaTime (sc.bodies.length - 3) 3 sc hnh hpool (by omega)
    obtain ⟨evs2, t2, n2, u2, r2⟩ :=
      bodyLoop_pool rand deltaTime (sc.bodies.length - 3) 3 sc hnh hpool (by omega)
    have he : evs2 = evs := by
      rw [t] at t2
      exact (List.append_cancel_left t2).symm
    subst he
    have hfp : framePass rand deltaTime sc
        = bodyLoop rand deltaTime (sc.bodies.length - 3) ((3 : Nat) : Int) sc := by
      simp only [framePass, hn]
      rw [hp]
    have hk : keptCount sc.bodies = keptSlice sc.bodies 3 (sc.bodies.length - 3) := by
      rw [keptCount, hpn]
    rw [hfp, hk]
    exact ⟨evs2, t, f, c, n2, r2, u2⟩
  · have hn : ((sc.bodies.length : Int) - planeNum).toNat = 0 := by
      rw [hp]; omega
    have hfp : framePass rand deltaTime sc = sc := by
      simp only [framePass, hn, bodyLoop]
    have hk : keptCount sc.bodies = 0 := by
      have h0 : sc.bodies.length - 3 = 0 := by omega
      simp [keptCount, hpn, h0, keptSlice]
    rw [hfp, hk]
    refine ⟨[], by simp, hnh, by simp, rfl, ?_, fun _ => rfl⟩
    intro j p hp _
    exact ⟨p, hp, by simp⟩

/-- On `sixPoolScene` no spawn of the pass lands in slot 4 or slot 5. -/
theorem framePass_sixPoolScene_slots :
    ∀ e ∈ (framePass zeroRand (1 / 60) sixPoolScene).trace,
      Event.isSpawnAt 4 e = false ∧ Event.isSpawnAt 5 e = false := by
  intro e he
  simp [framePass, sixPoolScene, planeNum, bodyLoop, visitBody, useBody, readBody, restingBody,
    spawnStep, spawn, FirstUnusedParticle, scanDead, readParticle, tickAndDraw, drawObject,
    tick, tickParticle, Particle.new, RespawnParticle, zeroRand,
    drawnParticles, isDrawn, objectSize, objectKind,
    total_pins, num_rows, pin_size, ball_size, rColor, Vec3.scale, Vec3.sub] at he
  norm_num [scanDead, readParticle, tickParticle, Vec3.scale, Vec3.sub] at he
  simp [scanDead, readParticle, tickParticle, Vec3.scale, Vec3.sub] at he
  norm_num [scanDead, readParticle, tickParticle, Vec3.scale, Vec3.sub] at he
  simp [scanDead, readParticle, tickParticle, Vec3.scale, Vec3.sub] at he
  norm_num [scanDead, readParticle, tickParticle, Vec3.scale, Vec3.sub] at he
  cases e with
  | spawnParticle i k =>
    simp only [Event.isSpawnAt, decide_eq_false_iff_not]
    constructor
    · rintro rfl
      simp at he
    · rintro rfl
      simp at he
  | _ => simp [Event.isSpawnAt]

/-- C22, on a pass after a cull: three planes, a body at `y = 0`, a body at
`y = -7.1` whose destructor has run in an earlier pass and a body at `y = 2`,
with a fresh pool of six particles. The update loop runs twice, and slot 4, which
no spawn of the pass wrote, goes from `Life = 0` to `Life = -2/60`. On three
planes and one fallen body the pool is left as it was. -/
theorem ticks_once_per_kept_body_witness :
    (∃ (evs : List Event) (q : Particle),
      (framePass zeroRand (1 / 60) sixPoolScene).trace = sixPoolScene.trace ++ evs ∧
      evs.countP Event.isTick = 2 ∧
      (framePass zeroRand (1 / 60) sixPoolScene).pool.particles[4]? = some q ∧
      q.Life = -(2 / 60)) ∧
    (framePass zeroRand (1 / 60) fallenScene).pool = fallenScene.pool := by
  constructor
  · have hpool : PoolOK sixPoolScene.pool := by
      refine ⟨?_, ?_, ?_, ?_, ?_⟩ <;> decide
    obtain ⟨evs, ht, -, hc, -, hr, -⟩ :=
      ticks_once_per_kept_body zeroRand (1 / 60) sixPoolScene
        (fun h => Option.noConfusion h) hpool
    have hk : keptCount sixPoolScene.bodies = 2 := by
      simp [keptCount, keptSlice, sixPoolScene, planeNum, aboveThreshold, restingBody,
        List.countP_cons]
      norm_num
    have hev : evs = (framePass zeroRand (1 / 60) sixPoolScene).trace := by
      rw [ht]
      rfl
    obtain ⟨q, hq, hl⟩ := hr 4 Particle.new rfl
      (fun e he => (framePass_sixPoolScene_slots e (by rw [← hev]; exact he)).1)
    refine ⟨evs, q, ht, by rw [hc, hk], hq, ?_⟩
    rw [hl, hk]
    norm_num [Particle.new]
  · have hpool : PoolOK fallenScene.pool := by
      refine ⟨?_, ?_, ?_, ?_, ?_⟩ <;> decide
    obtain ⟨-, -, -, -, -, -, hu⟩ :=
      ticks_once_per_kept_body zeroRand (1 / 60) fallenScene
        (fun h => Option.noConfusion h) hpool
    have hk : keptCount fallenScene.bodies = 0 := by
      simp [keptCount, keptSlice, fallenScene, planeNum, aboveThreshold, restingBody,
        List.countP_cons]
      norm_num
    exact hu hk

end Project
